import Mathlib

/-!
# Finance tracker backend: dashboard aggregation

A shallow embedding of `src/routes/dashboard.js` (the `/summary` and `/time-data`
handlers) together with the parts of `src/models/Transaction.js` and of the
ECMAScript `Date` built-ins that those handlers rely on.

Conventions.
* An instant is an `Int`: milliseconds since 1970-01-01T00:00:00Z (the time value of
  a JavaScript `Date`).
* A finite Number is the rational it stands for (`ℚ`). The definitions named after
  the source compute on amounts without rounding; the definitions with the suffix
  `A` take the four operators as a parameter, and `doubleArith` rounds each result
  to the nearest IEEE 754 double, as the handlers do.
* A plain JavaScript object used as a dictionary is an association list in
  insertion order (`JsMap`).
-/

namespace FinanceTracker

/-! ## ECMAScript time values (ECMA-262, "Date objects") -/

/-- Milliseconds per day: `1000 * 60 * 60 * 24`. -/
def msPerDay : Int := 86400000

/-- Day number of a time value: `Day(t) = floor(t / msPerDay)`. -/
def day (t : Int) : Int := t / msPerDay

/-- Milliseconds since the start of the day: `TimeWithinDay(t) = t modulo msPerDay`. -/
def timeWithinDay (t : Int) : Int := t % msPerDay

/-- Day number of 1 January of year `y`: `DayFromYear(y)`. -/
def dayFromYear (y : Int) : Int :=
  365 * (y - 1970) + (y - 1969) / 4 - (y - 1901) / 100 + (y - 1601) / 400

/-- Gregorian leap-year test, as in `DaysInYear(y)`. -/
def inLeapYear (y : Int) : Bool :=
  if y % 4 ≠ 0 then false
  else if y % 100 ≠ 0 then true
  else if y % 400 ≠ 0 then false
  else true

/-- The value `InLeapYear` as a number, 0 or 1. -/
def leapDays (y : Int) : Int := if inLeapYear y then 1 else 0

/-- `YearFromTime`, on day numbers: the largest `y` with `dayFromYear y ≤ d`, found
from an estimate (a Gregorian year has 146097/400 days on average) corrected by one. -/
def yearFromDay (d : Int) : Int :=
  let y0 := 1970 + (400 * d) / 146097
  if dayFromYear (y0 + 1) ≤ d then y0 + 1
  else if d < dayFromYear y0 then y0 - 1
  else y0

/-- Number of days of the year that precede month `m` (0 = January), with `l` the
leap-day count of the year: the thresholds of the `MonthFromTime` table. -/
def monthStart (m : Int) (l : Int) : Int :=
  if m ≤ 0 then 0 else if m = 1 then 31 else if m = 2 then 59 + l
  else if m = 3 then 90 + l else if m = 4 then 120 + l else if m = 5 then 151 + l
  else if m = 6 then 181 + l else if m = 7 then 212 + l else if m = 8 then 243 + l
  else if m = 9 then 273 + l else if m = 10 then 304 + l else 334 + l

/-- `MonthFromTime`, on day numbers: 0 = January .. 11 = December. -/
def monthFromDay (d : Int) : Int :=
  let y := yearFromDay d
  let w := d - dayFromYear y
  let l := leapDays y
  if w < 31 then 0 else if w < 59 + l then 1 else if w < 90 + l then 2
  else if w < 120 + l then 3 else if w < 151 + l then 4 else if w < 181 + l then 5
  else if w < 212 + l then 6 else if w < 243 + l then 7 else if w < 273 + l then 8
  else if w < 304 + l then 9 else if w < 334 + l then 10 else 11

/-- `DateFromTime`, on day numbers: the day of the month, starting at 1. -/
def dateFromDay (d : Int) : Int :=
  let y := yearFromDay d
  d - dayFromYear y - monthStart (monthFromDay d) (leapDays y) + 1

/-- `WeekDay(t)`, on day numbers: 0 = Sunday .. 6 = Saturday. -/
def weekDay (d : Int) : Int := (d + 4) % 7

/-- `MakeDay(year, month, date)`: months outside 0..11 carry into the year and the
date counts from the first of the month, so 0 is the last day of the month before. -/
def makeDay (y m dt : Int) : Int :=
  let ym := y + m / 12
  let mn := m % 12
  dayFromYear ym + monthStart mn (leapDays ym) + dt - 1

/-- Year conversion of `Date.UTC`: a year from 0 to 99 stands for 1900 + year. -/
def makeFullYear (y : Int) : Int := if 0 ≤ y ∧ y ≤ 99 then 1900 + y else y

/-- `Date.UTC(y, m, d, 0, 0, 0)`. -/
def dateUTC (y m d : Int) : Int := makeDay (makeFullYear y) m d * msPerDay

/-- `getDate()` in a zone whose offset from UTC is `tz` milliseconds. -/
def getDate (tz t : Int) : Int := dateFromDay (day (t + tz))

/-- `setDate(n)` in a zone whose offset from UTC is `tz` milliseconds: the local
year, month and time of day are kept and the day of the month becomes `n`.
Daylight-saving transitions of the server zone are not modelled. -/
def setDate (tz t n : Int) : Int :=
  let lt := t + tz
  makeDay (yearFromDay (day lt)) (monthFromDay (day lt)) n * msPerDay + timeWithinDay lt - tz

/-- Short weekday name of `toLocaleDateString('en-US', { weekday: 'short' })`. -/
def weekdayShort (w : Int) : String :=
  if w = 0 then "Sun" else if w = 1 then "Mon" else if w = 2 then "Tue"
  else if w = 3 then "Wed" else if w = 4 then "Thu" else if w = 5 then "Fri" else "Sat"

/-- Offset of the zone `Asia/Kolkata` from UTC: 5 hours 30 minutes, in milliseconds. -/
def istOffset : Int := 19800000

/-- The handler's `currentYearIST`: `nowIST.getFullYear()`, where `nowIST` is built
from the wall-clock reading of `now` in `Asia/Kolkata`. -/
def currentYearIST (now : Int) : Int := yearFromDay (day (now + istOffset))

/-- The handler's `currentMonthIST`: `nowIST.getMonth()`, 0 = January. -/
def currentMonthIST (now : Int) : Int := monthFromDay (day (now + istOffset))

/-! ## Data model (`src/models/Transaction.js`) -/

/-- A stored transaction document. `type` and `category` are strings; the schema
restricts them to the enumerations below when a document is saved. -/
structure Transaction where
  user : String
  description : String
  amount : ℚ
  category : String
  type : String
  date : Int
deriving DecidableEq

/-- The `enum` of the schema field `category`. -/
def categoryEnum : List String := ["food", "transport", "utilities", "entertainment", "other"]

/-- The `enum` of the schema field `type`. -/
def typeEnum : List String := ["income", "expense"]

/-- `Transaction.find({ user, date: { $gte, $lt } })`: the stored documents of the
user, in store order, restricted to the half-open date range when one is given. -/
def Transaction.find (store : List Transaction) (user : String)
    (date : Option (Int × Int)) : List Transaction :=
  match date with
  | none => store.filter (fun t => decide (t.user = user))
  | some (gte, lt) =>
    store.filter (fun t => decide (t.user = user) && decide (gte ≤ t.date) && decide (t.date < lt))

/-! ## JavaScript objects used as dictionaries -/

/-- A dictionary object with numeric values: the own properties in insertion order.
Keys are assumed not to shadow members of `Object.prototype`; the category
enumeration of the schema contains no such name. -/
abbrev JsMap := List (String × ℚ)

/-- Property read `m[k]`; `none` is `undefined`. -/
def JsMap.get (m : JsMap) (k : String) : Option ℚ :=
  match m with
  | [] => none
  | (k', v) :: rest => if k' = k then some v else JsMap.get rest k

/-- Property write `m[k] = v`: an existing key keeps its position, a new one is
added last. -/
def JsMap.put (m : JsMap) (k : String) (v : ℚ) : JsMap :=
  match m with
  | [] => [(k, v)]
  | (k', v') :: rest => if k' = k then (k, v) :: rest else (k', v') :: JsMap.put rest k v

/-- `Object.keys(m)`. -/
def JsMap.keys (m : JsMap) : List String := m.map Prod.fst

/-! ## `GET /summary` -/

/-- An element of `summary.expenseCategories`. -/
structure CategoryAmount where
  category : String
  amount : ℚ
deriving DecidableEq

/-- The object `summary.monthlyStats`. -/
structure MonthlyStats where
  income : ℚ
  expense : ℚ
deriving DecidableEq

/-- The response object of `GET /summary`. -/
structure Summary where
  totalIncome : ℚ
  totalExpense : ℚ
  balance : ℚ
  recentTransactions : List Transaction
  monthlyStats : MonthlyStats
  expenseCategories : List CategoryAmount
deriving DecidableEq

/-- The variables that the `forEach` of the summary handler updates. -/
structure SummaryState where
  summary : Summary
  expenseCategoryMap : JsMap

/-- The object literal assigned to `summary` before the loop. -/
def summaryInit (transactions : List Transaction) : SummaryState :=
  { summary :=
      { totalIncome := 0
        totalExpense := 0
        balance := 0
        recentTransactions := transactions.take 5
        monthlyStats := { income := 0, expense := 0 }
        expenseCategories := [] }
    expenseCategoryMap := [] }

/-- The expression `transaction.category || 'Uncategorized'`: the empty string is the
only falsy string. -/
def categoryOrDefault (transaction : Transaction) : String :=
  if transaction.category = "" then "Uncategorized" else transaction.category

/-- One iteration of `transactions.forEach(transaction => ...)` of the summary
handler, with amounts added without rounding (`summaryStepA` takes the arithmetic as a
parameter). -/
def summaryStep (st : SummaryState) (transaction : Transaction) : SummaryState :=
  if transaction.type = "income" then
    { st with
      summary :=
        { st.summary with
          totalIncome := st.summary.totalIncome + transaction.amount
          monthlyStats :=
            { st.summary.monthlyStats with
              income := st.summary.monthlyStats.income + transaction.amount } } }
  else
    let category := categoryOrDefault transaction
    { summary :=
        { st.summary with
          totalExpense := st.summary.totalExpense + transaction.amount
          monthlyStats :=
            { st.summary.monthlyStats with
              expense := st.summary.monthlyStats.expense + transaction.amount } }
      expenseCategoryMap :=
        match st.expenseCategoryMap.get category with
        | some v =>
          if v ≠ 0 then st.expenseCategoryMap.put category (v + transaction.amount)
          else st.expenseCategoryMap.put category transaction.amount
        | none => st.expenseCategoryMap.put category transaction.amount }

/-- The body of the summary handler after the fetch: the loop, then `balance` and
`expenseCategories`. -/
def buildSummary (transactions : List Transaction) : Summary :=
  let st := transactions.foldl summaryStep (summaryInit transactions)
  { st.summary with
    balance := st.summary.totalIncome - st.summary.totalExpense
    expenseCategories :=
      st.expenseCategoryMap.keys.map
        (fun category =>
          { category := category, amount := (st.expenseCategoryMap.get category).getD 0 }) }

/-- The handler `router.get('/summary')` on a store: fetch the user's documents,
without date filter and without sort, and summarise them. -/
def getSummary (store : List Transaction) (userId : String) : Summary :=
  buildSummary (Transaction.find store userId none)

/-! ## `GET /time-data` -/

/-- The object `timeData.summary`. -/
structure TimeSummary where
  totalIncome : ℚ
  totalExpense : ℚ
  period : String
deriving DecidableEq

/-- The response object of `GET /time-data`. -/
structure TimeData where
  labels : List String
  income : List ℚ
  expenses : List ℚ
  summary : TimeSummary
deriving DecidableEq

/-- The pair `(startDate, endDate)` of the store query. `period` is the query
parameter (absent = `none`), `tz` the offset of the server zone, `now` the clock. -/
def queryWindow (period : Option String) (tz now : Int) : Int × Int :=
  if period = some "weekly" then
    (setDate tz now (getDate tz now - 6), now)
  else
    (dateUTC (currentYearIST now) (currentMonthIST now) 1,
      dateUTC (currentYearIST now) (currentMonthIST now + 1) 1)

/-- The object literal assigned to `timeData` before the buckets are created. -/
def timeDataInit (period : Option String) : TimeData :=
  { labels := []
    income := []
    expenses := []
    summary :=
      { totalIncome := 0
        totalExpense := 0
        period := if period = some "weekly" then "Weekly" else "Monthly" } }

/-- The three `push` calls of a bucket-creating loop. -/
def pushBucket (td : TimeData) (label : String) : TimeData :=
  { td with
    labels := td.labels ++ [label]
    income := td.income ++ [0]
    expenses := td.expenses ++ [0] }

/-- Label of the weekly bucket created for loop counter `i`: the short weekday name,
in the server zone, of `now` moved back by `i` days of the month. -/
def weeklyLabel (tz now i : Int) : String :=
  weekdayShort (weekDay (day (setDate tz now (getDate tz now - i) + tz)))

/-- The loop `for (let i = 6; i >= 0; i--)`. -/
def weeklyBuckets (tz now : Int) (td : TimeData) : TimeData :=
  [6, 5, 4, 3, 2, 1, 0].foldl (fun acc i => pushBucket acc (weeklyLabel tz now i)) td

/-- The handler's `daysInMonth`: `getUTCDate()` of `Date.UTC(year, month + 1, 0)`. -/
def daysInMonth (now : Int) : Int :=
  dateFromDay (day (dateUTC (currentYearIST now) (currentMonthIST now + 1) 0))

/-- The loop `for (let i = 1; i <= daysInMonth; i++)`, with label `i.toString()`. -/
def monthlyBuckets (now : Int) (td : TimeData) : TimeData :=
  (List.range' 1 (daysInMonth now).toNat).foldl (fun acc i => pushBucket acc (toString i)) td

/-- The compound assignment `xs[i] += a` on an array of numbers. -/
def addAt (xs : List ℚ) (i : Nat) (a : ℚ) : List ℚ := xs.set i (xs.getD i 0 + a)

/-- The inner `if (transaction.type === 'income') ... else ...` shared by both fill
loops: the amount goes to the bucket and to the running total of its type. Amounts are
added without rounding (`addToBucketA` takes the arithmetic as a parameter). -/
def addToBucket (td : TimeData) (dayIndex : Nat) (transaction : Transaction) : TimeData :=
  if transaction.type = "income" then
    { td with
      income := addAt td.income dayIndex transaction.amount
      summary := { td.summary with totalIncome := td.summary.totalIncome + transaction.amount } }
  else
    { td with
      expenses := addAt td.expenses dayIndex transaction.amount
      summary :=
        { td.summary with totalExpense := td.summary.totalExpense + transaction.amount } }

/-- The weekly `dayIndex`: `6 - Math.floor((now - date) / (1000 * 60 * 60 * 24))`. -/
def weeklyDayIndex (now : Int) (transaction : Transaction) : Int :=
  6 - (now - transaction.date) / msPerDay

/-- One iteration of the weekly fill loop. -/
def weeklyStep (now : Int) (td : TimeData) (transaction : Transaction) : TimeData :=
  let dayIndex := weeklyDayIndex now transaction
  if 0 ≤ dayIndex ∧ dayIndex < 7 then addToBucket td dayIndex.toNat transaction else td

/-- The monthly `dayIndex`: the day of the month of the date in `Asia/Kolkata`,
minus 1. -/
def monthlyDayIndex (transaction : Transaction) : Int :=
  dateFromDay (day (transaction.date + istOffset)) - 1

/-- One iteration of the monthly fill loop. -/
def monthlyStep (td : TimeData) (transaction : Transaction) : TimeData :=
  let dayIndex := monthlyDayIndex transaction
  if 0 ≤ dayIndex ∧ dayIndex < td.labels.length then addToBucket td dayIndex.toNat transaction
  else td

/-- The body of the time-data handler after the fetch. -/
def buildTimeData (period : Option String) (tz now : Int)
    (transactions : List Transaction) : TimeData :=
  if period = some "weekly" then
    transactions.foldl (weeklyStep now) (weeklyBuckets tz now (timeDataInit period))
  else
    transactions.foldl monthlyStep (monthlyBuckets now (timeDataInit period))

/-- The handler `router.get('/time-data')` on a store. -/
def getTimeData (store : List Transaction) (userId : String) (period : Option String)
    (tz now : Int) : TimeData :=
  buildTimeData period tz now (Transaction.find store userId (some (queryWindow period tz now)))

/-! ## Insights (`src/routes/insights.js`) -/

/-- `calculatePercentageChange(current, previous)`, computed without rounding
(`calculatePercentageChangeA` takes the arithmetic as a parameter). -/
def calculatePercentageChange (current previous : ℚ) : ℚ :=
  if previous = 0 then (if current > 0 then 100 else 0)
  else ((current - previous) / previous) * 100

/-- `Math.round`: the nearest integer, a half going up. -/
def mathRound (x : ℚ) : Int := ⌊x + 1 / 2⌋

/-- What the formatting built-ins return on the host: `formatCurrency` on a finite
amount, on `NaN` and on `Infinity`, and the names `getMonthName` gives for the
current and for the previous month. -/
structure Host where
  formatCurrency : ℚ → String
  formatCurrencyNaN : String
  formatCurrencyInfinity : String
  currentMonth : String
  previousMonth : String

/-- The template of the branch `percentageChange > 50` of `category_change`. -/
def spikedMessage (host : Host) (category : String) (absChange : Nat)
    (currentAmount previousAmount : ℚ) : String :=
  "Your " ++ category ++ " spending spiked by " ++ toString absChange ++ "% in "
    ++ host.currentMonth ++ "! You spent " ++ host.formatCurrency currentAmount
    ++ " compared to " ++ host.formatCurrency previousAmount ++ " in "
    ++ host.previousMonth ++ "."

/-- The template of the branch `percentageChange > 20` of `category_change`. -/
def moreMessage (host : Host) (category : String) (absChange : Nat)
    (currentAmount previousAmount : ℚ) : String :=
  "You spent " ++ toString absChange ++ "% more on " ++ category
    ++ " this month compared to last month (" ++ host.formatCurrency currentAmount
    ++ " vs " ++ host.formatCurrency previousAmount ++ ")."

/-- The template of the branch `percentageChange < -50` of `category_change`. -/
def cutMessage (host : Host) (category : String) (absChange : Nat)
    (currentAmount previousAmount : ℚ) : String :=
  "Great job! You cut your " ++ category ++ " spending by " ++ toString absChange
    ++ "% this month, saving " ++ host.formatCurrency (previousAmount - currentAmount) ++ "."

/-- The template of the last branch of `category_change`. -/
def lessMessage (host : Host) (category : String) (absChange : Nat)
    (currentAmount previousAmount : ℚ) : String :=
  "You spent " ++ toString absChange ++ "% less on " ++ category
    ++ " this month compared to last month (" ++ host.formatCurrency currentAmount
    ++ " vs " ++ host.formatCurrency previousAmount ++ ")."

/-- The template of the branch `percentageChange > 30` of `overall_trend`. -/
def increasedMessage (host : Host) (absChange : Nat) (currentMonthTotal : ℚ) : String :=
  "Your overall spending increased significantly by " ++ toString absChange
    ++ "% this month. Total spending: " ++ host.formatCurrency currentMonthTotal ++ "."

/-- The template of the branch `percentageChange > 0` of `overall_trend`. -/
def higherMessage (host : Host) (absChange : Nat) (currentMonthTotal : ℚ) : String :=
  "Your overall spending is " ++ toString absChange ++ "% higher this month at "
    ++ host.formatCurrency currentMonthTotal ++ "."

/-- The text of `formatCurrency(Math.abs(total - (total / (1 + p / 100))))`. When the
divisor `1 + p / 100` is 0 the quotient is `NaN` for a total of 0 and infinite
otherwise, and so is the amount. -/
def savedText (host : Host) (currentMonthTotal percentageChange : ℚ) : String :=
  if 1 + percentageChange / 100 = 0 then
    (if currentMonthTotal = 0 then host.formatCurrencyNaN else host.formatCurrencyInfinity)
  else
    host.formatCurrency
      |currentMonthTotal - currentMonthTotal / (1 + percentageChange / 100)|

/-- The template of the branch `percentageChange < -30` of `overall_trend`. -/
def reducedMessage (host : Host) (absChange : Nat)
    (currentMonthTotal percentageChange : ℚ) : String :=
  "Excellent! You reduced your overall spending by " ++ toString absChange
    ++ "% this month, saving " ++ savedText host currentMonthTotal percentageChange ++ "!"

/-- The template of the last branch of `overall_trend`. -/
def lowerMessage (host : Host) (absChange : Nat) (currentMonthTotal : ℚ) : String :=
  "Your overall spending is " ++ toString absChange ++ "% lower this month at "
    ++ host.formatCurrency currentMonthTotal ++ "."

/-- The text of `Math.round((currentAmount / currentMonthTotal) * 100)` in the
template of `top_category`. -/
def shareText (currentAmount currentMonthTotal : ℚ) : String :=
  if currentMonthTotal = 0 then
    (if currentAmount = 0 then "NaN" else if currentAmount > 0 then "Infinity"
      else "-Infinity")
  else toString (mathRound ((currentAmount / currentMonthTotal) * 100))

/-- `generateNLPMessage(type, category, percentageChange, currentAmount,
previousAmount, currentMonthTotal)`. -/
def generateNLPMessage (host : Host) (type category : String)
    (percentageChange currentAmount previousAmount currentMonthTotal : ℚ) : String :=
  let absChange := (mathRound percentageChange).natAbs
  if type = "category_change" then
    if percentageChange > 50 then
      spikedMessage host category absChange currentAmount previousAmount
    else if percentageChange > 20 then
      moreMessage host category absChange currentAmount previousAmount
    else if percentageChange < -50 then
      cutMessage host category absChange currentAmount previousAmount
    else
      lessMessage host category absChange currentAmount previousAmount
  else if type = "overall_trend" then
    if percentageChange > 30 then increasedMessage host absChange currentMonthTotal
    else if percentageChange > 0 then higherMessage host absChange currentMonthTotal
    else if percentageChange < -30 then
      reducedMessage host absChange currentMonthTotal percentageChange
    else lowerMessage host absChange currentMonthTotal
  else if type = "top_category" then
    category ++ " dominates your spending this month at " ++ host.formatCurrency currentAmount
      ++ ", representing " ++ shareText currentAmount currentMonthTotal
      ++ "% of your total expenses."
  else "Spending insight available."

/-- An element of the array returned by `generateInsights`. The fields `category`
and `percentageChange` are absent from the `info` objects. -/
structure Insight where
  type : String
  message : String
  details : String
  category : Option String
  percentageChange : Option Int
deriving DecidableEq

/-- One iteration of the loops that fill `currentMonthSpending` and
`previousMonthSpending`: `m[c] = (m[c] || 0) + amount` for an expense, added without
rounding (`spendingStepA` takes the arithmetic as a parameter). -/
def spendingStep (m : JsMap) (transaction : Transaction) : JsMap :=
  if transaction.type = "expense" then
    m.put transaction.category ((m.get transaction.category).getD 0 + transaction.amount)
  else m

/-- The dictionary of expense totals per category of a list of transactions. -/
def spendingByCategory (transactions : List Transaction) : JsMap :=
  transactions.foldl spendingStep []

/-- `Object.values(m).reduce((a, b) => a + b, 0)`. -/
def JsMap.total (m : JsMap) : ℚ := (m.map Prod.snd).foldl (fun a b => a + b) 0

/-- The body of the loop `for (const category in currentMonthSpending)`: the insight
pushed for the category, if any. The call of `generateNLPMessage` passes no
`currentMonthTotal`, which the case `category_change` does not read. -/
def categoryInsight (host : Host) (currentMonthSpending previousMonthSpending : JsMap)
    (category : String) : Option Insight :=
  let currentAmount := (currentMonthSpending.get category).getD 0
  let previousAmount := (previousMonthSpending.get category).getD 0
  let percentageChange := calculatePercentageChange currentAmount previousAmount
  if |percentageChange| ≥ 1 then
    some
      { type := if percentageChange > 0 then "increase" else "decrease"
        message :=
          generateNLPMessage host "category_change" category percentageChange currentAmount
            previousAmount 0
        details :=
          "Current: " ++ host.formatCurrency currentAmount ++ " | Previous: "
            ++ host.formatCurrency previousAmount
        category := some category
        percentageChange := some (mathRound percentageChange) }
  else none

/-- The insights pushed by the loop over the categories of the current month, in the
order of the keys. -/
def categoryInsights (host : Host) (currentMonthSpending previousMonthSpending : JsMap) :
    List Insight :=
  currentMonthSpending.keys.filterMap
    (categoryInsight host currentMonthSpending previousMonthSpending)

/-- The insight pushed for the overall trend, if any. -/
def overallInsights (host : Host) (currentMonthSpending previousMonthSpending : JsMap) :
    List Insight :=
  let currentMonthTotal := currentMonthSpending.total
  let previousMonthTotal := previousMonthSpending.total
  let totalPercentageChange := calculatePercentageChange currentMonthTotal previousMonthTotal
  if |totalPercentageChange| ≥ 1 then
    [{ type := "trend"
       message :=
         generateNLPMessage host "overall_trend" "" totalPercentageChange currentMonthTotal
           previousMonthTotal currentMonthTotal
       details :=
         "Total spending: " ++ host.formatCurrency currentMonthTotal ++ " | Previous: "
           ++ host.formatCurrency previousMonthTotal
       category := none
       percentageChange := some (mathRound totalPercentageChange) }]
  else []

/-- The `info` insight returned when the current month has no transaction. -/
def emptyMonthInsight (allUserTransactions : List Transaction) : Insight :=
  if allUserTransactions.length > 0 then
    { type := "info"
      message := "No transactions found for the current month (June 2025)."
      details :=
        "You have " ++ toString allUserTransactions.length
          ++ " total transactions, but none in June 2025. Add some June transactions to see insights."
      category := none
      percentageChange := none }
  else
    { type := "info"
      message := "No transactions found in your account."
      details := "Add some transactions to start seeing spending insights."
      category := none
      percentageChange := none }

/-- The `info` insight pushed when no other insight was produced. -/
def fallbackInsight (host : Host) (currentMonthTransactions : List Transaction)
    (currentMonthTotal : ℚ) : Insight :=
  { type := "info"
    message :=
      "Found " ++ toString currentMonthTransactions.length
        ++ " transactions in current month but no significant changes detected."
    details :=
      "Total current month spending: " ++ host.formatCurrency currentMonthTotal
        ++ ". Try adding more transactions or transactions from previous month for comparison."
    category := none
    percentageChange := none }

/-- The body of `generateInsights` after its three fetches: the returned array as a
function of the all-time, current-month and previous-month results. -/
def buildInsights (host : Host)
    (allUserTransactions currentMonthTransactions previousMonthTransactions :
      List Transaction) : List Insight :=
  if currentMonthTransactions.length = 0 then [emptyMonthInsight allUserTransactions]
  else
    let currentMonthSpending := spendingByCategory currentMonthTransactions
    let previousMonthSpending := spendingByCategory previousMonthTransactions
    let insights :=
      categoryInsights host currentMonthSpending previousMonthSpending
        ++ overallInsights host currentMonthSpending previousMonthSpending
    if insights.length = 0 ∧ currentMonthTransactions.length > 0 then
      insights ++ [fallbackInsight host currentMonthTransactions currentMonthSpending.total]
    else insights

/-! ## The fetches of `generateInsights` and the clock of the summary handler -/

/-- `new Date(y, m, d)` in a zone whose offset from UTC is `tz` milliseconds: local
midnight of the day `MakeDay(y, m, d)`, with the year conversion of the constructor.
Daylight-saving transitions of the server zone are not modelled. -/
def localDate (tz y m d : Int) : Int := makeDay (makeFullYear y) m d * msPerDay - tz

/-- The four bounds that `generateInsights` derives from the clock. -/
structure InsightWindows where
  currentMonthStart : Int
  currentMonthEnd : Int
  previousMonthStart : Int
  previousMonthEnd : Int
deriving DecidableEq

/-- The bounds computed at the head of `generateInsights`, from `now.getMonth()` and
`now.getFullYear()` in the server zone. -/
def insightWindows (tz now : Int) : InsightWindows :=
  let currentMonth := monthFromDay (day (now + tz))
  let currentYear := yearFromDay (day (now + tz))
  { currentMonthStart := localDate tz currentYear currentMonth 1
    currentMonthEnd := localDate tz currentYear (currentMonth + 1) 1
    previousMonthStart := localDate tz currentYear (currentMonth - 1) 1
    previousMonthEnd := localDate tz currentYear currentMonth 1 }

/-- `Transaction.find({ userId, date: { $gte, $lt } })`. The filter names the path
`userId`, which the schema does not declare: its owner path is `user`, and a saved
document carries no other. With the Mongoose option `strictQuery` on, the undeclared
path is removed from the filter, which then selects on the date alone; with the
option off, the path is sent to the database, where no document has it. -/
def Transaction.findByUserId (strictQuery : Bool) (store : List Transaction)
    (_userId : String) (date : Option (Int × Int)) : List Transaction :=
  if strictQuery then
    match date with
    | none => store
    | some (gte, lt) => store.filter (fun t => decide (gte ≤ t.date) && decide (t.date < lt))
  else []

/-- The function `generateInsights(userId)` on a store: the three fetches, then the
insights. -/
def generateInsights (host : Host) (strictQuery : Bool) (store : List Transaction)
    (userId : String) (tz now : Int) : List Insight :=
  let w := insightWindows tz now
  let allUserTransactions := Transaction.findByUserId strictQuery store userId none
  let currentMonthTransactions :=
    Transaction.findByUserId strictQuery store userId
      (some (w.currentMonthStart, w.currentMonthEnd))
  let previousMonthTransactions :=
    Transaction.findByUserId strictQuery store userId
      (some (w.previousMonthStart, w.previousMonthEnd))
  buildInsights host allUserTransactions currentMonthTransactions previousMonthTransactions

/-- The handler `router.get('/summary')` with its clock: the bounds `startOfMonth` and
`endOfMonth` that it computes first, paired with the summary it returns. -/
def summaryWithClock (tz now : Int) (store : List Transaction) (userId : String) :
    (Int × Int) × Summary :=
  let startOfMonth :=
    localDate tz (yearFromDay (day (now + tz))) (monthFromDay (day (now + tz))) 1
  let endOfMonth :=
    localDate tz (yearFromDay (day (now + tz))) (monthFromDay (day (now + tz)) + 1) 0
  ((startOfMonth, endOfMonth), buildSummary (Transaction.find store userId none))

/-! ## Reference quantities used in the statements -/

/-- Sum of the amounts of a list of transactions. -/
def amountSum (ts : List Transaction) : ℚ := (ts.map (fun t => t.amount)).sum

/-- The transactions of type `income`. -/
def incomeOf (ts : List Transaction) : List Transaction :=
  ts.filter (fun t => decide (t.type = "income"))

/-- All the other transactions: the ones the handlers treat as expenses. -/
def expenseOf (ts : List Transaction) : List Transaction :=
  ts.filter (fun t => !decide (t.type = "income"))

/-- The expense transactions of one category. -/
def expenseOfCategory (ts : List Transaction) (c : String) : List Transaction :=
  (expenseOf ts).filter (fun t => decide (t.category = c))

/-- Sum of the values of a dictionary. -/
def JsMap.sumValues (m : JsMap) : ℚ := (m.map Prod.snd).sum

/-- Number of days of month `m` (0 = January) of year `y` in the Gregorian calendar. -/
def calendarDaysInMonth (y m : Int) : Nat :=
  if m = 1 then (if inLeapYear y then 29 else 28)
  else if m = 3 ∨ m = 5 ∨ m = 8 ∨ m = 10 then 30
  else 31

/-- A small ledger used to instantiate the statements: two food expenses (the first
of amount 0), one income and one transport expense. -/
def sampleLedger : List Transaction :=
  [⟨"u", "lunch", 0, "food", "expense", 1000⟩,
   ⟨"u", "salary", 900, "other", "income", 2000⟩,
   ⟨"u", "dinner", 12, "food", "expense", 3000⟩,
   ⟨"u", "bus", 3, "transport", "expense", 4000⟩]

/-- The transactions of type `expense`: the ones the insight loops add up. -/
def typedExpenses (ts : List Transaction) : List Transaction :=
  ts.filter (fun t => decide (t.type = "expense"))

/-- The transactions of type `expense` of one category. -/
def typedExpensesOfCategory (ts : List Transaction) (c : String) : List Transaction :=
  (typedExpenses ts).filter (fun t => decide (t.category = c))

/-- Percentage change of the expense total of category `c` between the previous and
the current month. -/
def categoryChange (cur prev : List Transaction) (c : String) : ℚ :=
  calculatePercentageChange (amountSum (typedExpensesOfCategory cur c))
    (amountSum (typedExpensesOfCategory prev c))

/-- Percentage change of the expense total between the previous and the current
month. -/
def overallChange (cur prev : List Transaction) : ℚ :=
  calculatePercentageChange (amountSum (typedExpenses cur)) (amountSum (typedExpenses prev))

/-- Two digits for a number of cents below 100. -/
def twoDigits (n : Nat) : String := if n < 10 then "0" ++ toString n else toString n

/-- A host used to instantiate the statements: amounts are written with a dollar
sign and two decimals (without grouping), the months are June and May. -/
def sampleHost : Host :=
  { formatCurrency := fun q =>
      (if q < 0 then "-$" else "$") ++ toString ((mathRound (|q| * 100)).natAbs / 100) ++ "."
        ++ twoDigits ((mathRound (|q| * 100)).natAbs % 100)
    formatCurrencyNaN := "$NaN"
    formatCurrencyInfinity := "$∞"
    currentMonth := "June"
    previousMonth := "May" }

/-- A current month used to instantiate the statements: one food expense of 120. -/
def sampleCurrentMonth : List Transaction := [⟨"u", "dinner", 120, "food", "expense", 5000⟩]

/-- A previous month used to instantiate the statements: one food expense of 100. -/
def samplePreviousMonth : List Transaction := [⟨"u", "lunch", 100, "food", "expense", 1000⟩]

/-- `getFullYear()` in a zone whose offset from UTC is `tz` milliseconds. -/
def getFullYear (tz t : Int) : Int := yearFromDay (day (t + tz))

/-- `getMonth()` in a zone whose offset from UTC is `tz` milliseconds. -/
def getMonth (tz t : Int) : Int := monthFromDay (day (t + tz))

/-- The sample current month with an income put before its expense. -/
def sampleCurrentMonthWithIncome : List Transaction :=
  ⟨"u", "salary", 900, "other", "income", 4000⟩ :: sampleCurrentMonth

/-- The sample previous month with an income put after its expense. -/
def samplePreviousMonthWithIncome : List Transaction :=
  samplePreviousMonth ++ [⟨"u", "gift", 50, "other", "income", 2000⟩]

/-- A current month with a single income and no expense. -/
def sampleIncomeOnlyMonth : List Transaction :=
  [⟨"u", "salary", 900, "other", "income", 5000⟩]

/-- A store with one food expense of user u dated 2024-03-10T00:00:00Z. -/
def sampleStoreU : List Transaction :=
  [⟨"u", "dinner", 120, "food", "expense", 1710028800000⟩]

/-- The same store with one more document, a transport expense of another user dated
2024-03-11T00:00:00Z. -/
def sampleStoreUV : List Transaction :=
  [⟨"u", "dinner", 120, "food", "expense", 1710028800000⟩,
   ⟨"v", "taxi", 40, "transport", "expense", 1710115200000⟩]

/-- The buckets are aligned with the labels and add up to the running totals. -/
def Balanced (td : TimeData) : Prop :=
  td.income.length = td.labels.length ∧ td.expenses.length = td.labels.length
    ∧ td.income.sum = td.summary.totalIncome ∧ td.expenses.sum = td.summary.totalExpense

/-- Start of the month that contains `now` in the reporting zone (UTC+5:30), as a UTC
instant: local midnight of the 1st is 5 h 30 min before UTC midnight of the 1st. -/
def istMonthStart (now : Int) : Int :=
  makeDay (currentYearIST now) (currentMonthIST now) 1 * msPerDay - istOffset

/-- Start of the following month in the reporting zone, as a UTC instant. -/
def istNextMonthStart (now : Int) : Int :=
  makeDay (currentYearIST now) (currentMonthIST now + 1) 1 * msPerDay - istOffset

/-! ## Number arithmetic (IEEE 754 binary64)

The definitions above add, subtract, multiply and divide amounts exactly. The handlers
run on JavaScript Numbers: every operator returns the double nearest to the exact
result. The definitions of this section and of the next one take the four operators as
a parameter: `doubleArith` is the arithmetic of the handlers, `exactArith` the one of
the definitions above. A finite double is the rational it stands for; infinities and
`NaN` only arise from overflow and from a division by zero, which are kept apart where
the handlers can reach them. -/

/-- The integer nearest to a non-negative rational, a tie going to the even neighbour
(the rounding direction `roundTiesToEven`). -/
def roundHalfEven (x : ℚ) : Int :=
  if x - ⌊x⌋ < 1 / 2 then ⌊x⌋
  else if x - ⌊x⌋ > 1 / 2 then ⌊x⌋ + 1
  else if ⌊x⌋ % 2 = 0 then ⌊x⌋
  else ⌊x⌋ + 1

/-- Number of binary digits of `n`, computed with a counter that bounds it: one halving
per step, and `n` steps always suffice. -/
def bitLength (counter n : Nat) : Nat :=
  match counter with
  | 0 => 0
  | c + 1 => if n = 0 then 0 else bitLength c (n / 2) + 1

/-- The binary exponent of a positive rational: the `k` with `2 ^ k ≤ a < 2 ^ (k + 1)`.
The difference of the digit counts of numerator and denominator is `k` or `k + 1`. -/
def binaryExponent (a : ℚ) : Int :=
  let k : Int := (bitLength a.num.natAbs a.num.natAbs : Int) - (bitLength a.den a.den : Int)
  if a < 2 ^ k then k - 1 else k

/-- The double nearest to a rational, ties to even: the significand has 53 binary
digits, and below `2 ^ (-1022)` the spacing stays `2 ^ (-1074)` (subnormal numbers).
Magnitudes of `2 ^ 1024` and above, which a double rounds to an infinity, are outside
the model. -/
def roundDouble (q : ℚ) : ℚ :=
  if q = 0 then 0
  else
    let e := max (binaryExponent |q| - 52) (-1074)
    (if q < 0 then -1 else 1) * (roundHalfEven (|q| / 2 ^ e) : ℚ) * 2 ^ e

/-- The operators `+`, `-`, `*` and `/` on Numbers. -/
structure Arith where
  add : ℚ → ℚ → ℚ
  sub : ℚ → ℚ → ℚ
  mul : ℚ → ℚ → ℚ
  div : ℚ → ℚ → ℚ

/-- Arithmetic without rounding. -/
def exactArith : Arith :=
  { add := fun a b => a + b
    sub := fun a b => a - b
    mul := fun a b => a * b
    div := fun a b => a / b }

/-- The arithmetic of JavaScript Numbers: each operator rounds its exact result to the
nearest double. -/
def doubleArith : Arith :=
  { add := fun a b => roundDouble (a + b)
    sub := fun a b => roundDouble (a - b)
    mul := fun a b => roundDouble (a * b)
    div := fun a b => roundDouble (a / b) }

/-! ## The handlers over a given arithmetic -/

/-- One iteration of `transactions.forEach(transaction => ...)` of the summary
handler, with the operators of `A`. -/
def summaryStepA (A : Arith) (st : SummaryState) (transaction : Transaction) : SummaryState :=
  if transaction.type = "income" then
    { st with
      summary :=
        { st.summary with
          totalIncome := A.add st.summary.totalIncome transaction.amount
          monthlyStats :=
            { st.summary.monthlyStats with
              income := A.add st.summary.monthlyStats.income transaction.amount } } }
  else
    let category := categoryOrDefault transaction
    { summary :=
        { st.summary with
          totalExpense := A.add st.summary.totalExpense transaction.amount
          monthlyStats :=
            { st.summary.monthlyStats with
              expense := A.add st.summary.monthlyStats.expense transaction.amount } }
      expenseCategoryMap :=
        match st.expenseCategoryMap.get category with
        | some v =>
          if v ≠ 0 then st.expenseCategoryMap.put category (A.add v transaction.amount)
          else st.expenseCategoryMap.put category transaction.amount
        | none => st.expenseCategoryMap.put category transaction.amount }

/-- The body of the summary handler after the fetch, with the operators of `A`. -/
def buildSummaryA (A : Arith) (transactions : List Transaction) : Summary :=
  let st := transactions.foldl (summaryStepA A) (summaryInit transactions)
  { st.summary with
    balance := A.sub st.summary.totalIncome st.summary.totalExpense
    expenseCategories :=
      st.expenseCategoryMap.keys.map
        (fun category =>
          { category := category, amount := (st.expenseCategoryMap.get category).getD 0 }) }

/-- The compound assignment `xs[i] += a` with the addition of `A`. -/
def addAtA (A : Arith) (xs : List ℚ) (i : Nat) (a : ℚ) : List ℚ :=
  xs.set i (A.add (xs.getD i 0) a)

/-- The inner `if (transaction.type === 'income') ... else ...` of both fill loops,
with the addition of `A`. -/
def addToBucketA (A : Arith) (td : TimeData) (dayIndex : Nat) (transaction : Transaction) :
    TimeData :=
  if transaction.type = "income" then
    { td with
      income := addAtA A td.income dayIndex transaction.amount
      summary :=
        { td.summary with totalIncome := A.add td.summary.totalIncome transaction.amount } }
  else
    { td with
      expenses := addAtA A td.expenses dayIndex transaction.amount
      summary :=
        { td.summary with totalExpense := A.add td.summary.totalExpense transaction.amount } }

/-- One iteration of the weekly fill loop, with the addition of `A`. -/
def weeklyStepA (A : Arith) (now : Int) (td : TimeData) (transaction : Transaction) :
    TimeData :=
  let dayIndex := weeklyDayIndex now transaction
  if 0 ≤ dayIndex ∧ dayIndex < 7 then addToBucketA A td dayIndex.toNat transaction else td

/-- One iteration of the monthly fill loop, with the addition of `A`. -/
def monthlyStepA (A : Arith) (td : TimeData) (transaction : Transaction) : TimeData :=
  let dayIndex := monthlyDayIndex transaction
  if 0 ≤ dayIndex ∧ dayIndex < td.labels.length then
    addToBucketA A td dayIndex.toNat transaction
  else td

/-- The body of the time-data handler after the fetch, with the addition of `A`. -/
def buildTimeDataA (A : Arith) (period : Option String) (tz now : Int)
    (transactions : List Transaction) : TimeData :=
  if period = some "weekly" then
    transactions.foldl (weeklyStepA A now) (weeklyBuckets tz now (timeDataInit period))
  else
    transactions.foldl (monthlyStepA A) (monthlyBuckets now (timeDataInit period))

/-- `calculatePercentageChange(current, previous)` with the operators of `A`. -/
def calculatePercentageChangeA (A : Arith) (current previous : ℚ) : ℚ :=
  if previous = 0 then (if current > 0 then 100 else 0)
  else A.mul (A.div (A.sub current previous) previous) 100

/-- The template of the branch `percentageChange < -50` of `category_change`, with the
subtraction of `A`. -/
def cutMessageA (A : Arith) (host : Host) (category : String) (absChange : Nat)
    (currentAmount previousAmount : ℚ) : String :=
  "Great job! You cut your " ++ category ++ " spending by " ++ toString absChange
    ++ "% this month, saving " ++ host.formatCurrency (A.sub previousAmount currentAmount) ++ "."

/-- The text of `formatCurrency(Math.abs(total - (total / (1 + p / 100))))` with the
operators of `A`. When the divisor is 0 the quotient is `NaN` for a total of 0 and
infinite otherwise, and so is the amount. -/
def savedTextA (A : Arith) (host : Host) (currentMonthTotal percentageChange : ℚ) : String :=
  if A.add 1 (A.div percentageChange 100) = 0 then
    (if currentMonthTotal = 0 then host.formatCurrencyNaN else host.formatCurrencyInfinity)
  else
    host.formatCurrency
      |A.sub currentMonthTotal (A.div currentMonthTotal (A.add 1 (A.div percentageChange 100)))|

/-- The template of the branch `percentageChange < -30` of `overall_trend`, with the
operators of `A`. -/
def reducedMessageA (A : Arith) (host : Host) (absChange : Nat)
    (currentMonthTotal percentageChange : ℚ) : String :=
  "Excellent! You reduced your overall spending by " ++ toString absChange
    ++ "% this month, saving " ++ savedTextA A host currentMonthTotal percentageChange ++ "!"

/-- The text of `Math.round((currentAmount / currentMonthTotal) * 100)` in the
template of `top_category`, with the operators of `A`. -/
def shareTextA (A : Arith) (currentAmount currentMonthTotal : ℚ) : String :=
  if currentMonthTotal = 0 then
    (if currentAmount = 0 then "NaN" else if currentAmount > 0 then "Infinity"
      else "-Infinity")
  else toString (mathRound (A.mul (A.div currentAmount currentMonthTotal) 100))

/-- `generateNLPMessage(type, category, percentageChange, currentAmount,
previousAmount, currentMonthTotal)` with the operators of `A`. `Math.round` and the
comparisons are exact on Numbers. -/
def generateNLPMessageA (A : Arith) (host : Host) (type category : String)
    (percentageChange currentAmount previousAmount currentMonthTotal : ℚ) : String :=
  let absChange := (mathRound percentageChange).natAbs
  if type = "category_change" then
    if percentageChange > 50 then
      spikedMessage host category absChange currentAmount previousAmount
    else if percentageChange > 20 then
      moreMessage host category absChange currentAmount previousAmount
    else if percentageChange < -50 then
      cutMessageA A host category absChange currentAmount previousAmount
    else
      lessMessage host category absChange currentAmount previousAmount
  else if type = "overall_trend" then
    if percentageChange > 30 then increasedMessage host absChange currentMonthTotal
    else if percentageChange > 0 then higherMessage host absChange currentMonthTotal
    else if percentageChange < -30 then
      reducedMessageA A host absChange currentMonthTotal percentageChange
    else lowerMessage host absChange currentMonthTotal
  else if type = "top_category" then
    category ++ " dominates your spending this month at " ++ host.formatCurrency currentAmount
      ++ ", representing " ++ shareTextA A currentAmount currentMonthTotal
      ++ "% of your total expenses."
  else "Spending insight available."

/-- One iteration of the loops that fill `currentMonthSpending` and
`previousMonthSpending`, with the addition of `A`. -/
def spendingStepA (A : Arith) (m : JsMap) (transaction : Transaction) : JsMap :=
  if transaction.type = "expense" then
    m.put transaction.category
      (A.add ((m.get transaction.category).getD 0) transaction.amount)
  else m

/-- The dictionary of expense totals per category, with the addition of `A`. -/
def spendingByCategoryA (A : Arith) (transactions : List Transaction) : JsMap :=
  transactions.foldl (spendingStepA A) []

/-- `Object.values(m).reduce((a, b) => a + b, 0)` with the addition of `A`. -/
def JsMap.totalA (A : Arith) (m : JsMap) : ℚ := (m.map Prod.snd).foldl (fun a b => A.add a b) 0

/-- The body of the loop `for (const category in currentMonthSpending)`, with the
operators of `A`. -/
def categoryInsightA (A : Arith) (host : Host)
    (currentMonthSpending previousMonthSpending : JsMap) (category : String) : Option Insight :=
  let currentAmount := (currentMonthSpending.get category).getD 0
  let previousAmount := (previousMonthSpending.get category).getD 0
  let percentageChange := calculatePercentageChangeA A currentAmount previousAmount
  if |percentageChange| ≥ 1 then
    some
      { type := if percentageChange > 0 then "increase" else "decrease"
        message :=
          generateNLPMessageA A host "category_change" category percentageChange currentAmount
            previousAmount 0
        details :=
          "Current: " ++ host.formatCurrency currentAmount ++ " | Previous: "
            ++ host.formatCurrency previousAmount
        category := some category
        percentageChange := some (mathRound percentageChange) }
  else none

/-- The insights pushed by the loop over the categories of the current month, in the
order of the keys, with the operators of `A`. -/
def categoryInsightsA (A : Arith) (host : Host)
    (currentMonthSpending previousMonthSpending : JsMap) : List Insight :=
  currentMonthSpending.keys.filterMap
    (categoryInsightA A host currentMonthSpending previousMonthSpending)

/-- The insight pushed for the overall trend, if any, with the operators of `A`. -/
def overallInsightsA (A : Arith) (host : Host)
    (currentMonthSpending previousMonthSpending : JsMap) : List Insight :=
  let currentMonthTotal := currentMonthSpending.totalA A
  let previousMonthTotal := previousMonthSpending.totalA A
  let totalPercentageChange :=
    calculatePercentageChangeA A currentMonthTotal previousMonthTotal
  if |totalPercentageChange| ≥ 1 then
    [{ type := "trend"
       message :=
         generateNLPMessageA A host "overall_trend" "" totalPercentageChange currentMonthTotal
           previousMonthTotal currentMonthTotal
       details :=
         "Total spending: " ++ host.formatCurrency currentMonthTotal ++ " | Previous: "
           ++ host.formatCurrency previousMonthTotal
       category := none
       percentageChange := some (mathRound totalPercentageChange) }]
  else []

/-- The body of `generateInsights` after its three fetches, with the operators of
`A`. -/
def buildInsightsA (A : Arith) (host : Host)
    (allUserTransactions currentMonthTransactions previousMonthTransactions :
      List Transaction) : List Insight :=
  if currentMonthTransactions.length = 0 then [emptyMonthInsight allUserTransactions]
  else
    let currentMonthSpending := spendingByCategoryA A currentMonthTransactions
    let previousMonthSpending := spendingByCategoryA A previousMonthTransactions
    let insights :=
      categoryInsightsA A host currentMonthSpending previousMonthSpending
        ++ overallInsightsA A host currentMonthSpending previousMonthSpending
    if insights.length = 0 ∧ currentMonthTransactions.length > 0 then
      insights
        ++ [fallbackInsight host currentMonthTransactions (currentMonthSpending.totalA A)]
    else insights

/-! ## Reference quantities over a given arithmetic -/

/-- The amounts of a list of transactions added one after the other, in list order,
starting from 0. -/
def amountSumA (A : Arith) (ts : List Transaction) : ℚ :=
  ts.foldl (fun acc t => A.add acc t.amount) 0

/-- The percentage change that the handler computes for category `c`: from the totals
of the expenses of the category, each added up in list order. -/
def categoryChangeA (A : Arith) (cur prev : List Transaction) (c : String) : ℚ :=
  calculatePercentageChangeA A (amountSumA A (typedExpensesOfCategory cur c))
    (amountSumA A (typedExpensesOfCategory prev c))

/-- The buckets as the handler creates them before its fill loop: seven for the weekly
period, one per day of the month otherwise, all holding 0. -/
def initialBuckets (period : Option String) (tz now : Int) : TimeData :=
  if period = some "weekly" then weeklyBuckets tz now (timeDataInit period)
  else monthlyBuckets now (timeDataInit period)

/-- The day index that the fill loop of the period computes for a transaction. -/
def dayIndexOf (period : Option String) (now : Int) (transaction : Transaction) : Int :=
  if period = some "weekly" then weeklyDayIndex now transaction
  else monthlyDayIndex transaction

/-- The distinct elements of a list, each at the place of its first occurrence. -/
def firstOccurrences : List String → List String
  | [] => []
  | c :: cs => c :: (firstOccurrences cs).filter (fun k => !decide (k = c))

/-- The categories of the expenses of a list, in the order of their first expense. -/
def expenseCategoriesInOrder (ts : List Transaction) : List String :=
  firstOccurrences ((typedExpenses ts).map (fun t => t.category))

/-- The expense total of a month as the handler computes it: the category totals added
one after the other, in the order of the first expense of each category. -/
def expenseTotalA (A : Arith) (ts : List Transaction) : ℚ :=
  (expenseCategoriesInOrder ts).foldl
    (fun acc c => A.add acc (amountSumA A (typedExpensesOfCategory ts c))) 0

/-- The percentage change that the handler computes for the expense total. -/
def overallChangeA (A : Arith) (cur prev : List Transaction) : ℚ :=
  calculatePercentageChangeA A (expenseTotalA A cur) (expenseTotalA A prev)

/-- Three expenses of one, one and four cents, each amount being the double nearest to
the decimal: food, transport, food. -/
def sampleCentExpenses : List Transaction :=
  [⟨"u", "gum", roundDouble (1 / 100), "food", "expense", 1000⟩,
   ⟨"u", "toll", roundDouble (1 / 100), "transport", "expense", 2000⟩,
   ⟨"u", "candy", roundDouble (4 / 100), "food", "expense", 3000⟩]

/-- Three expenses whose amounts are whole numbers: one of ten quadrillion on food and
two of 1 on transport. -/
def sampleLargeExpenses : List Transaction :=
  [⟨"u", "banquet", 10000000000000000, "food", "expense", 1000⟩,
   ⟨"u", "bus", 1, "transport", "expense", 2000⟩,
   ⟨"u", "tram", 1, "transport", "expense", 3000⟩]

/-- Three incomes fetched at the clock reading 2024-03-15T12:00:00Z: one and four cents
dated one and two hours earlier (last bucket) and one cent dated 25 hours earlier
(bucket before the last). Each amount is the double nearest to the decimal. -/
def sampleCentIncomes : List Transaction :=
  [⟨"u", "refund", roundDouble (1 / 100), "other", "income", 1710500400000⟩,
   ⟨"u", "interest", roundDouble (1 / 100), "other", "income", 1710414000000⟩,
   ⟨"u", "cashback", roundDouble (4 / 100), "other", "income", 1710496800000⟩]

/-- Three expenses fetched at the clock reading 2024-03-15T12:00:00Z with whole
amounts: ten quadrillion dated one hour earlier and two of 1 dated 25 and 26 hours
earlier. -/
def sampleLargeBucketExpenses : List Transaction :=
  [⟨"u", "banquet", 10000000000000000, "food", "expense", 1710500400000⟩,
   ⟨"u", "bus", 1, "transport", "expense", 1710414000000⟩,
   ⟨"u", "tram", 1, "transport", "expense", 1710410400000⟩]

/-- A current month with two food expenses, of the doubles nearest to 3.02 and 1.93. -/
def sampleRoundedCurrentMonth : List Transaction :=
  [⟨"u", "bread", roundDouble (302 / 100), "food", "expense", 5000⟩,
   ⟨"u", "milk", roundDouble (193 / 100), "food", "expense", 6000⟩]

/-- A previous month with one food expense of 5. -/
def sampleRoundedPreviousMonth : List Transaction :=
  [⟨"u", "lunch", 5, "food", "expense", 1000⟩]

/-- A current month with two food expenses, of the doubles nearest to 0.01 and 0.05. -/
def sampleFifthCurrentMonth : List Transaction :=
  [⟨"u", "gum", roundDouble (1 / 100), "food", "expense", 5000⟩,
   ⟨"u", "mint", roundDouble (5 / 100), "food", "expense", 6000⟩]

/-- A previous month with one food expense of the double nearest to 0.05. -/
def sampleFifthPreviousMonth : List Transaction :=
  [⟨"u", "mint", roundDouble (5 / 100), "food", "expense", 1000⟩]

/-! ## Lemmas on dictionaries -/

theorem JsMap.get_put (m : JsMap) (k c : String) (v : ℚ) :
    (m.put k v).get c = if k = c then some v else m.get c := by
  induction m with
  | nil => simp [JsMap.put, JsMap.get]
  | cons hd tl ih =>
    obtain ⟨k', v'⟩ := hd
    by_cases h : k' = k
    · subst h
      by_cases h2 : k' = c <;> simp [JsMap.put, JsMap.get, h2]
    · by_cases h2 : k' = c
      · subst h2
        have h3 : ¬ k = k' := fun e => h e.symm
        simp [JsMap.put, JsMap.get, h, h3]
      · simp [JsMap.put, JsMap.get, h, h2, ih]

theorem JsMap.mem_keys_put (m : JsMap) (k c : String) (v : ℚ) :
    c ∈ (m.put k v).keys ↔ c = k ∨ c ∈ m.keys := by
  induction m with
  | nil => simp [JsMap.put, JsMap.keys]
  | cons hd tl ih =>
    obtain ⟨k', v'⟩ := hd
    by_cases h : k' = k
    · subst h
      simp [JsMap.put, JsMap.keys]
    · have ih2 : c ∈ List.map Prod.fst (JsMap.put tl k v) ↔ c = k ∨ c ∈ List.map Prod.fst tl := ih
      simp only [JsMap.put, JsMap.keys, h, if_false, List.map_cons, List.mem_cons, ih2]
      tauto

theorem JsMap.nodup_keys_put (m : JsMap) (k : String) (v : ℚ) (h : m.keys.Nodup) :
    (m.put k v).keys.Nodup := by
  induction m with
  | nil => simp [JsMap.put, JsMap.keys]
  | cons hd tl ih =>
    obtain ⟨k', v'⟩ := hd
    have hk : k' ∉ JsMap.keys tl ∧ (JsMap.keys tl).Nodup := by
      simpa [JsMap.keys] using h
    by_cases e : k' = k
    · subst e
      simpa [JsMap.put, JsMap.keys] using h
    · have hn : k' ∉ (JsMap.put tl k v).keys := by
        rw [JsMap.mem_keys_put]
        rintro (h1 | h1)
        · exact e h1
        · exact hk.1 h1
      have ht := ih hk.2
      simp only [JsMap.put, e, if_false]
      exact List.nodup_cons.mpr ⟨hn, ht⟩

theorem JsMap.get_eq_none_iff (m : JsMap) (c : String) : m.get c = none ↔ c ∉ m.keys := by
  induction m with
  | nil => simp [JsMap.get, JsMap.keys]
  | cons hd tl ih =>
    obtain ⟨k', v'⟩ := hd
    have ih2 : JsMap.get tl c = none ↔ c ∉ List.map Prod.fst tl := ih
    by_cases h : k' = c
    · subst h
      simp [JsMap.get, JsMap.keys]
    · have h2 : ¬ c = k' := fun e => h e.symm
      simp only [JsMap.get, JsMap.keys, h, if_false, List.map_cons, List.mem_cons, h2,
        false_or, ih2]

theorem JsMap.sumValues_put (m : JsMap) (k : String) (v : ℚ) :
    (m.put k v).sumValues = m.sumValues - (m.get k).getD 0 + v := by
  induction m with
  | nil => simp [JsMap.put, JsMap.get, JsMap.sumValues]
  | cons hd tl ih =>
    obtain ⟨k', v'⟩ := hd
    by_cases h : k' = k
    · subst h
      simp [JsMap.put, JsMap.get, JsMap.sumValues]
      ring
    · have ih2 : (List.map Prod.snd (JsMap.put tl k v)).sum
          = (List.map Prod.snd tl).sum - (JsMap.get tl k).getD 0 + v := ih
      simp only [JsMap.put, JsMap.get, JsMap.sumValues, h, if_false, List.map_cons,
        List.sum_cons, ih2]
      ring

theorem JsMap.sum_lookup_keys (m : JsMap) (h : m.keys.Nodup) :
    ((m.keys.map (fun c => (m.get c).getD 0))).sum = m.sumValues := by
  induction m with
  | nil => simp [JsMap.keys, JsMap.sumValues]
  | cons hd tl ih =>
    obtain ⟨k', v'⟩ := hd
    have hk : k' ∉ JsMap.keys tl ∧ (JsMap.keys tl).Nodup := by
      simpa [JsMap.keys] using h
    have e : (JsMap.keys tl).map (fun c => (JsMap.get ((k', v') :: tl) c).getD 0)
        = (JsMap.keys tl).map (fun c => (JsMap.get tl c).getD 0) := by
      apply List.map_congr_left
      intro c hc
      have : ¬ k' = c := fun e => hk.1 (e ▸ hc)
      simp [JsMap.get, this]
    have ih2 := ih hk.2
    have hs : JsMap.sumValues ((k', v') :: tl) = v' + JsMap.sumValues tl := by
      simp [JsMap.sumValues]
    have hkeys : JsMap.keys ((k', v') :: tl) = k' :: JsMap.keys tl := rfl
    rw [hkeys, List.map_cons, List.sum_cons, e, ih2, hs]
    simp [JsMap.get]

/-! ## Lemmas on the summary loop -/

theorem summaryStep_totalIncome (st : SummaryState) (t : Transaction) :
    (summaryStep st t).summary.totalIncome
      = st.summary.totalIncome + (if t.type = "income" then t.amount else 0) := by
  unfold summaryStep
  split_ifs <;> simp

theorem summaryStep_totalExpense (st : SummaryState) (t : Transaction) :
    (summaryStep st t).summary.totalExpense
      = st.summary.totalExpense + (if t.type = "income" then 0 else t.amount) := by
  unfold summaryStep
  split_ifs <;> simp

theorem summaryStep_recent (st : SummaryState) (t : Transaction) :
    (summaryStep st t).summary.recentTransactions = st.summary.recentTransactions := by
  unfold summaryStep
  split_ifs <;> rfl

/-- The truthiness test on the stored value changes nothing: a stored 0 is replaced by
the amount, which is 0 plus the amount. -/
theorem summaryStep_map (st : SummaryState) (t : Transaction) :
    (summaryStep st t).expenseCategoryMap
      = if t.type = "income" then st.expenseCategoryMap
        else st.expenseCategoryMap.put (categoryOrDefault t)
          ((st.expenseCategoryMap.get (categoryOrDefault t)).getD 0 + t.amount) := by
  unfold summaryStep
  by_cases h : t.type = "income"
  · simp [h]
  · simp only [h, if_false]
    cases hg : st.expenseCategoryMap.get (categoryOrDefault t) with
    | none => simp
    | some v =>
      by_cases hv : v = 0
      · simp [hv]
      · simp [hv]

theorem foldl_totalIncome (ts : List Transaction) (st : SummaryState) :
    (ts.foldl summaryStep st).summary.totalIncome
      = st.summary.totalIncome + amountSum (incomeOf ts) := by
  induction ts generalizing st with
  | nil => simp [amountSum, incomeOf]
  | cons t tl ih =>
    rw [List.foldl_cons, ih, summaryStep_totalIncome]
    by_cases h : t.type = "income"
    · simp [amountSum, incomeOf, h, add_assoc]
    · simp [amountSum, incomeOf, h]

theorem foldl_totalExpense (ts : List Transaction) (st : SummaryState) :
    (ts.foldl summaryStep st).summary.totalExpense
      = st.summary.totalExpense + amountSum (expenseOf ts) := by
  induction ts generalizing st with
  | nil => simp [amountSum, expenseOf]
  | cons t tl ih =>
    rw [List.foldl_cons, ih, summaryStep_totalExpense]
    by_cases h : t.type = "income"
    · simp [amountSum, expenseOf, h]
    · simp [amountSum, expenseOf, h, add_assoc]

theorem foldl_recent (ts : List Transaction) (st : SummaryState) :
    (ts.foldl summaryStep st).summary.recentTransactions = st.summary.recentTransactions := by
  induction ts generalizing st with
  | nil => rfl
  | cons t tl ih => rw [List.foldl_cons, ih, summaryStep_recent]

theorem foldl_map_sum (ts : List Transaction) (st : SummaryState) :
    (ts.foldl summaryStep st).expenseCategoryMap.sumValues
      = st.expenseCategoryMap.sumValues + amountSum (expenseOf ts) := by
  induction ts generalizing st with
  | nil => simp [amountSum, expenseOf]
  | cons t tl ih =>
    rw [List.foldl_cons, ih, summaryStep_map]
    by_cases h : t.type = "income"
    · simp [amountSum, expenseOf, h]
    · simp only [h, if_false, JsMap.sumValues_put]
      simp [amountSum, expenseOf, h]
      ring

theorem foldl_map_nodup (ts : List Transaction) (st : SummaryState)
    (h : st.expenseCategoryMap.keys.Nodup) :
    (ts.foldl summaryStep st).expenseCategoryMap.keys.Nodup := by
  induction ts generalizing st with
  | nil => exact h
  | cons t tl ih =>
    rw [List.foldl_cons]
    apply ih
    rw [summaryStep_map]
    split_ifs
    · exact h
    · exact JsMap.nodup_keys_put _ _ _ h

/-- The dictionary built by the loop only depends on the expense transactions. -/
theorem foldl_map_filter (ts : List Transaction) (st st' : SummaryState)
    (h : st.expenseCategoryMap = st'.expenseCategoryMap) :
    (ts.foldl summaryStep st).expenseCategoryMap
      = ((expenseOf ts).foldl summaryStep st').expenseCategoryMap := by
  induction ts generalizing st st' with
  | nil => simpa [expenseOf] using h
  | cons t tl ih =>
    by_cases ht : t.type = "income"
    · have e : expenseOf (t :: tl) = expenseOf tl := by simp [expenseOf, ht]
      rw [List.foldl_cons, e]
      apply ih
      rw [summaryStep_map, if_pos ht, h]
    · have e : expenseOf (t :: tl) = t :: expenseOf tl := by simp [expenseOf, ht]
      rw [List.foldl_cons, e, List.foldl_cons]
      apply ih
      rw [summaryStep_map, summaryStep_map, h]

theorem foldl_map_mem_keys (ts : List Transaction) (st : SummaryState) (c : String) :
    c ∈ (ts.foldl summaryStep st).expenseCategoryMap.keys
      ↔ c ∈ st.expenseCategoryMap.keys
        ∨ ∃ t ∈ ts, t.type ≠ "income" ∧ categoryOrDefault t = c := by
  induction ts generalizing st with
  | nil => simp
  | cons t tl ih =>
    rw [List.foldl_cons, ih, summaryStep_map]
    by_cases h : t.type = "income"
    · simp [h]
    · simp only [h, if_false, JsMap.mem_keys_put, List.mem_cons, exists_eq_or_imp, ne_eq,
        not_false_eq_true, true_and]
      constructor
      · rintro ((h1 | h1) | h1)
        · exact Or.inr (Or.inl h1.symm)
        · exact Or.inl h1
        · exact Or.inr (Or.inr h1)
      · rintro (h1 | h1 | h1)
        · exact Or.inl (Or.inr h1)
        · exact Or.inl (Or.inl h1.symm)
        · exact Or.inr h1

theorem foldl_map_get (ts : List Transaction) (st : SummaryState) (c : String) :
    ((ts.foldl summaryStep st).expenseCategoryMap.get c).getD 0
      = (st.expenseCategoryMap.get c).getD 0
        + amountSum ((expenseOf ts).filter (fun t => decide (categoryOrDefault t = c))) := by
  induction ts generalizing st with
  | nil => simp [amountSum, expenseOf]
  | cons t tl ih =>
    rw [List.foldl_cons, ih, summaryStep_map]
    by_cases h : t.type = "income"
    · simp [amountSum, expenseOf, h]
    · by_cases hc : categoryOrDefault t = c
      · simp [amountSum, expenseOf, h, hc, JsMap.get_put, add_assoc]
      · simp [amountSum, expenseOf, h, hc, JsMap.get_put]

/-! ## `GET /summary`: results -/

theorem buildSummary_totalIncome (ts : List Transaction) :
    (buildSummary ts).totalIncome = amountSum (incomeOf ts) := by
  have h := foldl_totalIncome ts (summaryInit ts)
  simpa [buildSummary, summaryInit] using h

theorem buildSummary_totalExpense (ts : List Transaction) :
    (buildSummary ts).totalExpense = amountSum (expenseOf ts) := by
  have h := foldl_totalExpense ts (summaryInit ts)
  simpa [buildSummary, summaryInit] using h

theorem buildSummary_categories (ts : List Transaction) :
    (buildSummary ts).expenseCategories
      = (ts.foldl summaryStep (summaryInit ts)).expenseCategoryMap.keys.map
          (fun c => { category := c
                      amount := ((ts.foldl summaryStep (summaryInit ts)).expenseCategoryMap.get
                        c).getD 0 }) := rfl

theorem buildSummary_recent (ts : List Transaction) :
    (buildSummary ts).recentTransactions = ts.take 5 := by
  have h := foldl_recent ts (summaryInit ts)
  simpa [buildSummary, summaryInit] using h

/-- C1: for every transaction list the summary satisfies
balance = totalIncome - totalExpense, where totalIncome is the sum of the amounts of
the transactions of type income and totalExpense the sum of the amounts of all the
other transactions. -/
theorem summary_balance (ts : List Transaction) :
    (buildSummary ts).balance = (buildSummary ts).totalIncome - (buildSummary ts).totalExpense
      ∧ (buildSummary ts).totalIncome = amountSum (incomeOf ts)
      ∧ (buildSummary ts).totalExpense = amountSum (expenseOf ts) :=
  ⟨rfl, buildSummary_totalIncome ts, buildSummary_totalExpense ts⟩

theorem categoryOrDefault_of_enum (t : Transaction) (h : t.category ∈ categoryEnum) :
    categoryOrDefault t = t.category := by
  have hne : t.category ≠ "" := by
    intro e
    rw [e] at h
    revert h
    decide
  simp [categoryOrDefault, hne]

/-- C3: when the categories are those of the schema, expenseCategories has exactly one
entry for each distinct category that occurs among the expense transactions (no
duplicate, no category without an expense transaction), and the amount of an entry is
the sum of the amounts of the expense transactions of its category, amounts equal to 0
included. -/
theorem expenseCategories_one_per_category (ts : List Transaction)
    (h : ∀ t ∈ ts, t.category ∈ categoryEnum) :
    ((buildSummary ts).expenseCategories.map (fun e => e.category)).Nodup
      ∧ (∀ c, c ∈ (buildSummary ts).expenseCategories.map (fun e => e.category)
            ↔ ∃ t ∈ ts, t.type ≠ "income" ∧ t.category = c)
      ∧ (∀ e ∈ (buildSummary ts).expenseCategories,
            e.amount = amountSum (expenseOfCategory ts e.category)) := by
  have hkey : ∀ t ∈ ts, categoryOrDefault t = t.category :=
    fun t ht => categoryOrDefault_of_enum t (h t ht)
  have hcats : (buildSummary ts).expenseCategories.map (fun e => e.category)
      = (ts.foldl summaryStep (summaryInit ts)).expenseCategoryMap.keys := by
    rw [buildSummary_categories, List.map_map]
    simp [Function.comp_def]
  have hfilter : ∀ c, (expenseOf ts).filter (fun t => decide (categoryOrDefault t = c))
      = expenseOfCategory ts c := by
    intro c
    unfold expenseOfCategory
    apply List.filter_congr
    intro t ht
    have : t ∈ ts := List.mem_of_mem_filter ht
    rw [hkey t this]
  refine ⟨?_, ?_, ?_⟩
  · rw [hcats]
    exact foldl_map_nodup ts (summaryInit ts) (by simp [summaryInit, JsMap.keys])
  · intro c
    rw [hcats, foldl_map_mem_keys]
    constructor
    · rintro (h1 | ⟨t, ht, h1, h2⟩)
      · simp [summaryInit, JsMap.keys] at h1
      · exact ⟨t, ht, h1, by rw [← hkey t ht]; exact h2⟩
    · rintro ⟨t, ht, h1, h2⟩
      exact Or.inr ⟨t, ht, h1, by rw [hkey t ht]; exact h2⟩
  · intro e he
    rw [buildSummary_categories, List.mem_map] at he
    obtain ⟨c, -, rfl⟩ := he
    have hg := foldl_map_get ts (summaryInit ts) c
    rw [hfilter c] at hg
    simpa [summaryInit, JsMap.get] using hg

/-- C3, at the sample ledger: the schema hypothesis holds, the list of entries is
food 12 and transport 3, and the three parts of the statement hold for it. -/
theorem expenseCategories_one_per_category_witness :
    (∀ t ∈ sampleLedger, t.category ∈ categoryEnum)
      ∧ (buildSummary sampleLedger).expenseCategories = [⟨"food", 12⟩, ⟨"transport", 3⟩]
      ∧ (((buildSummary sampleLedger).expenseCategories.map (fun e => e.category)).Nodup
        ∧ (∀ c, c ∈ (buildSummary sampleLedger).expenseCategories.map (fun e => e.category)
              ↔ ∃ t ∈ sampleLedger, t.type ≠ "income" ∧ t.category = c)
        ∧ (∀ e ∈ (buildSummary sampleLedger).expenseCategories,
              e.amount = amountSum (expenseOfCategory sampleLedger e.category))) :=
  ⟨by decide, by decide, expenseCategories_one_per_category sampleLedger (by decide)⟩

/-- C4: the handler fetches without a sort and keeps the first five documents in
store order. On a store that holds an older document before a newer one,
recentTransactions lists the older one first. -/
theorem recentTransactions_store_order :
    (getSummary [(⟨"u", "rent", 500, "utilities", "expense", 1000⟩ : Transaction),
        ⟨"u", "salary", 900, "other", "income", 2000⟩] "u").recentTransactions
      = [⟨"u", "rent", 500, "utilities", "expense", 1000⟩,
         ⟨"u", "salary", 900, "other", "income", 2000⟩]
    ∧ ((getSummary [(⟨"u", "rent", 500, "utilities", "expense", 1000⟩ : Transaction),
        ⟨"u", "salary", 900, "other", "income", 2000⟩] "u").recentTransactions.map
          (fun t => t.date)) = [1000, 2000] := by
  decide

/-! ## Lemmas on the calendar functions -/

theorem dayFromYear_bounds (y : Int) :
    146097 * (y - 1970) - 506 ≤ 400 * dayFromYear y
      ∧ 400 * dayFromYear y ≤ 146097 * (y - 1970) + 589 := by
  unfold dayFromYear
  omega

theorem leapDays_eq (y : Int) :
    leapDays y = if y % 4 ≠ 0 then 0 else if y % 100 ≠ 0 then 1 else if y % 400 ≠ 0 then 0
      else 1 := by
  unfold leapDays inLeapYear
  split_ifs <;> simp_all

theorem leapDays_range (y : Int) : leapDays y = 0 ∨ leapDays y = 1 := by
  unfold leapDays
  split_ifs <;> simp

theorem dayFromYear_succ (y : Int) :
    dayFromYear (y + 1) = dayFromYear y + 365 + leapDays y := by
  have s4 : (y + 1 - 1969) / 4 = (y - 1969) / 4 + (if y % 4 = 0 then 1 else 0) := by
    split_ifs <;> omega
  have s100 : (y + 1 - 1901) / 100 = (y - 1901) / 100 + (if y % 100 = 0 then 1 else 0) := by
    split_ifs <;> omega
  have s400 : (y + 1 - 1601) / 400 = (y - 1601) / 400 + (if y % 400 = 0 then 1 else 0) := by
    split_ifs <;> omega
  have m1 : y % 400 = 0 → y % 100 = 0 := by omega
  have m2 : y % 100 = 0 → y % 4 = 0 := by omega
  rw [leapDays_eq]
  unfold dayFromYear
  rw [s4, s100, s400]
  by_cases h4 : y % 4 = 0
  · by_cases h100 : y % 100 = 0
    · by_cases h400 : y % 400 = 0
      · simp only [h4, h100, h400, if_true, ne_eq, not_true_eq_false, if_false]
        ring
      · simp only [h4, h100, h400, if_true, ne_eq, not_true_eq_false, if_false,
          not_false_eq_true]
        ring
    · have h400 : ¬ y % 400 = 0 := fun e => h100 (m1 e)
      simp only [h4, h100, h400, if_true, ne_eq, not_true_eq_false, if_false,
        not_false_eq_true]
      ring
  · have h100 : ¬ y % 100 = 0 := fun e => h4 (m2 e)
    have h400 : ¬ y % 400 = 0 := fun e => h100 (m1 e)
    simp only [h4, h100, h400, if_true, ne_eq, if_false, not_false_eq_true]
    ring

theorem yearFromDay_spec (d : Int) :
    dayFromYear (yearFromDay d) ≤ d ∧ d < dayFromYear (yearFromDay d + 1) := by
  have e : yearFromDay d = (if dayFromYear (1970 + (400 * d) / 146097 + 1) ≤ d
      then 1970 + (400 * d) / 146097 + 1
      else if d < dayFromYear (1970 + (400 * d) / 146097) then 1970 + (400 * d) / 146097 - 1
      else 1970 + (400 * d) / 146097) := rfl
  have b0 := dayFromYear_bounds (1970 + (400 * d) / 146097 - 1)
  have b2 := dayFromYear_bounds (1970 + (400 * d) / 146097 + 1 + 1)
  split_ifs at e with h1 h2
  · rw [e]
    exact ⟨h1, by omega⟩
  · rw [e]
    refine ⟨by omega, ?_⟩
    have : 1970 + 400 * d / 146097 - 1 + 1 = 1970 + 400 * d / 146097 := by ring
    rw [this]
    exact h2
  · rw [e]
    exact ⟨not_lt.mp h2, not_le.mp h1⟩

theorem dayFromYear_mono_nat (y : Int) (k : Nat) :
    dayFromYear y + 365 * k ≤ dayFromYear (y + k) := by
  induction k with
  | zero => simp
  | succ n ih =>
    have s := dayFromYear_succ (y + n)
    have r := leapDays_range (y + n)
    have e : y + ((n + 1 : Nat) : Int) = y + n + 1 := by push_cast; ring
    rw [e]
    push_cast
    omega

theorem dayFromYear_mono (y z : Int) (h : y ≤ z) :
    dayFromYear y + 365 * (z - y) ≤ dayFromYear z := by
  have hm := dayFromYear_mono_nat y (z - y).toNat
  have e : ((z - y).toNat : Int) = z - y := Int.toNat_of_nonneg (by omega)
  rw [e] at hm
  have e2 : y + (z - y) = z := by ring
  rw [e2] at hm
  exact hm

/-- The year of a day is determined by the two bounds of `YearFromTime`. -/
theorem yearFromDay_unique (d y : Int) (h1 : dayFromYear y ≤ d)
    (h2 : d < dayFromYear (y + 1)) : yearFromDay d = y := by
  have s := yearFromDay_spec d
  rcases lt_trichotomy (yearFromDay d) y with h | h | h
  · have := dayFromYear_mono (yearFromDay d + 1) y (by omega)
    omega
  · exact h
  · have := dayFromYear_mono (y + 1) (yearFromDay d) (by omega)
    omega

theorem yearFromDay_offset (y w : Int) (h0 : 0 ≤ w) (h1 : w < 365 + leapDays y) :
    yearFromDay (dayFromYear y + w) = y := by
  apply yearFromDay_unique
  · omega
  · rw [dayFromYear_succ]
    omega

theorem dayWithinYear_range (d : Int) :
    0 ≤ d - dayFromYear (yearFromDay d)
      ∧ d - dayFromYear (yearFromDay d) < 365 + leapDays (yearFromDay d) := by
  have s := yearFromDay_spec d
  rw [dayFromYear_succ] at s
  omega

theorem monthFromDay_eq (d : Int) :
    monthFromDay d
      = (if d - dayFromYear (yearFromDay d) < 31 then 0
        else if d - dayFromYear (yearFromDay d) < 59 + leapDays (yearFromDay d) then 1
        else if d - dayFromYear (yearFromDay d) < 90 + leapDays (yearFromDay d) then 2
        else if d - dayFromYear (yearFromDay d) < 120 + leapDays (yearFromDay d) then 3
        else if d - dayFromYear (yearFromDay d) < 151 + leapDays (yearFromDay d) then 4
        else if d - dayFromYear (yearFromDay d) < 181 + leapDays (yearFromDay d) then 5
        else if d - dayFromYear (yearFromDay d) < 212 + leapDays (yearFromDay d) then 6
        else if d - dayFromYear (yearFromDay d) < 243 + leapDays (yearFromDay d) then 7
        else if d - dayFromYear (yearFromDay d) < 273 + leapDays (yearFromDay d) then 8
        else if d - dayFromYear (yearFromDay d) < 304 + leapDays (yearFromDay d) then 9
        else if d - dayFromYear (yearFromDay d) < 334 + leapDays (yearFromDay d) then 10
        else 11) := rfl

theorem monthFromDay_range (d : Int) : 0 ≤ monthFromDay d ∧ monthFromDay d ≤ 11 := by
  rw [monthFromDay_eq]
  omega

theorem yearFromDay_nonneg (d : Int) (h : 0 ≤ d) : 1970 ≤ yearFromDay d := by
  by_contra hc
  have s := yearFromDay_spec d
  have hm := dayFromYear_mono (yearFromDay d + 1) 1970 (by omega)
  have e : dayFromYear 1970 = 0 := by decide
  omega

/-- Setting the day of the month moves the day number by the difference of the dates. -/
theorem makeDay_civil (d n : Int) :
    makeDay (yearFromDay d) (monthFromDay d) n = d + (n - dateFromDay d) := by
  have r := monthFromDay_range d
  have e1 : monthFromDay d / 12 = 0 := by omega
  have e2 : monthFromDay d % 12 = monthFromDay d := by omega
  unfold makeDay dateFromDay
  simp only [e1, e2, add_zero]
  ring

theorem day_mul_msPerDay (d : Int) : day (d * msPerDay) = d := by
  unfold day msPerDay
  omega

/-- The day before the first of the next month is the last day of the month: its date
is the number of days of the month. -/
theorem dateFromDay_last (y m : Int) (h0 : 0 ≤ m) (h1 : m ≤ 11) :
    dateFromDay (makeDay y (m + 1) 0) = calendarDaysInMonth y m := by
  have hl : leapDays y = if inLeapYear y then 1 else 0 := rfl
  have key : ∀ w : Int, 0 ≤ w → w < 365 + leapDays y →
      dateFromDay (dayFromYear y + w)
        = w - monthStart (monthFromDay (dayFromYear y + w)) (leapDays y) + 1 := by
    intro w hw0 hw1
    unfold dateFromDay
    simp only [yearFromDay_offset y w hw0 hw1]
    ring
  have keym : ∀ w : Int, 0 ≤ w → w < 365 + leapDays y →
      monthFromDay (dayFromYear y + w)
        = (if w < 31 then 0 else if w < 59 + leapDays y then 1
          else if w < 90 + leapDays y then 2 else if w < 120 + leapDays y then 3
          else if w < 151 + leapDays y then 4 else if w < 181 + leapDays y then 5
          else if w < 212 + leapDays y then 6 else if w < 243 + leapDays y then 7
          else if w < 273 + leapDays y then 8 else if w < 304 + leapDays y then 9
          else if w < 334 + leapDays y then 10 else 11) := by
    intro w hw0 hw1
    rw [monthFromDay_eq, yearFromDay_offset y w hw0 hw1, add_sub_cancel_left]
  have hmk : makeDay y (m + 1) 0
      = dayFromYear y + (if m = 11 then 364 + leapDays y
          else monthStart (m + 1) (leapDays y) - 1) := by
    unfold makeDay
    by_cases hm : m = 11
    · subst hm
      have e1 : ((11 : Int) + 1) / 12 = 1 := by decide
      have e2 : ((11 : Int) + 1) % 12 = 0 := by decide
      have e3 : monthStart 0 (leapDays (y + 1)) = 0 := by simp [monthStart]
      simp only [e1, e2, e3, dayFromYear_succ, if_true]
      ring
    · have e1 : (m + 1) / 12 = 0 := by omega
      have e2 : (m + 1) % 12 = m + 1 := by omega
      simp only [e1, e2, add_zero, hm, if_false]
      ring
  rw [hmk]
  have hcases : m = 0 ∨ m = 1 ∨ m = 2 ∨ m = 3 ∨ m = 4 ∨ m = 5 ∨ m = 6 ∨ m = 7 ∨ m = 8
      ∨ m = 9 ∨ m = 10 ∨ m = 11 := by omega
  have hb : (inLeapYear y = false ∧ leapDays y = 0) ∨ (inLeapYear y = true ∧ leapDays y = 1) := by
    cases h : inLeapYear y <;> simp [hl, h]
  rcases hb with ⟨hb, hz⟩ | ⟨hb, hz⟩ <;>
  rcases hcases with h | h | h | h | h | h | h | h | h | h | h | h <;>
  · subst h
    rw [key _ (by simp [monthStart, hz]) (by simp [monthStart, hz]),
      keym _ (by simp [monthStart, hz]) (by simp [monthStart, hz])]
    simp [monthStart, hz, calendarDaysInMonth, hb]

/-! ## Lemmas on the bucket arrays -/

theorem addAt_length (xs : List ℚ) (i : Nat) (a : ℚ) : (addAt xs i a).length = xs.length := by
  simp [addAt]

theorem addAt_sum (xs : List ℚ) (i : Nat) (a : ℚ) (h : i < xs.length) :
    (addAt xs i a).sum = xs.sum + a := by
  induction xs generalizing i with
  | nil => simp at h
  | cons x tl ih =>
    cases i with
    | zero =>
      simp [addAt]
      ring
    | succ n =>
      have hn : n < tl.length := by simpa using h
      have := ih n hn
      simp only [addAt, List.set_cons_succ, List.getD_cons_succ, List.sum_cons] at this ⊢
      rw [this]
      ring

theorem addAt_getD (xs : List ℚ) (i j : Nat) (a : ℚ) (h : i < xs.length) :
    (addAt xs i a).getD j 0 = xs.getD j 0 + (if j = i then a else 0) := by
  induction xs generalizing i j with
  | nil => simp at h
  | cons x tl ih =>
    cases i with
    | zero =>
      cases j with
      | zero => simp [addAt]
      | succ m => simp [addAt]
    | succ n =>
      have hn : n < tl.length := by simpa using h
      cases j with
      | zero => simp [addAt]
      | succ m =>
        have := ih n m hn
        simp only [addAt, List.set_cons_succ, List.getD_cons_succ, Nat.succ_eq_add_one,
          add_left_inj] at this ⊢
        exact this

theorem foldl_pushBucket {α : Type} (l : List α) (f : α → String) (td : TimeData) :
    (l.foldl (fun acc i => pushBucket acc (f i)) td).labels = td.labels ++ l.map f
      ∧ (l.foldl (fun acc i => pushBucket acc (f i)) td).income
          = td.income ++ List.replicate l.length 0
      ∧ (l.foldl (fun acc i => pushBucket acc (f i)) td).expenses
          = td.expenses ++ List.replicate l.length 0
      ∧ (l.foldl (fun acc i => pushBucket acc (f i)) td).summary = td.summary := by
  induction l generalizing td with
  | nil => simp
  | cons x tl ih =>
    rw [List.foldl_cons]
    obtain ⟨h1, h2, h3, h4⟩ := ih (pushBucket td (f x))
    rw [h1, h2, h3, h4]
    simp [pushBucket, List.replicate_succ]

theorem sum_replicate_zero (n : Nat) : (List.replicate n (0 : ℚ)).sum = 0 := by
  simp

theorem foldl_pushBucket_balanced {α : Type} (l : List α) (f : α → String)
    (period : Option String) :
    Balanced (l.foldl (fun acc i => pushBucket acc (f i)) (timeDataInit period)) := by
  obtain ⟨h1, h2, h3, h4⟩ := foldl_pushBucket l f (timeDataInit period)
  unfold Balanced
  rw [h1, h2, h3, h4]
  simp [timeDataInit]

theorem addToBucket_labels (td : TimeData) (i : Nat) (t : Transaction) :
    (addToBucket td i t).labels = td.labels := by
  unfold addToBucket
  split_ifs <;> rfl

theorem addToBucket_balanced (td : TimeData) (i : Nat) (t : Transaction)
    (hb : Balanced td) (hi : i < td.labels.length) : Balanced (addToBucket td i t) := by
  obtain ⟨h1, h2, h3, h4⟩ := hb
  unfold addToBucket Balanced
  by_cases ht : t.type = "income"
  · simp only [ht, if_true]
    refine ⟨by rw [addAt_length]; exact h1, h2, ?_, h4⟩
    rw [addAt_sum _ _ _ (by omega), h3]
  · simp only [ht, if_false]
    refine ⟨h1, by rw [addAt_length]; exact h2, h3, ?_⟩
    rw [addAt_sum _ _ _ (by omega), h4]

theorem weeklyStep_labels (now : Int) (td : TimeData) (t : Transaction) :
    (weeklyStep now td t).labels = td.labels := by
  unfold weeklyStep
  simp only
  split_ifs
  · exact addToBucket_labels _ _ _
  · rfl

theorem monthlyStep_labels (td : TimeData) (t : Transaction) :
    (monthlyStep td t).labels = td.labels := by
  unfold monthlyStep
  simp only
  split_ifs
  · exact addToBucket_labels _ _ _
  · rfl

theorem weeklyStep_balanced (now : Int) (td : TimeData) (t : Transaction)
    (hb : Balanced td) (h7 : td.labels.length = 7) : Balanced (weeklyStep now td t) := by
  unfold weeklyStep
  simp only
  split_ifs with h
  · exact addToBucket_balanced _ _ _ hb (by omega)
  · exact hb

theorem monthlyStep_balanced (td : TimeData) (t : Transaction) (hb : Balanced td) :
    Balanced (monthlyStep td t) := by
  unfold monthlyStep
  simp only
  split_ifs with h
  · exact addToBucket_balanced _ _ _ hb (by omega)
  · exact hb

theorem foldl_weeklyStep (now : Int) (ts : List Transaction) (td : TimeData)
    (hb : Balanced td) (h7 : td.labels.length = 7) :
    Balanced (ts.foldl (weeklyStep now) td) ∧ (ts.foldl (weeklyStep now) td).labels = td.labels := by
  induction ts generalizing td with
  | nil => exact ⟨hb, rfl⟩
  | cons t tl ih =>
    rw [List.foldl_cons]
    have hl := weeklyStep_labels now td t
    obtain ⟨h1, h2⟩ := ih (weeklyStep now td t) (weeklyStep_balanced now td t hb h7)
      (by rw [hl]; exact h7)
    exact ⟨h1, by rw [h2, hl]⟩

theorem foldl_monthlyStep (ts : List Transaction) (td : TimeData) (hb : Balanced td) :
    Balanced (ts.foldl monthlyStep td) ∧ (ts.foldl monthlyStep td).labels = td.labels := by
  induction ts generalizing td with
  | nil => exact ⟨hb, rfl⟩
  | cons t tl ih =>
    rw [List.foldl_cons]
    obtain ⟨h1, h2⟩ := ih (monthlyStep td t) (monthlyStep_balanced td t hb)
    exact ⟨h1, by rw [h2, monthlyStep_labels]⟩

theorem weeklyBuckets_labels_length (tz now : Int) (period : Option String) :
    (weeklyBuckets tz now (timeDataInit period)).labels.length = 7 := by
  have h := (foldl_pushBucket [6, 5, 4, 3, 2, 1, 0] (weeklyLabel tz now) (timeDataInit period)).1
  unfold weeklyBuckets
  rw [h]
  simp [timeDataInit]

theorem weeklyBuckets_balanced (tz now : Int) (period : Option String) :
    Balanced (weeklyBuckets tz now (timeDataInit period)) :=
  foldl_pushBucket_balanced [6, 5, 4, 3, 2, 1, 0] (weeklyLabel tz now) period

theorem monthlyBuckets_balanced (now : Int) (period : Option String) :
    Balanced (monthlyBuckets now (timeDataInit period)) :=
  foldl_pushBucket_balanced (List.range' 1 (daysInMonth now).toNat) (fun i => toString i) period

theorem buildTimeData_balanced (period : Option String) (tz now : Int)
    (ts : List Transaction) : Balanced (buildTimeData period tz now ts) := by
  unfold buildTimeData
  split_ifs with hp
  · exact (foldl_weeklyStep now ts _ (weeklyBuckets_balanced tz now period)
      (weeklyBuckets_labels_length tz now period)).1
  · exact (foldl_monthlyStep ts _ (monthlyBuckets_balanced now period)).1

/-! ## `GET /time-data`: results -/

/-- C10: in weekly mode labels, income and expenses each have exactly 7 elements,
whatever the clock reading and the transaction list (empty, or with dates outside
the window). -/
theorem weekly_seven_buckets (tz now : Int) (ts : List Transaction) :
    (buildTimeData (some "weekly") tz now ts).labels.length = 7
      ∧ (buildTimeData (some "weekly") tz now ts).income.length = 7
      ∧ (buildTimeData (some "weekly") tz now ts).expenses.length = 7 := by
  have hb := buildTimeData_balanced (some "weekly") tz now ts
  have hl : (buildTimeData (some "weekly") tz now ts).labels.length = 7 := by
    unfold buildTimeData
    rw [if_pos rfl]
    rw [(foldl_weeklyStep now ts _ (weeklyBuckets_balanced tz now _)
      (weeklyBuckets_labels_length tz now _)).2]
    exact weeklyBuckets_labels_length tz now _
  exact ⟨hl, by rw [hb.1, hl], by rw [hb.2.1, hl]⟩

theorem weeklyStep_lengths (now : Int) (td : TimeData) (t : Transaction) :
    (weeklyStep now td t).income.length = td.income.length
      ∧ (weeklyStep now td t).expenses.length = td.expenses.length := by
  unfold weeklyStep addToBucket
  simp only
  split_ifs <;> simp [addAt_length]

theorem weeklyStep_income_getD (now : Int) (td : TimeData) (t : Transaction) (i : Nat)
    (hi : i < 7) (h7 : td.income.length = 7) :
    (weeklyStep now td t).income.getD i 0
      = td.income.getD i 0
        + (if t.type = "income" ∧ weeklyDayIndex now t = i then t.amount else 0) := by
  unfold weeklyStep addToBucket
  simp only
  by_cases hg : 0 ≤ weeklyDayIndex now t ∧ weeklyDayIndex now t < 7
  · rw [if_pos hg]
    by_cases ht : t.type = "income"
    · rw [if_pos ht]
      simp only [ht, true_and]
      rw [addAt_getD _ _ _ _ (by omega)]
      have e : (i = (weeklyDayIndex now t).toNat) ↔ (weeklyDayIndex now t = i) := by omega
      simp only [e]
    · rw [if_neg ht]
      simp [ht]
  · rw [if_neg hg]
    have e : ¬ (weeklyDayIndex now t = i) := by omega
    simp [e]

theorem weeklyStep_expenses_getD (now : Int) (td : TimeData) (t : Transaction) (i : Nat)
    (hi : i < 7) (h7 : td.expenses.length = 7) :
    (weeklyStep now td t).expenses.getD i 0
      = td.expenses.getD i 0
        + (if ¬ t.type = "income" ∧ weeklyDayIndex now t = i then t.amount else 0) := by
  unfold weeklyStep addToBucket
  simp only
  by_cases hg : 0 ≤ weeklyDayIndex now t ∧ weeklyDayIndex now t < 7
  · rw [if_pos hg]
    by_cases ht : t.type = "income"
    · rw [if_pos ht]
      simp [ht]
    · rw [if_neg ht]
      simp only [ht, not_false_eq_true, true_and]
      rw [addAt_getD _ _ _ _ (by omega)]
      have e : (i = (weeklyDayIndex now t).toNat) ↔ (weeklyDayIndex now t = i) := by omega
      simp only [e]
  · rw [if_neg hg]
    have e : ¬ (weeklyDayIndex now t = i) := by omega
    simp [e]

theorem weeklyStep_totals (now : Int) (td : TimeData) (t : Transaction) :
    (weeklyStep now td t).summary.totalIncome
        = td.summary.totalIncome
          + (if t.type = "income" ∧ (0 ≤ weeklyDayIndex now t ∧ weeklyDayIndex now t ≤ 6)
              then t.amount else 0)
      ∧ (weeklyStep now td t).summary.totalExpense
        = td.summary.totalExpense
          + (if ¬ t.type = "income" ∧ (0 ≤ weeklyDayIndex now t ∧ weeklyDayIndex now t ≤ 6)
              then t.amount else 0) := by
  unfold weeklyStep addToBucket
  simp only
  by_cases hg : 0 ≤ weeklyDayIndex now t ∧ weeklyDayIndex now t < 7
  · have hg2 : 0 ≤ weeklyDayIndex now t ∧ weeklyDayIndex now t ≤ 6 := by omega
    rw [if_pos hg]
    by_cases ht : t.type = "income"
    · simp [ht, hg2]
    · simp [ht, hg2]
  · have hg2 : ¬ (0 ≤ weeklyDayIndex now t ∧ weeklyDayIndex now t ≤ 6) := by omega
    rw [if_neg hg]
    simp [hg2]

theorem foldl_weeklyStep_values (now : Int) (ts : List Transaction) (td : TimeData)
    (i : Nat) (hi : i < 7) (hinc : td.income.length = 7) (hexp : td.expenses.length = 7) :
    (ts.foldl (weeklyStep now) td).income.getD i 0
        = td.income.getD i 0
          + amountSum ((incomeOf ts).filter (fun t => decide (weeklyDayIndex now t = i)))
      ∧ (ts.foldl (weeklyStep now) td).expenses.getD i 0
        = td.expenses.getD i 0
          + amountSum ((expenseOf ts).filter (fun t => decide (weeklyDayIndex now t = i))) := by
  induction ts generalizing td with
  | nil => simp [amountSum, incomeOf, expenseOf]
  | cons t tl ih =>
    rw [List.foldl_cons]
    have hlen := weeklyStep_lengths now td t
    obtain ⟨h1, h2⟩ := ih (weeklyStep now td t) (by rw [hlen.1]; exact hinc)
      (by rw [hlen.2]; exact hexp)
    rw [h1, h2, weeklyStep_income_getD now td t i hi hinc,
      weeklyStep_expenses_getD now td t i hi hexp]
    by_cases ht : t.type = "income" <;> by_cases hx : weeklyDayIndex now t = i <;>
      simp [amountSum, incomeOf, expenseOf, ht, hx, add_assoc]

theorem foldl_weeklyStep_totals (now : Int) (ts : List Transaction) (td : TimeData) :
    (ts.foldl (weeklyStep now) td).summary.totalIncome
        = td.summary.totalIncome
          + amountSum ((incomeOf ts).filter
              (fun t => decide (0 ≤ weeklyDayIndex now t ∧ weeklyDayIndex now t ≤ 6)))
      ∧ (ts.foldl (weeklyStep now) td).summary.totalExpense
        = td.summary.totalExpense
          + amountSum ((expenseOf ts).filter
              (fun t => decide (0 ≤ weeklyDayIndex now t ∧ weeklyDayIndex now t ≤ 6))) := by
  induction ts generalizing td with
  | nil => simp [amountSum, incomeOf, expenseOf]
  | cons t tl ih =>
    rw [List.foldl_cons]
    obtain ⟨h1, h2⟩ := ih (weeklyStep now td t)
    obtain ⟨s1, s2⟩ := weeklyStep_totals now td t
    rw [h1, h2, s1, s2]
    by_cases ht : t.type = "income" <;>
      by_cases hx : (0 ≤ weeklyDayIndex now t ∧ weeklyDayIndex now t ≤ 6) <;>
      simp [amountSum, incomeOf, expenseOf, ht, hx, add_assoc]

theorem weeklyBuckets_fields (tz now : Int) (period : Option String) :
    (weeklyBuckets tz now (timeDataInit period)).income = [0, 0, 0, 0, 0, 0, 0]
      ∧ (weeklyBuckets tz now (timeDataInit period)).expenses = [0, 0, 0, 0, 0, 0, 0]
      ∧ (weeklyBuckets tz now (timeDataInit period)).summary.totalIncome = 0
      ∧ (weeklyBuckets tz now (timeDataInit period)).summary.totalExpense = 0 :=
  ⟨rfl, rfl, rfl, rfl⟩

/-- C6: in weekly mode, for every clock reading and every fetched list, bucket `i`
(0 to 6) of income, resp. of expenses, holds the sum of the amounts of the income,
resp. expense, transactions whose index `6 - floor((now - date) / 86400000)` is `i`;
the totals of the summary count the transactions whose index lies in 0..6 and no
others; a transaction whose index is outside 0..6 leaves the whole result as it is. -/
theorem weekly_bucket_values (tz now : Int) (ts : List Transaction) (i : Nat) (hi : i < 7) :
    (buildTimeData (some "weekly") tz now ts).income.getD i 0
        = amountSum ((incomeOf ts).filter (fun t => decide (weeklyDayIndex now t = i)))
      ∧ (buildTimeData (some "weekly") tz now ts).expenses.getD i 0
        = amountSum ((expenseOf ts).filter (fun t => decide (weeklyDayIndex now t = i)))
      ∧ (buildTimeData (some "weekly") tz now ts).summary.totalIncome
        = amountSum ((incomeOf ts).filter
            (fun t => decide (0 ≤ weeklyDayIndex now t ∧ weeklyDayIndex now t ≤ 6)))
      ∧ (buildTimeData (some "weekly") tz now ts).summary.totalExpense
        = amountSum ((expenseOf ts).filter
            (fun t => decide (0 ≤ weeklyDayIndex now t ∧ weeklyDayIndex now t ≤ 6)))
      ∧ (∀ (td : TimeData) (t : Transaction),
          ¬ (0 ≤ weeklyDayIndex now t ∧ weeklyDayIndex now t ≤ 6) → weeklyStep now td t = td) := by
  obtain ⟨f1, f2, f3, f4⟩ := weeklyBuckets_fields tz now (some "weekly")
  have hv := foldl_weeklyStep_values now ts (weeklyBuckets tz now (timeDataInit (some "weekly")))
    i hi (by rw [f1]; rfl) (by rw [f2]; rfl)
  have ht := foldl_weeklyStep_totals now ts (weeklyBuckets tz now (timeDataInit (some "weekly")))
  have hz : ([0, 0, 0, 0, 0, 0, 0] : List ℚ).getD i 0 = 0 := by
    interval_cases i <;> rfl
  rw [f1, f2, hz] at hv
  simp only [zero_add] at hv
  rw [f3, f4] at ht
  simp only [zero_add] at ht
  have hb : buildTimeData (some "weekly") tz now ts
      = ts.foldl (weeklyStep now) (weeklyBuckets tz now (timeDataInit (some "weekly"))) := by
    unfold buildTimeData
    rw [if_pos rfl]
  rw [hb]
  refine ⟨hv.1, hv.2, ht.1, ht.2, ?_⟩
  intro td t hout
  unfold weeklyStep
  have : ¬ (0 ≤ weeklyDayIndex now t ∧ weeklyDayIndex now t < 7) := by omega
  simp only [this, if_false]

/-- C6, at a concrete input: clock 2024-03-15T12:00:00Z, an income of 40 dated one
day and one hour earlier (index 5) and an expense dated eight days earlier (index -2). -/
theorem weekly_bucket_values_witness :
    (5 : Nat) < 7
      ∧ (buildTimeData (some "weekly") 0 1710504000000
          [⟨"u", "gift", 40, "other", "income", 1710414000000⟩,
           ⟨"u", "rent", 500, "utilities", "expense", 1709812800000⟩]).income
          = [0, 0, 0, 0, 0, 40, 0]
      ∧ (buildTimeData (some "weekly") 0 1710504000000
          [⟨"u", "gift", 40, "other", "income", 1710414000000⟩,
           ⟨"u", "rent", 500, "utilities", "expense", 1709812800000⟩]).expenses
          = [0, 0, 0, 0, 0, 0, 0]
      ∧ (buildTimeData (some "weekly") 0 1710504000000
          [⟨"u", "gift", 40, "other", "income", 1710414000000⟩,
           ⟨"u", "rent", 500, "utilities", "expense", 1709812800000⟩]).income.getD 5 0
          = amountSum ((incomeOf
              [⟨"u", "gift", 40, "other", "income", 1710414000000⟩,
               ⟨"u", "rent", 500, "utilities", "expense", 1709812800000⟩]).filter
              (fun t => decide (weeklyDayIndex 1710504000000 t = (5 : Nat)))) :=
  ⟨by decide,
    by simp [buildTimeData, weeklyBuckets, timeDataInit, pushBucket, weeklyStep, weeklyDayIndex,
      msPerDay, addToBucket, addAt],
    by simp [buildTimeData, weeklyBuckets, timeDataInit, pushBucket, weeklyStep, weeklyDayIndex,
      msPerDay, addToBucket, addAt],
    (weekly_bucket_values 0 1710504000000
      [⟨"u", "gift", 40, "other", "income", 1710414000000⟩,
       ⟨"u", "rent", 500, "utilities", "expense", 1709812800000⟩] 5 (by decide)).1⟩

theorem day_nonneg (t : Int) (h : 0 ≤ t) : 0 ≤ day (t + istOffset) := by
  unfold day istOffset msPerDay
  omega

theorem daysInMonth_eq (now : Int) (h : 0 ≤ now) :
    daysInMonth now = calendarDaysInMonth (currentYearIST now) (currentMonthIST now) := by
  have hy : 1970 ≤ currentYearIST now := yearFromDay_nonneg _ (day_nonneg now h)
  have hf : makeFullYear (currentYearIST now) = currentYearIST now := by
    unfold makeFullYear
    rw [if_neg (by omega)]
  have hm := monthFromDay_range (day (now + istOffset))
  unfold daysInMonth dateUTC
  rw [hf, day_mul_msPerDay]
  exact dateFromDay_last _ _ hm.1 hm.2

theorem calendarDaysInMonth_range (y m : Int) :
    28 ≤ calendarDaysInMonth y m ∧ calendarDaysInMonth y m ≤ 31 := by
  unfold calendarDaysInMonth
  split_ifs <;> decide

theorem monthlyBuckets_labels (now : Int) (period : Option String) :
    (monthlyBuckets now (timeDataInit period)).labels
      = (List.range' 1 (daysInMonth now).toNat).map (fun i => toString i) := by
  have h := (foldl_pushBucket (List.range' 1 (daysInMonth now).toNat) (fun i => toString i)
    (timeDataInit period)).1
  unfold monthlyBuckets
  rw [h]
  simp [timeDataInit]

theorem buildTimeData_monthly_labels (period : Option String) (hp : period ≠ some "weekly")
    (tz now : Int) (ts : List Transaction) :
    (buildTimeData period tz now ts).labels
      = (List.range' 1 (daysInMonth now).toNat).map (fun i => toString i) := by
  unfold buildTimeData
  rw [if_neg hp, (foldl_monthlyStep ts _ (monthlyBuckets_balanced now period)).2]
  exact monthlyBuckets_labels now period

/-- C8: in monthly mode (any period other than weekly), for a clock reading at or after
the epoch, labels, income and expenses have as many elements as the current month of
the current year, both read in the reporting zone, has calendar days: 28 in February
of a common year, 29 in February of a leap year, 30 in April, and between 28 and 31 in
every case; label number `k` (from 0) is the decimal string of `k + 1`. -/
theorem monthly_bucket_count (period : Option String) (hp : period ≠ some "weekly")
    (tz now : Int) (hnow : 0 ≤ now) (ts : List Transaction) :
    (buildTimeData period tz now ts).labels.length
        = calendarDaysInMonth (currentYearIST now) (currentMonthIST now)
      ∧ (buildTimeData period tz now ts).income.length
        = calendarDaysInMonth (currentYearIST now) (currentMonthIST now)
      ∧ (buildTimeData period tz now ts).expenses.length
        = calendarDaysInMonth (currentYearIST now) (currentMonthIST now)
      ∧ 28 ≤ (buildTimeData period tz now ts).labels.length
      ∧ (buildTimeData period tz now ts).labels.length ≤ 31
      ∧ (∀ k : Nat, k < (buildTimeData period tz now ts).labels.length →
          (buildTimeData period tz now ts).labels[k]? = some (toString (k + 1)))
      ∧ (currentMonthIST now = 1 → inLeapYear (currentYearIST now) = false →
          (buildTimeData period tz now ts).labels.length = 28)
      ∧ (currentMonthIST now = 1 → inLeapYear (currentYearIST now) = true →
          (buildTimeData period tz now ts).labels.length = 29)
      ∧ (currentMonthIST now = 3 → (buildTimeData period tz now ts).labels.length = 30) := by
  have hlab := buildTimeData_monthly_labels period hp tz now ts
  have hd := daysInMonth_eq now hnow
  have hn : (daysInMonth now).toNat
      = calendarDaysInMonth (currentYearIST now) (currentMonthIST now) := by
    rw [hd]
    exact Int.toNat_ofNat _
  have hlen : (buildTimeData period tz now ts).labels.length
      = calendarDaysInMonth (currentYearIST now) (currentMonthIST now) := by
    rw [hlab, List.length_map, List.length_range', hn]
  have hb := buildTimeData_balanced period tz now ts
  have hr := calendarDaysInMonth_range (currentYearIST now) (currentMonthIST now)
  refine ⟨hlen, by rw [hb.1, hlen], by rw [hb.2.1, hlen], by rw [hlen]; exact hr.1,
    by rw [hlen]; exact hr.2, ?_, ?_, ?_, ?_⟩
  · intro k hk
    rw [hlen, ← hn] at hk
    rw [hlab, List.getElem?_map, List.getElem?_range' _ _ hk]
    simp [Nat.add_comm]
  · intro h1 h2
    rw [hlen]
    simp [calendarDaysInMonth, h1, h2]
  · intro h1 h2
    rw [hlen]
    simp [calendarDaysInMonth, h1, h2]
  · intro h1
    rw [hlen]
    simp [calendarDaysInMonth, h1]

/-- C8, at a concrete input: 2024-02-10T12:00:00Z, February of a leap year. -/
theorem monthly_bucket_count_witness :
    (some "monthly" : Option String) ≠ some "weekly" ∧ (0 : Int) ≤ 1707566400000
      ∧ currentMonthIST 1707566400000 = 1 ∧ inLeapYear (currentYearIST 1707566400000) = true
      ∧ (buildTimeData (some "monthly") 0 1707566400000 []).labels.length = 29 :=
  ⟨by decide, by decide, by decide, by decide,
    (monthly_bucket_count (some "monthly") (by decide) 0 1707566400000 (by decide) []).2.2.2.2.2.2.2.1
      (by decide) (by decide)⟩

theorem weekly_window_start (tz now : Int) :
    queryWindow (some "weekly") tz now = (now - 6 * msPerDay, now) := by
  unfold queryWindow
  rw [if_pos rfl]
  unfold setDate getDate
  simp only
  rw [makeDay_civil]
  unfold day timeWithinDay msPerDay
  generalize dateFromDay ((now + tz) / 86400000) = x
  have : (now + tz) / 86400000 + (x - 6 - x) = (now + tz) / 86400000 - 6 := by ring
  rw [this]
  have e : ((now + tz) / 86400000 - 6) * 86400000 + (now + tz) % 86400000 - tz
      = now - 6 * 86400000 := by omega
  rw [e]

/-- C5: the weekly query window starts six days before the clock, not seven. With the
clock at 2024-03-15T12:00:00Z, an income of 100 dated six and a half days earlier lies
strictly inside the seven-day window and has index 0, but it is not fetched: the
total is 0 and bucket 0 is 0. -/
theorem weekly_window_misses_seventh_day :
    queryWindow (some "weekly") 0 1710504000000 = (1710504000000 - 6 * msPerDay, 1710504000000)
      ∧ 1710504000000 - 7 * msPerDay < (1709942400000 : Int)
      ∧ (1709942400000 : Int) < 1710504000000
      ∧ weeklyDayIndex 1710504000000 ⟨"u", "salary", 100, "other", "income", 1709942400000⟩ = 0
      ∧ (getTimeData [⟨"u", "salary", 100, "other", "income", 1709942400000⟩] "u"
          (some "weekly") 0 1710504000000).summary.totalIncome = 0
      ∧ (getTimeData [⟨"u", "salary", 100, "other", "income", 1709942400000⟩] "u"
          (some "weekly") 0 1710504000000).income = [0, 0, 0, 0, 0, 0, 0] := by
  decide

/-- For a clock at or after the epoch the monthly window is the month of the reporting
zone moved later by the zone offset: it starts and ends at UTC midnight. -/
theorem monthly_window_shifted (period : Option String) (hp : period ≠ some "weekly")
    (tz now : Int) (hnow : 0 ≤ now) :
    queryWindow period tz now
      = (istMonthStart now + istOffset, istNextMonthStart now + istOffset) := by
  have hy : 1970 ≤ currentYearIST now := yearFromDay_nonneg _ (day_nonneg now hnow)
  have hf : makeFullYear (currentYearIST now) = currentYearIST now := by
    unfold makeFullYear
    rw [if_neg (by omega)]
  unfold queryWindow istMonthStart istNextMonthStart dateUTC
  rw [if_neg hp, hf]
  simp

/-- C7: the monthly query window runs between UTC midnights, not between midnights of
the reporting zone. With the clock at 2024-03-15T12:00:00Z the bounds are
2024-03-01T00:00:00Z and 2024-04-01T00:00:00Z, whereas the month of the reporting zone
starts at 2024-02-29T18:30:00Z and ends at 2024-03-31T18:30:00Z; an expense dated
2024-02-29T19:00:00Z (00:30 on 1 March in the reporting zone) is not fetched. -/
theorem monthly_window_is_utc_month :
    queryWindow (some "monthly") 0 1710504000000 = (1709251200000, 1711929600000)
      ∧ istMonthStart 1710504000000 = 1709231400000
      ∧ istNextMonthStart 1710504000000 = 1711909800000
      ∧ Transaction.find [⟨"u", "tea", 5, "food", "expense", 1709233200000⟩] "u"
          (some (queryWindow (some "monthly") 0 1710504000000)) = []
      ∧ (getTimeData [⟨"u", "tea", 5, "food", "expense", 1709233200000⟩] "u"
          (some "monthly") 0 1710504000000).summary.totalExpense = 0 := by
  decide

/-! ## Lemmas on the spending dictionaries -/

theorem JsMap.total_eq_sumValues (m : JsMap) : m.total = m.sumValues := by
  unfold JsMap.total JsMap.sumValues
  rw [List.sum_eq_foldl]

theorem spendingStep_eq (m : JsMap) (t : Transaction) :
    spendingStep m t
      = if t.type = "expense" then m.put t.category ((m.get t.category).getD 0 + t.amount)
        else m := rfl

theorem foldl_spending_mem_keys (ts : List Transaction) (m : JsMap) (c : String) :
    c ∈ (ts.foldl spendingStep m).keys
      ↔ c ∈ m.keys ∨ ∃ t ∈ ts, t.type = "expense" ∧ t.category = c := by
  induction ts generalizing m with
  | nil => simp
  | cons t tl ih =>
    rw [List.foldl_cons, ih, spendingStep_eq]
    by_cases h : t.type = "expense"
    · simp only [h, if_true, JsMap.mem_keys_put, List.mem_cons, exists_eq_or_imp, true_and]
      constructor
      · rintro ((h1 | h1) | h1)
        · exact Or.inr (Or.inl h1.symm)
        · exact Or.inl h1
        · exact Or.inr (Or.inr h1)
      · rintro (h1 | h1 | h1)
        · exact Or.inl (Or.inr h1)
        · exact Or.inl (Or.inl h1.symm)
        · exact Or.inr h1
    · simp [h]

theorem foldl_spending_get (ts : List Transaction) (m : JsMap) (c : String) :
    ((ts.foldl spendingStep m).get c).getD 0
      = (m.get c).getD 0 + amountSum (typedExpensesOfCategory ts c) := by
  induction ts generalizing m with
  | nil => simp [amountSum, typedExpensesOfCategory, typedExpenses]
  | cons t tl ih =>
    rw [List.foldl_cons, ih, spendingStep_eq]
    by_cases h : t.type = "expense"
    · by_cases hc : t.category = c
      · simp [amountSum, typedExpensesOfCategory, typedExpenses, h, hc, JsMap.get_put,
          add_assoc]
      · simp [amountSum, typedExpensesOfCategory, typedExpenses, h, hc, JsMap.get_put]
    · simp [amountSum, typedExpensesOfCategory, typedExpenses, h]

theorem foldl_spending_nodup (ts : List Transaction) (m : JsMap) (h : m.keys.Nodup) :
    (ts.foldl spendingStep m).keys.Nodup := by
  induction ts generalizing m with
  | nil => exact h
  | cons t tl ih =>
    rw [List.foldl_cons]
    apply ih
    rw [spendingStep_eq]
    split_ifs
    · exact JsMap.nodup_keys_put _ _ _ h
    · exact h

theorem foldl_spending_sum (ts : List Transaction) (m : JsMap) :
    (ts.foldl spendingStep m).sumValues = m.sumValues + amountSum (typedExpenses ts) := by
  induction ts generalizing m with
  | nil => simp [amountSum, typedExpenses]
  | cons t tl ih =>
    rw [List.foldl_cons, ih, spendingStep_eq]
    by_cases h : t.type = "expense"
    · simp only [h, if_true, JsMap.sumValues_put]
      simp [amountSum, typedExpenses, h]
      ring
    · simp [amountSum, typedExpenses, h]

theorem spending_mem_keys (ts : List Transaction) (c : String) :
    c ∈ (spendingByCategory ts).keys ↔ ∃ t ∈ ts, t.type = "expense" ∧ t.category = c := by
  unfold spendingByCategory
  rw [foldl_spending_mem_keys]
  simp [JsMap.keys]

theorem spending_get (ts : List Transaction) (c : String) :
    ((spendingByCategory ts).get c).getD 0 = amountSum (typedExpensesOfCategory ts c) := by
  unfold spendingByCategory
  rw [foldl_spending_get]
  simp [JsMap.get]

theorem spending_nodup (ts : List Transaction) : (spendingByCategory ts).keys.Nodup :=
  foldl_spending_nodup ts [] (by simp [JsMap.keys])

theorem spending_total (ts : List Transaction) :
    (spendingByCategory ts).total = amountSum (typedExpenses ts) := by
  rw [JsMap.total_eq_sumValues]
  unfold spendingByCategory
  rw [foldl_spending_sum]
  simp [JsMap.sumValues]

/-! ## Lemmas on the insight lists -/

theorem categoryInsight_eq (host : Host) (cur prev : List Transaction) (c : String) :
    categoryInsight host (spendingByCategory cur) (spendingByCategory prev) c
      = if |categoryChange cur prev c| ≥ 1 then
          some
            { type := if categoryChange cur prev c > 0 then "increase" else "decrease"
              message :=
                generateNLPMessage host "category_change" c (categoryChange cur prev c)
                  (amountSum (typedExpensesOfCategory cur c))
                  (amountSum (typedExpensesOfCategory prev c)) 0
              details :=
                "Current: " ++ host.formatCurrency (amountSum (typedExpensesOfCategory cur c))
                  ++ " | Previous: "
                  ++ host.formatCurrency (amountSum (typedExpensesOfCategory prev c))
              category := some c
              percentageChange := some (mathRound (categoryChange cur prev c)) }
        else none := by
  unfold categoryInsight categoryChange
  simp only [spending_get]

theorem categoryInsight_category (host : Host) (cm pm : JsMap) (c : String) (i : Insight)
    (h : categoryInsight host cm pm c = some i) :
    i.category = some c ∧ (i.type = "increase" ∨ i.type = "decrease") := by
  unfold categoryInsight at h
  simp only at h
  split_ifs at h with h1 h2
  · cases h
    exact ⟨rfl, Or.inl rfl⟩
  · cases h
    exact ⟨rfl, Or.inr rfl⟩

theorem mem_categoryInsights (host : Host) (cm pm : JsMap) (i : Insight) :
    i ∈ categoryInsights host cm pm
      ↔ ∃ c ∈ cm.keys, categoryInsight host cm pm c = some i := by
  unfold categoryInsights
  rw [List.mem_filterMap]

theorem categoryInsights_fields (host : Host) (cm pm : JsMap) (i : Insight)
    (h : i ∈ categoryInsights host cm pm) :
    i.category ≠ none ∧ (i.type = "increase" ∨ i.type = "decrease") := by
  rw [mem_categoryInsights] at h
  obtain ⟨c, -, hc⟩ := h
  obtain ⟨h1, h2⟩ := categoryInsight_category host cm pm c i hc
  exact ⟨by rw [h1]; simp, h2⟩

theorem overallInsights_fields (host : Host) (cm pm : JsMap) (i : Insight)
    (h : i ∈ overallInsights host cm pm) : i.category = none ∧ i.type = "trend" := by
  unfold overallInsights at h
  simp only at h
  split_ifs at h
  · simp only [List.mem_singleton] at h
    subst h
    exact ⟨rfl, rfl⟩
  · simp at h

theorem buildInsights_nonempty (host : Host) (all cur prev : List Transaction)
    (hne : cur ≠ []) :
    buildInsights host all cur prev
      = if categoryInsights host (spendingByCategory cur) (spendingByCategory prev)
            ++ overallInsights host (spendingByCategory cur) (spendingByCategory prev) = []
        then [fallbackInsight host cur (spendingByCategory cur).total]
        else categoryInsights host (spendingByCategory cur) (spendingByCategory prev)
            ++ overallInsights host (spendingByCategory cur) (spendingByCategory prev) := by
  have hlen : ¬ cur.length = 0 := by
    intro h
    exact hne (List.length_eq_zero.mp h)
  have hpos : cur.length > 0 := Nat.pos_of_ne_zero hlen
  unfold buildInsights
  rw [if_neg hlen]
  simp only
  by_cases he : categoryInsights host (spendingByCategory cur) (spendingByCategory prev)
      ++ overallInsights host (spendingByCategory cur) (spendingByCategory prev) = []
  · rw [if_pos he, if_pos ⟨by rw [he]; rfl, hpos⟩, he]
    rfl
  · rw [if_neg he, if_neg]
    intro h
    exact he (List.length_eq_zero.mp h.1)

/-! ## Lemmas on the message templates -/

theorem lessMessage_ne_moreMessage (host : Host) (c : String) (n : Nat) (a b : ℚ) :
    lessMessage host c n a b ≠ moreMessage host c n a b := by
  intro h
  have hd := congrArg String.data h
  simp only [lessMessage, moreMessage, String.data_append, List.append_assoc,
    List.append_cancel_left_eq] at hd
  simp only [List.cons_append, List.cons.injEq] at hd
  exact absurd hd.2.2.1 (by decide)

theorem spikedMessage_ne_you (host : Host) (c : String) (n : Nat) (a b : ℚ) (rest : String) :
    spikedMessage host c n a b ≠ "You spent " ++ rest := by
  intro h
  have hd := congrArg String.data h
  simp only [spikedMessage, String.data_append, List.append_assoc] at hd
  simp only [List.cons_append, List.cons.injEq] at hd
  exact absurd hd.2.2.2.1 (by decide)

theorem cutMessage_ne_y (host : Host) (c : String) (n : Nat) (a b : ℚ) (s rest : String)
    (hs : s.data.head? = some 'Y') : cutMessage host c n a b ≠ s ++ rest := by
  intro h
  have hd := congrArg (fun x => x.data.head?) h
  simp only [cutMessage, String.data_append, List.append_assoc] at hd
  have e1 : ("Great job! You cut your " : String).data.head? = some 'G' := rfl
  have e0 : ("Great job! You cut your " : String).data ≠ [] := by decide
  rw [List.head?_append_of_ne_nil _ e0, e1] at hd
  have hs0 : s.data ≠ [] := by
    intro e
    rw [e] at hs
    simp at hs
  rw [List.head?_append_of_ne_nil _ hs0, hs] at hd
  exact absurd hd (by decide)

theorem moreMessage_eq (host : Host) (c : String) (n : Nat) (a b : ℚ) :
    moreMessage host c n a b
      = "You spent " ++ (toString n ++ "% more on " ++ c
          ++ " this month compared to last month (" ++ host.formatCurrency a
          ++ " vs " ++ host.formatCurrency b ++ ").") := by
  simp only [moreMessage, String.append_assoc]

theorem lessMessage_eq (host : Host) (c : String) (n : Nat) (a b : ℚ) :
    lessMessage host c n a b
      = "You spent " ++ (toString n ++ "% less on " ++ c
          ++ " this month compared to last month (" ++ host.formatCurrency a
          ++ " vs " ++ host.formatCurrency b ++ ").") := by
  simp only [lessMessage, String.append_assoc]

theorem spikedMessage_eq (host : Host) (c : String) (n : Nat) (a b : ℚ) :
    spikedMessage host c n a b
      = "Your " ++ (c ++ " spending spiked by " ++ toString n ++ "% in "
          ++ host.currentMonth ++ "! You spent " ++ host.formatCurrency a
          ++ " compared to " ++ host.formatCurrency b ++ " in "
          ++ host.previousMonth ++ ".") := by
  simp only [spikedMessage, String.append_assoc]

/-- The four templates of `category_change` are pairwise different texts. -/
theorem category_templates_distinct (host : Host) (c : String) (n : Nat) (a b : ℚ) :
    spikedMessage host c n a b ≠ moreMessage host c n a b
      ∧ spikedMessage host c n a b ≠ cutMessage host c n a b
      ∧ spikedMessage host c n a b ≠ lessMessage host c n a b
      ∧ moreMessage host c n a b ≠ cutMessage host c n a b
      ∧ moreMessage host c n a b ≠ lessMessage host c n a b
      ∧ cutMessage host c n a b ≠ lessMessage host c n a b := by
  refine ⟨?_, ?_, ?_, ?_, ?_, ?_⟩
  · rw [moreMessage_eq]
    exact spikedMessage_ne_you host c n a b _
  · rw [spikedMessage_eq]
    exact (cutMessage_ne_y host c n a b "Your " _ rfl).symm
  · rw [lessMessage_eq]
    exact spikedMessage_ne_you host c n a b _
  · rw [moreMessage_eq]
    exact (cutMessage_ne_y host c n a b "You spent " _ rfl).symm
  · exact (lessMessage_ne_moreMessage host c n a b).symm
  · rw [lessMessage_eq]
    exact cutMessage_ne_y host c n a b "You spent " _ rfl

theorem generateNLPMessage_category (host : Host) (c : String) (p a b tot : ℚ) :
    generateNLPMessage host "category_change" c p a b tot
      = if p > 50 then spikedMessage host c (mathRound p).natAbs a b
        else if p > 20 then moreMessage host c (mathRound p).natAbs a b
        else if p < -50 then cutMessage host c (mathRound p).natAbs a b
        else lessMessage host c (mathRound p).natAbs a b := by
  unfold generateNLPMessage
  simp only [if_true]

/-! ## `GET /time-data` and `GET /summary`: further results -/

theorem addToBucket_period (td : TimeData) (i : Nat) (t : Transaction) :
    (addToBucket td i t).summary.period = td.summary.period := by
  unfold addToBucket
  split_ifs <;> rfl

theorem foldl_monthlyStep_period (ts : List Transaction) (td : TimeData) :
    (ts.foldl monthlyStep td).summary.period = td.summary.period := by
  induction ts generalizing td with
  | nil => rfl
  | cons t tl ih =>
    rw [List.foldl_cons, ih]
    unfold monthlyStep
    simp only
    split_ifs
    · exact addToBucket_period _ _ _
    · rfl

/-- C11: for every period value other than the string weekly (absent, empty, monthly
or any other string), the time-series handler returns exactly what it returns for
monthly on the same store, user, zone and clock, and summary.period is Monthly. The
handler is a total function: no error is raised. -/
theorem other_period_is_monthly (period : Option String) (hp : period ≠ some "weekly")
    (store : List Transaction) (userId : String) (tz now : Int) :
    getTimeData store userId period tz now = getTimeData store userId (some "monthly") tz now
      ∧ (getTimeData store userId period tz now).summary.period = "Monthly" := by
  have hm : (some "monthly" : Option String) ≠ some "weekly" := by decide
  have e : getTimeData store userId period tz now
      = getTimeData store userId (some "monthly") tz now := by
    unfold getTimeData queryWindow buildTimeData timeDataInit
    rw [if_neg hp, if_neg hp, if_neg hp, if_neg hm, if_neg hm, if_neg hm]
  refine ⟨e, ?_⟩
  rw [e]
  unfold getTimeData buildTimeData
  rw [if_neg hm, foldl_monthlyStep_period]
  have hs := (foldl_pushBucket (List.range' 1 (daysInMonth now).toNat) (fun i => toString i)
    (timeDataInit (some "monthly"))).2.2.2
  unfold monthlyBuckets
  rw [hs]
  unfold timeDataInit
  rw [if_neg hm]

/-- C11, at concrete inputs: an absent, an empty and an unsupported period on the
sample ledger with the clock at 2024-03-15T12:00:00Z. -/
theorem other_period_is_monthly_witness :
    ((none : Option String) ≠ some "weekly"
        ∧ getTimeData sampleLedger "u" none 0 1710504000000
          = getTimeData sampleLedger "u" (some "monthly") 0 1710504000000
        ∧ (getTimeData sampleLedger "u" none 0 1710504000000).summary.period = "Monthly")
      ∧ (getTimeData sampleLedger "u" (some "") 0 1710504000000).summary.period = "Monthly"
      ∧ (getTimeData sampleLedger "u" (some "yearly") 0 1710504000000).summary.period
          = "Monthly" :=
  ⟨⟨by decide, other_period_is_monthly none (by decide) sampleLedger "u" 0 1710504000000⟩,
    (other_period_is_monthly (some "") (by decide) sampleLedger "u" 0 1710504000000).2,
    (other_period_is_monthly (some "yearly") (by decide) sampleLedger "u" 0 1710504000000).2⟩

/-- C12: on the empty transaction list the summary has totalIncome, totalExpense and
balance 0, monthlyStats income and expense 0, and empty expenseCategories and
recentTransactions; the same holds for the handler on a store without documents. -/
theorem summary_of_empty (userId : String) :
    buildSummary []
        = { totalIncome := 0
            totalExpense := 0
            balance := 0
            recentTransactions := []
            monthlyStats := { income := 0, expense := 0 }
            expenseCategories := [] }
      ∧ getSummary [] userId = buildSummary [] := by
  constructor
  · simp [buildSummary, summaryInit, JsMap.keys]
  · rfl

/-! ## Insights: results -/

/-- C13: `calculatePercentageChange(current, previous)` is 100 when previous is 0 and
current is positive, 0 when previous is 0 and current is not positive, and
`(current - previous) / previous * 100` when previous is not 0; it is 100 for
current 100 and previous 0. -/
theorem percentage_change_cases (current previous : ℚ) :
    (previous = 0 → current > 0 → calculatePercentageChange current previous = 100)
      ∧ (previous = 0 → current ≤ 0 → calculatePercentageChange current previous = 0)
      ∧ (previous ≠ 0 →
          calculatePercentageChange current previous
            = (current - previous) / previous * 100)
      ∧ calculatePercentageChange 100 0 = 100 := by
  refine ⟨?_, ?_, ?_, ?_⟩
  · intro h0 hc
    simp [calculatePercentageChange, h0, hc]
  · intro h0 hc
    have : ¬ current > 0 := not_lt.mpr hc
    simp [calculatePercentageChange, h0, this]
  · intro h0
    simp [calculatePercentageChange, h0]
  · simp [calculatePercentageChange]

/-- C14: when the current-month list is empty the result is exactly one insight, of
type info, whatever the previous month holds; its message is
"No transactions found in your account." exactly when the all-time list is empty too,
and "No transactions found for the current month (June 2025)." otherwise. -/
theorem empty_month_single_info (host : Host) (all prev : List Transaction) :
    buildInsights host all [] prev = [emptyMonthInsight all]
      ∧ (buildInsights host all [] prev).length = 1
      ∧ (emptyMonthInsight all).type = "info"
      ∧ (emptyMonthInsight all).category = none
      ∧ (emptyMonthInsight all).percentageChange = none
      ∧ ((emptyMonthInsight all).message = "No transactions found in your account."
          ↔ all = [])
      ∧ ((emptyMonthInsight all).message
            = "No transactions found for the current month (June 2025)."
          ↔ all ≠ []) := by
  have hb : buildInsights host all [] prev = [emptyMonthInsight all] := by
    simp [buildInsights]
  cases all with
  | nil =>
    refine ⟨hb, by rw [hb]; rfl, rfl, rfl, rfl, ?_, ?_⟩
    · simp [emptyMonthInsight]
    · simp [emptyMonthInsight]
  | cons t tl =>
    refine ⟨hb, by rw [hb]; rfl, ?_, ?_, ?_, ?_, ?_⟩
    · simp [emptyMonthInsight]
    · simp [emptyMonthInsight]
    · simp [emptyMonthInsight]
    · simp [emptyMonthInsight]
    · simp [emptyMonthInsight]

/-- C15: when the current-month list is not empty the result is not empty; it contains
an insight of type info exactly when neither a category insight nor an overall-trend
insight was produced (equivalently, when no element carries a category or has type
trend), and the result is then that single info insight. -/
theorem fallback_info_iff (host : Host) (all cur prev : List Transaction) (hne : cur ≠ []) :
    buildInsights host all cur prev ≠ []
      ∧ ((∃ i ∈ buildInsights host all cur prev, i.type = "info")
          ↔ categoryInsights host (spendingByCategory cur) (spendingByCategory prev) = []
            ∧ overallInsights host (spendingByCategory cur) (spendingByCategory prev) = [])
      ∧ ((∃ i ∈ buildInsights host all cur prev, i.type = "info")
          ↔ ∀ i ∈ buildInsights host all cur prev, i.category = none ∧ i.type ≠ "trend")
      ∧ ((∃ i ∈ buildInsights host all cur prev, i.type = "info") →
          buildInsights host all cur prev
            = [fallbackInsight host cur (spendingByCategory cur).total]) := by
  have hb := buildInsights_nonempty host all cur prev hne
  have hcat := categoryInsights_fields host (spendingByCategory cur) (spendingByCategory prev)
  have hov := overallInsights_fields host (spendingByCategory cur) (spendingByCategory prev)
  have hinc : ("increase" : String) ≠ "info" := by decide
  have hdec : ("decrease" : String) ≠ "info" := by decide
  have htr : ("trend" : String) ≠ "info" := by decide
  have hnoinfo : ∀ i ∈ categoryInsights host (spendingByCategory cur) (spendingByCategory prev)
      ++ overallInsights host (spendingByCategory cur) (spendingByCategory prev),
      i.type ≠ "info" := by
    intro i hi
    rcases List.mem_append.mp hi with h | h
    · rcases (hcat i h).2 with e | e <;> rw [e]
      · exact hinc
      · exact hdec
    · rw [(hov i h).2]
      exact htr
  by_cases he : categoryInsights host (spendingByCategory cur) (spendingByCategory prev)
      ++ overallInsights host (spendingByCategory cur) (spendingByCategory prev) = []
  · rw [if_pos he] at hb
    have he2 := List.append_eq_nil.mp he
    rw [hb]
    refine ⟨by simp, ?_, ?_, fun _ => rfl⟩
    · constructor
      · intro _
        exact he2
      · intro _
        exact ⟨_, List.mem_singleton.mpr rfl, rfl⟩
    · constructor
      · intro _ i hi
        rw [List.mem_singleton.mp hi]
        have hinfo : ("info" : String) ≠ "trend" := by decide
        exact ⟨rfl, hinfo⟩
      · intro _
        exact ⟨_, List.mem_singleton.mpr rfl, rfl⟩
  · rw [if_neg he] at hb
    rw [hb]
    have hno : ¬ ∃ i ∈ categoryInsights host (spendingByCategory cur) (spendingByCategory prev)
        ++ overallInsights host (spendingByCategory cur) (spendingByCategory prev),
        i.type = "info" := by
      rintro ⟨i, hi, ht⟩
      exact hnoinfo i hi ht
    refine ⟨he, ?_, ?_, fun h => absurd h hno⟩
    · constructor
      · intro h
        exact absurd h hno
      · intro h
        exact absurd (List.append_eq_nil.mpr h) he
    · constructor
      · intro h
        exact absurd h hno
      · intro h
        exfalso
        obtain ⟨i, hi⟩ := List.exists_mem_of_ne_nil _ he
        rcases List.mem_append.mp hi with h1 | h1
        · exact (hcat i h1).1 (h i hi).1
        · exact (h i hi).2 (hov i h1).2

/-- C15, at the sample months (one food expense of 120 against 100): the result holds
a category insight and a trend insight and no info insight. -/
theorem fallback_info_iff_witness :
    sampleCurrentMonth ≠ []
      ∧ (buildInsights sampleHost [] sampleCurrentMonth samplePreviousMonth).map
          (fun i => i.type) = ["increase", "trend"]
      ∧ buildInsights sampleHost [] sampleCurrentMonth samplePreviousMonth ≠ [] :=
  ⟨by decide, by decide!,
    (fallback_info_iff sampleHost [] sampleCurrentMonth samplePreviousMonth (by decide)).1⟩

theorem buildInsights_empty (host : Host) (all prev : List Transaction) :
    buildInsights host all [] prev = [emptyMonthInsight all] := by
  simp [buildInsights]

theorem emptyMonthInsight_info (all : List Transaction) :
    (emptyMonthInsight all).type = "info" ∧ (emptyMonthInsight all).category = none := by
  unfold emptyMonthInsight
  split_ifs <;> exact ⟨rfl, rfl⟩

theorem mem_buildInsights_cases (host : Host) (all cur prev : List Transaction) (i : Insight)
    (hi : i ∈ buildInsights host all cur prev) :
    i ∈ categoryInsights host (spendingByCategory cur) (spendingByCategory prev)
      ∨ i ∈ overallInsights host (spendingByCategory cur) (spendingByCategory prev)
      ∨ (i.type = "info" ∧ i.category = none) := by
  by_cases hne : cur = []
  · subst hne
    rw [buildInsights_empty, List.mem_singleton] at hi
    rw [hi]
    exact Or.inr (Or.inr (emptyMonthInsight_info all))
  · rw [buildInsights_nonempty host all cur prev hne] at hi
    split_ifs at hi with he
    · rw [List.mem_singleton.mp hi]
      exact Or.inr (Or.inr ⟨rfl, rfl⟩)
    · rcases List.mem_append.mp hi with h | h
      · exact Or.inl h
      · exact Or.inr (Or.inl h)

/-- C18 as stated fails: at the sample months the returned insights have the types
increase and trend, neither of which is category_change, overall_trend or info. -/
theorem insight_type_not_kind :
    (buildInsights sampleHost [] sampleCurrentMonth samplePreviousMonth).map (fun i => i.type)
        = ["increase", "trend"]
      ∧ ¬ (∀ i ∈ buildInsights sampleHost [] sampleCurrentMonth samplePreviousMonth,
            i.type = "category_change" ∨ i.type = "overall_trend" ∨ i.type = "info") := by
  decide!

/-- C18, amended: every insight returned has a type among increase, decrease, trend
and info; an insight that carries a category has type increase when the percentage
change of its category is positive and decrease otherwise; an insight without a
category has type trend or info. -/
theorem insight_types (host : Host) (all cur prev : List Transaction) :
    (∀ i ∈ buildInsights host all cur prev,
        i.type = "increase" ∨ i.type = "decrease" ∨ i.type = "trend" ∨ i.type = "info")
      ∧ (∀ i ∈ buildInsights host all cur prev, ∀ c, i.category = some c →
          i.type = if categoryChange cur prev c > 0 then "increase" else "decrease")
      ∧ (∀ i ∈ buildInsights host all cur prev, i.category = none →
          i.type = "trend" ∨ i.type = "info") := by
  refine ⟨?_, ?_, ?_⟩
  · intro i hi
    rcases mem_buildInsights_cases host all cur prev i hi with h | h | h
    · rcases (categoryInsights_fields host _ _ i h).2 with e | e
      · exact Or.inl e
      · exact Or.inr (Or.inl e)
    · exact Or.inr (Or.inr (Or.inl (overallInsights_fields host _ _ i h).2))
    · exact Or.inr (Or.inr (Or.inr h.1))
  · intro i hi c hc
    rcases mem_buildInsights_cases host all cur prev i hi with h | h | h
    · rw [mem_categoryInsights] at h
      obtain ⟨k, -, hk⟩ := h
      have hkc := (categoryInsight_category host _ _ k i hk).1
      rw [hc] at hkc
      have hkeq : c = k := Option.some.inj hkc
      subst hkeq
      rw [categoryInsight_eq] at hk
      have h1 : |categoryChange cur prev c| ≥ 1 := by
        by_contra hcon
        rw [if_neg hcon] at hk
        cases hk
      rw [if_pos h1] at hk
      rw [← Option.some.inj hk]
    · rw [(overallInsights_fields host _ _ i h).1] at hc
      cases hc
    · rw [h.2] at hc
      cases hc
  · intro i hi hc
    rcases mem_buildInsights_cases host all cur prev i hi with h | h | h
    · exact absurd hc (categoryInsights_fields host _ _ i h).1
    · exact Or.inl (overallInsights_fields host _ _ i h).2
    · exact Or.inr h.1

/-- C19: for every percentage change `p` the message of `category_change` is the
spiked template exactly when `p > 50`, the more template exactly when `20 < p ≤ 50`,
the cut template exactly when `p < -50` and the less template exactly when
`-50 ≤ p ≤ 20`; the four templates are different texts and the four ranges are
disjoint and cover every `p`, so exactly one template is selected. -/
theorem category_template_selection (host : Host) (c : String) (p a b tot : ℚ) :
    (generateNLPMessage host "category_change" c p a b tot
          = spikedMessage host c (mathRound p).natAbs a b ↔ p > 50)
      ∧ (generateNLPMessage host "category_change" c p a b tot
          = moreMessage host c (mathRound p).natAbs a b ↔ 20 < p ∧ p ≤ 50)
      ∧ (generateNLPMessage host "category_change" c p a b tot
          = cutMessage host c (mathRound p).natAbs a b ↔ p < -50)
      ∧ (generateNLPMessage host "category_change" c p a b tot
          = lessMessage host c (mathRound p).natAbs a b ↔ -50 ≤ p ∧ p ≤ 20) := by
  obtain ⟨d1, d2, d3, d4, d5, d6⟩ := category_templates_distinct host c (mathRound p).natAbs a b
  rw [generateNLPMessage_category]
  by_cases h50 : p > 50
  · rw [if_pos h50]
    refine ⟨⟨fun _ => h50, fun _ => rfl⟩, ⟨fun h => absurd h d1, fun h => ?_⟩,
      ⟨fun h => absurd h d2, fun h => ?_⟩, ⟨fun h => absurd h d3, fun h => ?_⟩⟩
    · exact absurd h50 (not_lt.mpr h.2)
    · exact absurd (lt_trans h (by norm_num)) (not_lt.mpr (le_of_lt h50))
    · exact absurd h50 (not_lt.mpr (le_trans h.2 (by norm_num)))
  · rw [if_neg h50]
    by_cases h20 : p > 20
    · rw [if_pos h20]
      refine ⟨⟨fun h => absurd h.symm d1, fun h => absurd h h50⟩,
        ⟨fun _ => ⟨h20, not_lt.mp h50⟩, fun _ => rfl⟩,
        ⟨fun h => absurd h d4, fun h => ?_⟩, ⟨fun h => absurd h d5, fun h => ?_⟩⟩
      · exact absurd (lt_trans h (by norm_num)) (not_lt.mpr (le_of_lt h20))
      · exact absurd h20 (not_lt.mpr h.2)
    · rw [if_neg h20]
      by_cases hm : p < -50
      · rw [if_pos hm]
        refine ⟨⟨fun h => absurd h.symm d2, fun h => absurd h h50⟩,
          ⟨fun h => absurd h.symm d4, fun h => absurd h.1 h20⟩,
          ⟨fun _ => hm, fun _ => rfl⟩, ⟨fun h => absurd h d6, fun h => ?_⟩⟩
        exact absurd hm (not_lt.mpr h.1)
      · rw [if_neg hm]
        exact ⟨⟨fun h => absurd h.symm d3, fun h => absurd h h50⟩,
          ⟨fun h => absurd h.symm d5, fun h => absurd h.1 h20⟩,
          ⟨fun h => absurd h.symm d6, fun h => absurd h hm⟩,
          ⟨fun _ => ⟨not_lt.mp hm, not_lt.mp h20⟩, fun _ => rfl⟩⟩

/-! ## Insights: further results -/

theorem generateNLPMessage_overall (host : Host) (c : String) (p a b tot : ℚ) :
    generateNLPMessage host "overall_trend" c p a b tot
      = if p > 30 then increasedMessage host (mathRound p).natAbs tot
        else if p > 0 then higherMessage host (mathRound p).natAbs tot
        else if p < -30 then reducedMessage host (mathRound p).natAbs tot p
        else lowerMessage host (mathRound p).natAbs tot := by
  have h : ¬ ("overall_trend" : String) = "category_change" := by decide
  unfold generateNLPMessage
  simp only [h, if_false, if_true]

theorem increasedMessage_ne_is (host : Host) (n : Nat) (tot : ℚ) (rest : String) :
    increasedMessage host n tot ≠ "Your overall spending is " ++ rest := by
  intro h
  have hd := congrArg String.data h
  simp only [increasedMessage, String.data_append, List.append_assoc, List.cons_append,
    List.cons.injEq] at hd
  simp at hd

theorem reducedMessage_ne_y (host : Host) (n : Nat) (tot p : ℚ) (s rest : String)
    (hs : s.data.head? = some 'Y') : reducedMessage host n tot p ≠ s ++ rest := by
  intro h
  have hd := congrArg (fun x => x.data.head?) h
  simp only [reducedMessage, String.data_append, List.append_assoc] at hd
  have e1 : ("Excellent! You reduced your overall spending by " : String).data.head?
      = some 'E' := rfl
  have e0 : ("Excellent! You reduced your overall spending by " : String).data ≠ [] := by
    decide
  rw [List.head?_append_of_ne_nil _ e0, e1] at hd
  have hs0 : s.data ≠ [] := by
    intro e
    rw [e] at hs
    simp at hs
  rw [List.head?_append_of_ne_nil _ hs0, hs] at hd
  exact absurd hd (by decide)

theorem higherMessage_ne_lowerMessage (host : Host) (n : Nat) (tot : ℚ) :
    higherMessage host n tot ≠ lowerMessage host n tot := by
  intro h
  have hd := congrArg String.data h
  simp only [higherMessage, lowerMessage, String.data_append, List.append_assoc,
    List.append_cancel_left_eq, List.cons_append, List.cons.injEq] at hd
  simp at hd

theorem higherMessage_eq (host : Host) (n : Nat) (tot : ℚ) :
    higherMessage host n tot
      = "Your overall spending is " ++ (toString n ++ "% higher this month at "
          ++ host.formatCurrency tot ++ ".") := by
  simp only [higherMessage, String.append_assoc]

theorem lowerMessage_eq (host : Host) (n : Nat) (tot : ℚ) :
    lowerMessage host n tot
      = "Your overall spending is " ++ (toString n ++ "% lower this month at "
          ++ host.formatCurrency tot ++ ".") := by
  simp only [lowerMessage, String.append_assoc]

theorem increasedMessage_eq (host : Host) (n : Nat) (tot : ℚ) :
    increasedMessage host n tot
      = "Your overall spending increased significantly by " ++ (toString n
          ++ "% this month. Total spending: " ++ host.formatCurrency tot ++ ".") := by
  simp only [increasedMessage, String.append_assoc]

/-- The four templates of `overall_trend` are pairwise different texts. -/
theorem overall_templates_distinct (host : Host) (n : Nat) (tot p : ℚ) :
    increasedMessage host n tot ≠ higherMessage host n tot
      ∧ increasedMessage host n tot ≠ reducedMessage host n tot p
      ∧ increasedMessage host n tot ≠ lowerMessage host n tot
      ∧ higherMessage host n tot ≠ reducedMessage host n tot p
      ∧ higherMessage host n tot ≠ lowerMessage host n tot
      ∧ reducedMessage host n tot p ≠ lowerMessage host n tot := by
  refine ⟨?_, ?_, ?_, ?_, ?_, ?_⟩
  · rw [higherMessage_eq]
    exact increasedMessage_ne_is host n tot _
  · rw [increasedMessage_eq]
    exact (reducedMessage_ne_y host n tot p
      "Your overall spending increased significantly by " _ rfl).symm
  · rw [lowerMessage_eq]
    exact increasedMessage_ne_is host n tot _
  · rw [higherMessage_eq]
    exact (reducedMessage_ne_y host n tot p "Your overall spending is " _ rfl).symm
  · exact higherMessage_ne_lowerMessage host n tot
  · rw [lowerMessage_eq]
    exact reducedMessage_ne_y host n tot p "Your overall spending is " _ rfl

/-- C22: for every percentage change `p` the message of `overall_trend` is the
increased-significantly template exactly when `p > 30`, the higher template exactly
when `0 < p ≤ 30`, the reduced-saving template exactly when `p < -30` and the lower
template exactly when `-30 ≤ p ≤ 0`; the four templates are different texts. -/
theorem overall_template_selection (host : Host) (c : String) (p a b tot : ℚ) :
    (generateNLPMessage host "overall_trend" c p a b tot
          = increasedMessage host (mathRound p).natAbs tot ↔ p > 30)
      ∧ (generateNLPMessage host "overall_trend" c p a b tot
          = higherMessage host (mathRound p).natAbs tot ↔ 0 < p ∧ p ≤ 30)
      ∧ (generateNLPMessage host "overall_trend" c p a b tot
          = reducedMessage host (mathRound p).natAbs tot p ↔ p < -30)
      ∧ (generateNLPMessage host "overall_trend" c p a b tot
          = lowerMessage host (mathRound p).natAbs tot ↔ -30 ≤ p ∧ p ≤ 0) := by
  obtain ⟨d1, d2, d3, d4, d5, d6⟩ :=
    overall_templates_distinct host (mathRound p).natAbs tot p
  rw [generateNLPMessage_overall]
  by_cases h30 : p > 30
  · rw [if_pos h30]
    refine ⟨⟨fun _ => h30, fun _ => rfl⟩, ⟨fun h => absurd h d1, fun h => ?_⟩,
      ⟨fun h => absurd h d2, fun h => ?_⟩, ⟨fun h => absurd h d3, fun h => ?_⟩⟩
    · exact absurd h30 (not_lt.mpr h.2)
    · exact absurd (lt_trans h (by norm_num)) (not_lt.mpr (le_of_lt h30))
    · exact absurd h30 (not_lt.mpr (le_trans h.2 (by norm_num)))
  · rw [if_neg h30]
    by_cases h0 : p > 0
    · rw [if_pos h0]
      refine ⟨⟨fun h => absurd h.symm d1, fun h => absurd h h30⟩,
        ⟨fun _ => ⟨h0, not_lt.mp h30⟩, fun _ => rfl⟩,
        ⟨fun h => absurd h d4, fun h => ?_⟩, ⟨fun h => absurd h d5, fun h => ?_⟩⟩
      · exact absurd (lt_trans h (by norm_num)) (not_lt.mpr (le_of_lt h0))
      · exact absurd h0 (not_lt.mpr h.2)
    · rw [if_neg h0]
      by_cases hm : p < -30
      · rw [if_pos hm]
        refine ⟨⟨fun h => absurd h.symm d2, fun h => absurd h h30⟩,
          ⟨fun h => absurd h.symm d4, fun h => absurd h.1 h0⟩,
          ⟨fun _ => hm, fun _ => rfl⟩, ⟨fun h => absurd h d6, fun h => ?_⟩⟩
        exact absurd hm (not_lt.mpr h.1)
      · rw [if_neg hm]
        exact ⟨⟨fun h => absurd h.symm d3, fun h => absurd h h30⟩,
          ⟨fun h => absurd h.symm d5, fun h => absurd h.1 h0⟩,
          ⟨fun h => absurd h.symm d6, fun h => absurd h hm⟩,
          ⟨fun _ => ⟨not_lt.mp hm, not_lt.mp h0⟩, fun _ => rfl⟩⟩

/-- C23: for totals `previous > 0` and `current > 0` whose percentage change `p` is
below -30, the divisor `1 + p / 100` is not 0 and the saved amount
`|current - current / (1 + p / 100)|` of the overall-trend message is
`previous - current`, so the text is the formatted `previous - current`; for current 50
and previous 100 the amount is 50. -/
theorem saved_amount_recovers_previous (host : Host) (current previous : ℚ)
    (hp : previous > 0) (hc : current > 0)
    (h30 : calculatePercentageChange current previous < -30) :
    calculatePercentageChange current previous = (current - previous) / previous * 100
      ∧ 1 + calculatePercentageChange current previous / 100 ≠ 0
      ∧ |current - current / (1 + calculatePercentageChange current previous / 100)|
          = previous - current
      ∧ savedText host current (calculatePercentageChange current previous)
          = host.formatCurrency (previous - current)
      ∧ |(50 : ℚ) - 50 / (1 + calculatePercentageChange 50 100 / 100)| = 50 := by
  have hp0 : previous ≠ 0 := ne_of_gt hp
  have hc0 : current ≠ 0 := ne_of_gt hc
  have hcp : calculatePercentageChange current previous
      = (current - previous) / previous * 100 := by
    simp [calculatePercentageChange, hp0]
  have hdiv : 1 + calculatePercentageChange current previous / 100 = current / previous := by
    rw [hcp]
    field_simp
    ring
  have hne : 1 + calculatePercentageChange current previous / 100 ≠ 0 := by
    rw [hdiv]
    exact div_ne_zero hc0 hp0
  have hlt : current < previous := by
    rw [hcp] at h30
    have h1 : (current - previous) / previous < 0 := by
      by_contra hcon
      have h2 : 0 ≤ (current - previous) / previous * 100 :=
        mul_nonneg (not_lt.mp hcon) (by norm_num)
      exact absurd (lt_of_le_of_lt h2 h30) (by norm_num)
    have h3 : current - previous < 0 := by
      by_contra hcon
      exact absurd h1 (not_lt.mpr (div_nonneg (not_lt.mp hcon) (le_of_lt hp)))
    exact sub_neg.mp h3
  have hval : |current - current / (1 + calculatePercentageChange current previous / 100)|
      = previous - current := by
    have hq : current / (current / previous) = previous := by
      field_simp
    rw [hdiv, hq, abs_sub_comm, abs_of_pos (sub_pos.mpr hlt)]
  refine ⟨hcp, hne, hval, ?_, ?_⟩
  · unfold savedText
    rw [if_neg hne, hval]
  · norm_num [calculatePercentageChange]

/-- C23, at current 50 and previous 100: the change is -50 and the text of the saved
amount is the formatted 50. -/
theorem saved_amount_recovers_previous_witness :
    ((100 : ℚ) > 0 ∧ (50 : ℚ) > 0 ∧ calculatePercentageChange 50 100 < -30)
      ∧ calculatePercentageChange 50 100 = -50
      ∧ savedText sampleHost 50 (calculatePercentageChange 50 100) = "$50.00"
      ∧ savedText sampleHost 50 (calculatePercentageChange 50 100)
          = sampleHost.formatCurrency (100 - 50) :=
  ⟨⟨by norm_num, by norm_num, by decide!⟩, by decide!, by decide!,
    (saved_amount_recovers_previous sampleHost 50 100 (by norm_num) (by norm_num)
      (by decide!)).2.2.2.1⟩

/-- C24: the saved-amount formula divides by `1 + p / 100` without a guard. With a
current month that holds one income and no expense and a previous month with one food
expense of 100, the overall change is -100, the divisor is 0, and the trend insight
reads "saving $NaN". -/
theorem saved_amount_divides_by_zero :
    overallChange sampleIncomeOnlyMonth samplePreviousMonth = -100
      ∧ 1 + overallChange sampleIncomeOnlyMonth samplePreviousMonth / 100 = 0
      ∧ (spendingByCategory sampleIncomeOnlyMonth).total = 0
      ∧ buildInsights sampleHost sampleIncomeOnlyMonth sampleIncomeOnlyMonth
          samplePreviousMonth
          = [{ type := "trend"
               message :=
                 "Excellent! You reduced your overall spending by 100% this month, saving $NaN!"
               details := "Total spending: $0.00 | Previous: $100.00"
               category := none
               percentageChange := some (-100) }] := by
  decide!

theorem mathRound_hundred : mathRound 100 = 100 := by
  unfold mathRound
  rw [Int.floor_eq_iff]
  norm_num

theorem typedExpensesOfCategory_ne_nil (ts : List Transaction) (c : String)
    (h : typedExpensesOfCategory ts c ≠ []) :
    ∃ t ∈ ts, t.type = "expense" ∧ t.category = c := by
  obtain ⟨t, ht⟩ := List.exists_mem_of_ne_nil _ h
  unfold typedExpensesOfCategory typedExpenses at ht
  rw [List.mem_filter, List.mem_filter] at ht
  exact ⟨t, ht.1.1, by simpa using ht.1.2, by simpa using ht.2⟩

/-- The insight pushed for a category of the current month whose change passes the
threshold is an element of the result. -/
theorem category_insight_present (host : Host) (all cur prev : List Transaction) (c : String)
    (hex : ∃ t ∈ cur, t.type = "expense" ∧ t.category = c)
    (habs : |categoryChange cur prev c| ≥ 1) :
    ({ type := if categoryChange cur prev c > 0 then "increase" else "decrease"
       message :=
         generateNLPMessage host "category_change" c (categoryChange cur prev c)
           (amountSum (typedExpensesOfCategory cur c))
           (amountSum (typedExpensesOfCategory prev c)) 0
       details :=
         "Current: " ++ host.formatCurrency (amountSum (typedExpensesOfCategory cur c))
           ++ " | Previous: "
           ++ host.formatCurrency (amountSum (typedExpensesOfCategory prev c))
       category := some c
       percentageChange := some (mathRound (categoryChange cur prev c)) } : Insight)
      ∈ buildInsights host all cur prev := by
  have hne : cur ≠ [] := by
    intro e
    obtain ⟨t, ht, -⟩ := hex
    rw [e] at ht
    simp at ht
  have hk : c ∈ (spendingByCategory cur).keys := (spending_mem_keys cur c).mpr hex
  have hci := categoryInsight_eq host cur prev c
  rw [if_pos habs] at hci
  have hmem := (mem_categoryInsights host (spendingByCategory cur) (spendingByCategory prev)
    _).mpr ⟨c, hk, hci⟩
  rw [buildInsights_nonempty host all cur prev hne]
  have hnn : categoryInsights host (spendingByCategory cur) (spendingByCategory prev)
      ++ overallInsights host (spendingByCategory cur) (spendingByCategory prev) ≠ [] := by
    intro e
    rw [(List.append_eq_nil.mp e).1] at hmem
    simp at hmem
  rw [if_neg hnn]
  exact List.mem_append_left _ hmem

/-- C21: a category with a positive expense total in the current month and a total of
0 in the previous month (no expense there) has percentage change 100 and carries an
insight of type increase with the spiked message and percentageChange 100. -/
theorem new_category_spikes (host : Host) (all cur prev : List Transaction) (c : String)
    (hcur : 0 < amountSum (typedExpensesOfCategory cur c))
    (hprev : amountSum (typedExpensesOfCategory prev c) = 0) :
    categoryChange cur prev c = 100
      ∧ ∃ i ∈ buildInsights host all cur prev,
          i.category = some c ∧ i.type = "increase" ∧ i.percentageChange = some 100
            ∧ i.message
                = spikedMessage host c 100 (amountSum (typedExpensesOfCategory cur c)) 0 := by
  have hchg : categoryChange cur prev c = 100 := by
    unfold categoryChange calculatePercentageChange
    rw [hprev, if_pos rfl, if_pos hcur]
  have hex : ∃ t ∈ cur, t.type = "expense" ∧ t.category = c := by
    apply typedExpensesOfCategory_ne_nil
    intro e
    rw [e] at hcur
    simp [amountSum] at hcur
  have habs : |categoryChange cur prev c| ≥ 1 := by
    rw [hchg]
    norm_num
  have hmem := category_insight_present host all cur prev c hex habs
  refine ⟨hchg, _, hmem, rfl, ?_, ?_, ?_⟩
  · simp only [hchg]
    norm_num
  · simp only [hchg, mathRound_hundred]
  · simp only [hchg, hprev, generateNLPMessage_category, mathRound_hundred]
    norm_num

/-- C21, at current = one food expense of 120 and an empty previous month. -/
theorem new_category_spikes_witness :
    (0 < amountSum (typedExpensesOfCategory sampleCurrentMonth "food")
        ∧ amountSum (typedExpensesOfCategory [] "food") = 0)
      ∧ (buildInsights sampleHost [] sampleCurrentMonth []).head?
          = some
              { type := "increase"
                message :=
                  "Your food spending spiked by 100% in June! You spent $120.00 compared to $0.00 in May."
                details := "Current: $120.00 | Previous: $0.00"
                category := some "food"
                percentageChange := some 100 }
      ∧ categoryChange sampleCurrentMonth [] "food" = 100 :=
  ⟨⟨by decide!, by decide!⟩, by decide!,
    (new_category_spikes sampleHost [] sampleCurrentMonth [] "food" (by decide!)
      (by decide!)).1⟩

theorem typedExpenses_expenseOf (ts : List Transaction) :
    typedExpenses (expenseOf ts) = typedExpenses ts := by
  unfold typedExpenses expenseOf
  rw [List.filter_filter]
  apply List.filter_congr
  intro t _
  by_cases h : t.type = "expense"
  · have : ¬ t.type = "income" := by
      rw [h]
      decide
    simp [h, this]
  · simp [h]

theorem spendingByCategory_typedExpenses (ts : List Transaction) (m : JsMap) :
    ts.foldl spendingStep m = (typedExpenses ts).foldl spendingStep m := by
  induction ts generalizing m with
  | nil => rfl
  | cons t tl ih =>
    by_cases h : t.type = "expense"
    · have e : typedExpenses (t :: tl) = t :: typedExpenses tl := by
        simp [typedExpenses, h]
      rw [e, List.foldl_cons, List.foldl_cons, ih]
    · have e : typedExpenses (t :: tl) = typedExpenses tl := by
        simp [typedExpenses, h]
      rw [e, List.foldl_cons, ih, spendingStep_eq, if_neg h]

theorem spendingByCategory_congr (ts ts2 : List Transaction)
    (h : expenseOf ts2 = expenseOf ts) : spendingByCategory ts2 = spendingByCategory ts := by
  have e : typedExpenses ts2 = typedExpenses ts := by
    rw [← typedExpenses_expenseOf ts2, ← typedExpenses_expenseOf ts, h]
  unfold spendingByCategory
  rw [spendingByCategory_typedExpenses ts2, spendingByCategory_typedExpenses ts, e]

theorem filter_not_info_fallback (host : Host) (cur : List Transaction) (total : ℚ) :
    [fallbackInsight host cur total].filter (fun i => !decide (i.type = "info")) = [] := by
  simp [fallbackInsight]

theorem filter_not_info_insights (host : Host) (cm pm : JsMap) :
    (categoryInsights host cm pm ++ overallInsights host cm pm).filter
        (fun i => !decide (i.type = "info"))
      = categoryInsights host cm pm ++ overallInsights host cm pm := by
  rw [List.filter_eq_self]
  intro i hi
  rcases List.mem_append.mp hi with h | h
  · rcases (categoryInsights_fields host cm pm i h).2 with e | e <;> rw [e]
    · simp
    · simp
  · rw [(overallInsights_fields host cm pm i h).2]
    simp

theorem buildInsights_not_info (host : Host) (all cur prev : List Transaction)
    (hne : cur ≠ []) :
    (buildInsights host all cur prev).filter (fun i => !decide (i.type = "info"))
      = categoryInsights host (spendingByCategory cur) (spendingByCategory prev)
          ++ overallInsights host (spendingByCategory cur) (spendingByCategory prev) := by
  rw [buildInsights_nonempty host all cur prev hne]
  split_ifs with he
  · rw [filter_not_info_fallback, he]
  · exact filter_not_info_insights host _ _

/-- C25: income transactions never enter the comparison. The per-category totals of a
month are the sums of the amounts of its expense transactions, and when two current
months, both non-empty, and two previous months differ only in income transactions,
the category insights and the overall-trend insight are the same: the results agree
on every insight that is not of type info. -/
theorem income_never_compared (host : Host) (all all2 cur cur2 prev prev2 : List Transaction)
    (hne : cur ≠ []) (hne2 : cur2 ≠ []) (hc : expenseOf cur2 = expenseOf cur)
    (hp : expenseOf prev2 = expenseOf prev) :
    (∀ c, ((spendingByCategory cur).get c).getD 0 = amountSum (typedExpensesOfCategory cur c))
      ∧ (∀ c, ((spendingByCategory prev).get c).getD 0
          = amountSum (typedExpensesOfCategory prev c))
      ∧ categoryInsights host (spendingByCategory cur2) (spendingByCategory prev2)
          = categoryInsights host (spendingByCategory cur) (spendingByCategory prev)
      ∧ overallInsights host (spendingByCategory cur2) (spendingByCategory prev2)
          = overallInsights host (spendingByCategory cur) (spendingByCategory prev)
      ∧ (buildInsights host all2 cur2 prev2).filter (fun i => !decide (i.type = "info"))
          = (buildInsights host all cur prev).filter (fun i => !decide (i.type = "info")) := by
  have e1 := spendingByCategory_congr cur cur2 hc
  have e2 := spendingByCategory_congr prev prev2 hp
  refine ⟨spending_get cur, spending_get prev, by rw [e1, e2], by rw [e1, e2], ?_⟩
  rw [buildInsights_not_info host all2 cur2 prev2 hne2,
    buildInsights_not_info host all cur prev hne, e1, e2]

/-- C25, at the sample months with an income put before the expense of the current
month and another after the expense of the previous month. -/
theorem income_never_compared_witness :
    (sampleCurrentMonth ≠ [] ∧ sampleCurrentMonthWithIncome ≠ []
        ∧ expenseOf sampleCurrentMonthWithIncome = expenseOf sampleCurrentMonth
        ∧ expenseOf samplePreviousMonthWithIncome = expenseOf samplePreviousMonth)
      ∧ (buildInsights sampleHost [] sampleCurrentMonthWithIncome
            samplePreviousMonthWithIncome).filter (fun i => !decide (i.type = "info"))
          = (buildInsights sampleHost [] sampleCurrentMonth samplePreviousMonth).filter
              (fun i => !decide (i.type = "info")) :=
  ⟨⟨by decide, by decide, by decide, by decide⟩,
    (income_never_compared sampleHost [] [] sampleCurrentMonth sampleCurrentMonthWithIncome
      samplePreviousMonth samplePreviousMonthWithIncome
      (by decide) (by decide) (by decide) (by decide)).2.2.2.2⟩

/-- C27: the fetches of `generateInsights` filter on the undeclared path `userId`, not
on the owner path `user`. With the clock at 2024-03-15T12:00:00Z and the option
`strictQuery` off, user u, who owns an expense dated 2024-03-10, gets the single
insight "No transactions found in your account."; with the option on, two stores that
hold the same transactions of u give different insights, because the expense of
another user is read too. -/
theorem insights_ignore_owner :
    Transaction.find sampleStoreU "u"
        (some ((insightWindows 0 1710504000000).currentMonthStart,
          (insightWindows 0 1710504000000).currentMonthEnd)) = sampleStoreU
      ∧ (generateInsights sampleHost false sampleStoreU "u" 0 1710504000000).map
          (fun i => i.message) = ["No transactions found in your account."]
      ∧ Transaction.find sampleStoreUV "u" none = Transaction.find sampleStoreU "u" none
      ∧ (generateInsights sampleHost true sampleStoreU "u" 0 1710504000000).map
          (fun i => i.category) = [some "food", none]
      ∧ (generateInsights sampleHost true sampleStoreUV "u" 0 1710504000000).map
          (fun i => i.category) = [some "food", some "transport", none]
      ∧ generateInsights sampleHost true sampleStoreUV "u" 0 1710504000000
          ≠ generateInsights sampleHost true sampleStoreU "u" 0 1710504000000 := by
  decide!

/-- C29: a fetched transaction can belong to the next month of the reporting zone.
With the clock at 2024-03-15T12:00:00Z (March in the reporting zone), an expense of
30 dated 2024-03-31T20:00:00Z lies in the query window, yet its date in UTC+5:30 is
1 April 01:30; it is added to bucket 0, labelled 1, of the March series. -/
theorem monthly_counts_next_month_day :
    currentMonthIST 1710504000000 = 2
      ∧ Transaction.find [⟨"u", "tea", 30, "food", "expense", 1711915200000⟩] "u"
          (some (queryWindow (some "monthly") 0 1710504000000))
          = [⟨"u", "tea", 30, "food", "expense", 1711915200000⟩]
      ∧ monthFromDay (day (1711915200000 + istOffset)) = 3
      ∧ dateFromDay (day (1711915200000 + istOffset)) = 1
      ∧ (getTimeData [⟨"u", "tea", 30, "food", "expense", 1711915200000⟩] "u"
          (some "monthly") 0 1710504000000).expenses.getD 0 0 = 30
      ∧ (getTimeData [⟨"u", "tea", 30, "food", "expense", 1711915200000⟩] "u"
          (some "monthly") 0 1710504000000).labels.getD 0 "" = "1"
      ∧ (getTimeData [⟨"u", "tea", 30, "food", "expense", 1711915200000⟩] "u"
          (some "monthly") 0 1710504000000).summary.totalExpense = 30 := by
  decide!

theorem foldl_monthlyStats (ts : List Transaction) (st : SummaryState)
    (hi : st.summary.monthlyStats.income = st.summary.totalIncome)
    (he : st.summary.monthlyStats.expense = st.summary.totalExpense) :
    (ts.foldl summaryStep st).summary.monthlyStats.income
        = (ts.foldl summaryStep st).summary.totalIncome
      ∧ (ts.foldl summaryStep st).summary.monthlyStats.expense
        = (ts.foldl summaryStep st).summary.totalExpense := by
  induction ts generalizing st with
  | nil => exact ⟨hi, he⟩
  | cons t tl ih =>
    rw [List.foldl_cons]
    apply ih
    · unfold summaryStep
      split_ifs
      · simp [hi]
      · simp [hi]
    · unfold summaryStep
      split_ifs
      · simp [he]
      · simp [he]

/-- C30: for every transaction list, monthlyStats.income equals totalIncome and
monthlyStats.expense equals totalExpense, whatever the dates; the summary returned by
the handler does not depend on the clock or on the zone, that is on the bounds
startOfMonth and endOfMonth that the handler computes. -/
theorem monthly_stats_are_totals (ts store : List Transaction) (userId : String)
    (tz now tz2 now2 : Int) :
    (buildSummary ts).monthlyStats.income = (buildSummary ts).totalIncome
      ∧ (buildSummary ts).monthlyStats.expense = (buildSummary ts).totalExpense
      ∧ (buildSummary ts).monthlyStats.income = amountSum (incomeOf ts)
      ∧ (buildSummary ts).monthlyStats.expense = amountSum (expenseOf ts)
      ∧ (summaryWithClock tz now store userId).2 = getSummary store userId
      ∧ (summaryWithClock tz now store userId).2 = (summaryWithClock tz2 now2 store userId).2 := by
  have h := foldl_monthlyStats ts (summaryInit ts) rfl rfl
  have h1 : (buildSummary ts).monthlyStats.income = (buildSummary ts).totalIncome := h.1
  have h2 : (buildSummary ts).monthlyStats.expense = (buildSummary ts).totalExpense := h.2
  exact ⟨h1, h2, by rw [h1, buildSummary_totalIncome], by rw [h2, buildSummary_totalExpense],
    rfl, rfl⟩

/-! ## Further lemmas on the calendar functions -/

theorem calendarDaysInMonth_cast (y m : Int) :
    (calendarDaysInMonth y m : Int)
      = if m = 1 then 28 + leapDays y
        else if m = 3 ∨ m = 5 ∨ m = 8 ∨ m = 10 then 30 else 31 := by
  unfold calendarDaysInMonth leapDays
  cases inLeapYear y <;> simp

theorem month_cases (m : Int) (h0 : 0 ≤ m) (h1 : m ≤ 11) :
    m = 0 ∨ m = 1 ∨ m = 2 ∨ m = 3 ∨ m = 4 ∨ m = 5 ∨ m = 6 ∨ m = 7 ∨ m = 8 ∨ m = 9 ∨ m = 10
      ∨ m = 11 := by
  omega

/-- Day `k + 1` of month `m` of year `y`, for a day that the month has, reads back as
that year, month and date. -/
theorem civil_of_offset (y m k : Int) (h0 : 0 ≤ m) (h1 : m ≤ 11) (hk0 : 0 ≤ k)
    (hk1 : k < calendarDaysInMonth y m) :
    yearFromDay (dayFromYear y + monthStart m (leapDays y) + k) = y
      ∧ monthFromDay (dayFromYear y + monthStart m (leapDays y) + k) = m
      ∧ dateFromDay (dayFromYear y + monthStart m (leapDays y) + k) = k + 1 := by
  have hr := leapDays_range y
  rw [calendarDaysInMonth_cast] at hk1
  have hw : 0 ≤ monthStart m (leapDays y) + k ∧ monthStart m (leapDays y) + k < 365 + leapDays y := by
    rcases month_cases m h0 h1 with h | h | h | h | h | h | h | h | h | h | h | h <;>
    · subst h
      unfold monthStart
      omega
  have hy : yearFromDay (dayFromYear y + monthStart m (leapDays y) + k) = y := by
    rw [add_assoc]
    exact yearFromDay_offset y _ hw.1 hw.2
  have hm : monthFromDay (dayFromYear y + monthStart m (leapDays y) + k) = m := by
    rw [monthFromDay_eq, hy]
    have e : dayFromYear y + monthStart m (leapDays y) + k - dayFromYear y
        = monthStart m (leapDays y) + k := by ring
    rw [e]
    rcases month_cases m h0 h1 with h | h | h | h | h | h | h | h | h | h | h | h <;>
    · subst h
      unfold monthStart
      omega
  refine ⟨hy, hm, ?_⟩
  have hd : dateFromDay (dayFromYear y + monthStart m (leapDays y) + k)
      = dayFromYear y + monthStart m (leapDays y) + k
        - dayFromYear (yearFromDay (dayFromYear y + monthStart m (leapDays y) + k))
        - monthStart (monthFromDay (dayFromYear y + monthStart m (leapDays y) + k))
            (leapDays (yearFromDay (dayFromYear y + monthStart m (leapDays y) + k))) + 1 := rfl
  rw [hd, hy, hm]
  ring

/-- The date of a day lies between 1 and the number of days of its month. -/
theorem dateFromDay_range (d : Int) :
    1 ≤ dateFromDay d ∧ dateFromDay d ≤ calendarDaysInMonth (yearFromDay d) (monthFromDay d) := by
  have hr := leapDays_range (yearFromDay d)
  have hw := dayWithinYear_range d
  have hm := monthFromDay_eq d
  have hrange := monthFromDay_range d
  have hd : dateFromDay d
      = d - dayFromYear (yearFromDay d) - monthStart (monthFromDay d) (leapDays (yearFromDay d))
        + 1 := rfl
  rw [hd, calendarDaysInMonth_cast]
  generalize monthFromDay d = m at hm hrange ⊢
  generalize d - dayFromYear (yearFromDay d) = w at hm hw ⊢
  generalize leapDays (yearFromDay d) = l at hm hw hr ⊢
  rcases month_cases m hrange.1 hrange.2 with h | h | h | h | h | h | h | h | h | h | h | h <;>
  · subst h
    unfold monthStart
    omega

theorem makeDay_first (y m : Int) :
    makeDay y m 1
      = dayFromYear (y + m / 12) + monthStart (m % 12) (leapDays (y + m / 12)) := by
  unfold makeDay
  ring

theorem makeDay_first_in_year (y m : Int) (h0 : 0 ≤ m) (h1 : m ≤ 11) :
    makeDay y m 1 = dayFromYear y + monthStart m (leapDays y) := by
  have e1 : m / 12 = 0 := by omega
  have e2 : m % 12 = m := by omega
  rw [makeDay_first, e1, e2, add_zero]

/-- The first of a month, for any month number, reads back as the first of the month
reached by carrying the month number into the year. -/
theorem civil_of_makeDay_first (y m : Int) :
    yearFromDay (makeDay y m 1) = y + m / 12
      ∧ monthFromDay (makeDay y m 1) = m % 12
      ∧ dateFromDay (makeDay y m 1) = 1 := by
  have h0 : 0 ≤ m % 12 := by omega
  have h1 : m % 12 ≤ 11 := by omega
  have hdim := (calendarDaysInMonth_range (y + m / 12) (m % 12)).1
  have h := civil_of_offset (y + m / 12) (m % 12) 0 h0 h1 (le_refl 0) (by omega)
  rw [add_zero] at h
  rw [makeDay_first]
  exact ⟨h.1, h.2.1, by rw [h.2.2]; rfl⟩

/-- The first of the next month comes as many days after the first of the month as
the month has days. -/
theorem makeDay_next_first (y m : Int) (h0 : 0 ≤ m) (h1 : m ≤ 11) :
    makeDay y (m + 1) 1 = makeDay y m 1 + calendarDaysInMonth y m := by
  have hr := leapDays_range y
  rw [makeDay_first_in_year y m h0 h1, calendarDaysInMonth_cast]
  by_cases hm : m = 11
  · subst hm
    have e1 : ((11 : Int) + 1) / 12 = 1 := by decide
    have e2 : ((11 : Int) + 1) % 12 = 0 := by decide
    rw [makeDay_first, e1, e2, dayFromYear_succ]
    unfold monthStart
    omega
  · rw [makeDay_first_in_year y (m + 1) (by omega) (by omega)]
    rcases month_cases m h0 h1 with h | h | h | h | h | h | h | h | h | h | h | h <;>
    · subst h
      unfold monthStart
      omega

theorem makeDay_eq_first_add (y m dt : Int) : makeDay y m dt = makeDay y m 1 + (dt - 1) := by
  unfold makeDay
  ring

theorem makeFullYear_of_ge (y : Int) (h : 1970 ≤ y) : makeFullYear y = y := by
  unfold makeFullYear
  rw [if_neg (by omega)]

theorem day_local_nonneg (tz t : Int) (h : 0 ≤ t + tz) : 0 ≤ day (t + tz) := by
  unfold day msPerDay
  omega

/-- The instant `localDate tz y m 1`, read in the zone, is the first of the month at
00:00. -/
theorem localDate_first_reads (tz y m : Int) (hy : 1970 ≤ y) :
    getFullYear tz (localDate tz y m 1) = y + m / 12
      ∧ getMonth tz (localDate tz y m 1) = m % 12
      ∧ getDate tz (localDate tz y m 1) = 1
      ∧ timeWithinDay (localDate tz y m 1 + tz) = 0 := by
  have e : localDate tz y m 1 + tz = makeDay y m 1 * msPerDay := by
    unfold localDate
    rw [makeFullYear_of_ge y hy]
    ring
  have hc := civil_of_makeDay_first y m
  unfold getFullYear getMonth getDate
  rw [e, day_mul_msPerDay]
  refine ⟨hc.1, hc.2.1, hc.2.2, ?_⟩
  unfold timeWithinDay msPerDay
  omega

/-! ## The windows of `generateInsights` -/

/-- C26: for a clock whose local reading is at or after the epoch, the current window
of `generateInsights` contains the clock and runs from the 1st of the local month of
the clock at 00:00 to the 1st of the next month at 00:00 (January of the next year
after December); the previous window starts on the 1st of the month before at 00:00
(December of the previous year before January) and ends where the current one starts;
the previous window is not empty and the two windows are disjoint. -/
theorem insight_windows_are_months (tz now : Int) (h : 0 ≤ now + tz) :
    ((insightWindows tz now).currentMonthStart ≤ now
        ∧ now < (insightWindows tz now).currentMonthEnd)
      ∧ (getFullYear tz (insightWindows tz now).currentMonthStart = getFullYear tz now
        ∧ getMonth tz (insightWindows tz now).currentMonthStart = getMonth tz now
        ∧ getDate tz (insightWindows tz now).currentMonthStart = 1
        ∧ timeWithinDay ((insightWindows tz now).currentMonthStart + tz) = 0)
      ∧ (getFullYear tz (insightWindows tz now).currentMonthEnd
          = (if getMonth tz now = 11 then getFullYear tz now + 1 else getFullYear tz now)
        ∧ getMonth tz (insightWindows tz now).currentMonthEnd
          = (if getMonth tz now = 11 then 0 else getMonth tz now + 1)
        ∧ getDate tz (insightWindows tz now).currentMonthEnd = 1
        ∧ timeWithinDay ((insightWindows tz now).currentMonthEnd + tz) = 0)
      ∧ (getFullYear tz (insightWindows tz now).previousMonthStart
          = (if getMonth tz now = 0 then getFullYear tz now - 1 else getFullYear tz now)
        ∧ getMonth tz (insightWindows tz now).previousMonthStart
          = (if getMonth tz now = 0 then 11 else getMonth tz now - 1)
        ∧ getDate tz (insightWindows tz now).previousMonthStart = 1
        ∧ timeWithinDay ((insightWindows tz now).previousMonthStart + tz) = 0)
      ∧ (insightWindows tz now).previousMonthEnd = (insightWindows tz now).currentMonthStart
      ∧ (insightWindows tz now).previousMonthStart < (insightWindows tz now).previousMonthEnd
      ∧ (∀ t : Int,
          ¬ (((insightWindows tz now).previousMonthStart ≤ t
                ∧ t < (insightWindows tz now).previousMonthEnd)
              ∧ ((insightWindows tz now).currentMonthStart ≤ t
                ∧ t < (insightWindows tz now).currentMonthEnd))) := by
  have hy : 1970 ≤ getFullYear tz now := yearFromDay_nonneg _ (day_local_nonneg tz now h)
  have hm := monthFromDay_range (day (now + tz))
  have hm0 : 0 ≤ getMonth tz now := hm.1
  have hm1 : getMonth tz now ≤ 11 := hm.2
  have hdate : 1 ≤ dateFromDay (day (now + tz))
      ∧ dateFromDay (day (now + tz))
          ≤ calendarDaysInMonth (getFullYear tz now) (getMonth tz now) :=
    dateFromDay_range (day (now + tz))
  have hcs : (insightWindows tz now).currentMonthStart
      = localDate tz (getFullYear tz now) (getMonth tz now) 1 := rfl
  have hce : (insightWindows tz now).currentMonthEnd
      = localDate tz (getFullYear tz now) (getMonth tz now + 1) 1 := rfl
  have hps : (insightWindows tz now).previousMonthStart
      = localDate tz (getFullYear tz now) (getMonth tz now - 1) 1 := rfl
  have hpe : (insightWindows tz now).previousMonthEnd
      = localDate tz (getFullYear tz now) (getMonth tz now) 1 := rfl
  have hS : makeDay (getFullYear tz now) (getMonth tz now) 1
      = day (now + tz) + (1 - dateFromDay (day (now + tz))) := makeDay_civil _ _
  have hE := makeDay_next_first (getFullYear tz now) (getMonth tz now) hm0 hm1
  have hP : makeDay (getFullYear tz now) (getMonth tz now - 1) 1
      < makeDay (getFullYear tz now) (getMonth tz now) 1 := by
    have hdim := calendarDaysInMonth_range (getFullYear tz now + (getMonth tz now - 1) / 12)
      ((getMonth tz now - 1) % 12)
    have hnext := makeDay_next_first (getFullYear tz now + (getMonth tz now - 1) / 12)
      ((getMonth tz now - 1) % 12) (by omega) (by omega)
    have e1 : makeDay (getFullYear tz now + (getMonth tz now - 1) / 12)
        ((getMonth tz now - 1) % 12) 1
        = makeDay (getFullYear tz now) (getMonth tz now - 1) 1 := by
      rw [makeDay_first, makeDay_first]
      have a1 : (getMonth tz now - 1) % 12 / 12 = 0 := by omega
      have a2 : (getMonth tz now - 1) % 12 % 12 = (getMonth tz now - 1) % 12 := by omega
      rw [a1, a2, add_zero]
    have e2 : makeDay (getFullYear tz now + (getMonth tz now - 1) / 12)
        ((getMonth tz now - 1) % 12 + 1) 1
        = makeDay (getFullYear tz now) (getMonth tz now) 1 := by
      rw [makeDay_first, makeDay_first]
      have a1 : getFullYear tz now + (getMonth tz now - 1) / 12
          + ((getMonth tz now - 1) % 12 + 1) / 12
          = getFullYear tz now + getMonth tz now / 12 := by omega
      have a2 : ((getMonth tz now - 1) % 12 + 1) % 12 = getMonth tz now % 12 := by omega
      rw [a1, a2]
    rw [e1, e2] at hnext
    omega
  have hfy := makeFullYear_of_ge _ hy
  have hlt : (insightWindows tz now).previousMonthStart
      < (insightWindows tz now).previousMonthEnd := by
    rw [hps, hpe]
    unfold localDate
    rw [hfy]
    unfold msPerDay
    omega
  have hdaydef : day (now + tz) = (now + tz) / 86400000 := rfl
  refine ⟨⟨?_, ?_⟩, ?_, ?_, ?_, by rw [hpe, hcs], hlt, ?_⟩
  · rw [hcs]
    unfold localDate
    rw [hfy, hS]
    unfold msPerDay
    omega
  · rw [hce]
    unfold localDate
    rw [hfy, hE, hS]
    unfold msPerDay
    omega
  · rw [hcs]
    have hr := localDate_first_reads tz (getFullYear tz now) (getMonth tz now) hy
    have a1 : getMonth tz now / 12 = 0 := by omega
    have a2 : getMonth tz now % 12 = getMonth tz now := by omega
    rw [a1, a2, add_zero] at hr
    exact hr
  · rw [hce]
    have hr := localDate_first_reads tz (getFullYear tz now) (getMonth tz now + 1) hy
    refine ⟨by rw [hr.1]; omega, by rw [hr.2.1]; omega, hr.2.2.1, hr.2.2.2⟩
  · rw [hps]
    have hr := localDate_first_reads tz (getFullYear tz now) (getMonth tz now - 1) hy
    refine ⟨by rw [hr.1]; omega, by rw [hr.2.1]; omega, hr.2.2.1, hr.2.2.2⟩
  · intro t ht
    rw [hpe, hcs] at ht
    omega

/-- C26, at the clock 2024-01-15T12:00:00Z in UTC: the current window is January 2024
and the previous one December 2023. -/
theorem insight_windows_are_months_witness :
    (0 : Int) ≤ 1705320000000 + 0
      ∧ insightWindows 0 1705320000000
          = { currentMonthStart := 1704067200000
              currentMonthEnd := 1706745600000
              previousMonthStart := 1701388800000
              previousMonthEnd := 1704067200000 }
      ∧ getFullYear 0 (insightWindows 0 1705320000000).previousMonthStart = 2023
      ∧ getMonth 0 (insightWindows 0 1705320000000).previousMonthStart = 11
      ∧ ((insightWindows 0 1705320000000).currentMonthStart ≤ 1705320000000
        ∧ 1705320000000 < (insightWindows 0 1705320000000).currentMonthEnd) :=
  ⟨by decide, by decide, by decide, by decide,
    (insight_windows_are_months 0 1705320000000 (by decide)).1⟩

/-! ## `GET /time-data`: the monthly window and the buckets -/

theorem monthly_window_days (period : Option String) (hp : period ≠ some "weekly")
    (tz now : Int) (hnow : 0 ≤ now) :
    queryWindow period tz now
      = (makeDay (currentYearIST now) (currentMonthIST now) 1 * msPerDay,
          makeDay (currentYearIST now) (currentMonthIST now + 1) 1 * msPerDay) := by
  have hy : 1970 ≤ currentYearIST now := yearFromDay_nonneg _ (day_nonneg now hnow)
  unfold queryWindow dateUTC
  rw [if_neg hp, makeFullYear_of_ge _ hy]

/-- The index of a transaction dated inside the monthly window is one of the buckets
of the month. -/
theorem monthlyDayIndex_in_range (now : Int) (t : Transaction)
    (h1 : makeDay (currentYearIST now) (currentMonthIST now) 1 * msPerDay ≤ t.date)
    (h2 : t.date < makeDay (currentYearIST now) (currentMonthIST now + 1) 1 * msPerDay) :
    0 ≤ monthlyDayIndex t
      ∧ monthlyDayIndex t < calendarDaysInMonth (currentYearIST now) (currentMonthIST now) := by
  have hm := monthFromDay_range (day (now + istOffset))
  have hm0 : 0 ≤ currentMonthIST now := hm.1
  have hm1 : currentMonthIST now ≤ 11 := hm.2
  have hE := makeDay_next_first (currentYearIST now) (currentMonthIST now) hm0 hm1
  have hS := makeDay_first_in_year (currentYearIST now) (currentMonthIST now) hm0 hm1
  have hdim := calendarDaysInMonth_range (currentYearIST now) (currentMonthIST now)
  have hday : day (t.date + istOffset) = (t.date + 19800000) / 86400000 := rfl
  have hlo : makeDay (currentYearIST now) (currentMonthIST now) 1 ≤ day (t.date + istOffset) := by
    unfold msPerDay at h1
    omega
  have hhi : day (t.date + istOffset)
      ≤ makeDay (currentYearIST now) (currentMonthIST now + 1) 1 := by
    unfold msPerDay at h2
    omega
  have hidx : monthlyDayIndex t = dateFromDay (day (t.date + istOffset)) - 1 := rfl
  rw [hidx]
  by_cases hlast : day (t.date + istOffset)
      = makeDay (currentYearIST now) (currentMonthIST now + 1) 1
  · rw [hlast, (civil_of_makeDay_first _ _).2.2]
    omega
  · have hk := civil_of_offset (currentYearIST now) (currentMonthIST now)
      (day (t.date + istOffset) - makeDay (currentYearIST now) (currentMonthIST now) 1)
      hm0 hm1 (by omega) (by omega)
    have e : dayFromYear (currentYearIST now)
        + monthStart (currentMonthIST now) (leapDays (currentYearIST now))
        + (day (t.date + istOffset) - makeDay (currentYearIST now) (currentMonthIST now) 1)
        = day (t.date + istOffset) := by
      rw [hS]
      ring
    rw [e] at hk
    rw [hk.2.2]
    omega

theorem addToBucket_total (td : TimeData) (i : Nat) (t : Transaction) :
    (addToBucket td i t).summary.totalIncome + (addToBucket td i t).summary.totalExpense
      = td.summary.totalIncome + td.summary.totalExpense + t.amount := by
  unfold addToBucket
  split_ifs
  · simp only
    ring
  · simp only
    ring

theorem foldl_monthlyStep_total (ts : List Transaction) (td : TimeData)
    (h : ∀ t ∈ ts, 0 ≤ monthlyDayIndex t ∧ monthlyDayIndex t < td.labels.length) :
    (ts.foldl monthlyStep td).summary.totalIncome
        + (ts.foldl monthlyStep td).summary.totalExpense
      = td.summary.totalIncome + td.summary.totalExpense + amountSum ts := by
  induction ts generalizing td with
  | nil => simp [amountSum]
  | cons t tl ih =>
    have ht := h t (List.mem_cons_self t tl)
    have hstep : monthlyStep td t = addToBucket td (monthlyDayIndex t).toNat t := by
      unfold monthlyStep
      simp only
      rw [if_pos ht]
    rw [List.foldl_cons, ih]
    · rw [hstep, addToBucket_total]
      simp only [amountSum, List.map_cons, List.sum_cons]
      ring
    · intro x hx
      rw [monthlyStep_labels]
      exact h x (List.mem_cons_of_mem t hx)

theorem monthlyBuckets_totals (now : Int) (period : Option String) :
    (monthlyBuckets now (timeDataInit period)).summary.totalIncome = 0
      ∧ (monthlyBuckets now (timeDataInit period)).summary.totalExpense = 0 := by
  have hs := (foldl_pushBucket (List.range' 1 (daysInMonth now).toNat) (fun i => toString i)
    (timeDataInit period)).2.2.2
  unfold monthlyBuckets
  rw [hs]
  exact ⟨rfl, rfl⟩

theorem monthly_labels_length (period : Option String) (hp : period ≠ some "weekly")
    (tz now : Int) (hnow : 0 ≤ now) (ts : List Transaction) :
    (buildTimeData period tz now ts).labels.length
      = calendarDaysInMonth (currentYearIST now) (currentMonthIST now) := by
  have hn : (daysInMonth now).toNat
      = calendarDaysInMonth (currentYearIST now) (currentMonthIST now) := by
    rw [daysInMonth_eq now hnow]
    exact Int.toNat_ofNat _
  rw [buildTimeData_monthly_labels period hp tz now ts, List.length_map, List.length_range', hn]

/-- C28: in monthly mode, for a clock at or after the epoch, every fetched transaction
(its date lies in the query window computed by the handler) has an index
`(day of the month in UTC+5:30) - 1` that is at least 0 and below the number of
buckets, so none is dropped: summary.totalIncome + summary.totalExpense is the sum of
the amounts of all fetched transactions. -/
theorem monthly_no_drop (period : Option String) (hp : period ≠ some "weekly")
    (store : List Transaction) (userId : String) (tz now : Int) (hnow : 0 ≤ now) :
    (∀ t ∈ Transaction.find store userId (some (queryWindow period tz now)),
        0 ≤ monthlyDayIndex t
          ∧ monthlyDayIndex t < ((getTimeData store userId period tz now).labels.length : Int))
      ∧ (getTimeData store userId period tz now).summary.totalIncome
          + (getTimeData store userId period tz now).summary.totalExpense
        = amountSum (Transaction.find store userId (some (queryWindow period tz now))) := by
  have hlen := monthly_labels_length period hp tz now hnow
    (Transaction.find store userId (some (queryWindow period tz now)))
  have hw := monthly_window_days period hp tz now hnow
  have hin : ∀ t ∈ Transaction.find store userId (some (queryWindow period tz now)),
      0 ≤ monthlyDayIndex t
        ∧ monthlyDayIndex t
            < (calendarDaysInMonth (currentYearIST now) (currentMonthIST now) : Int) := by
    intro t ht
    rw [hw] at ht
    unfold Transaction.find at ht
    simp only [List.mem_filter, Bool.and_eq_true, decide_eq_true_eq] at ht
    exact monthlyDayIndex_in_range now t ht.2.1.2 ht.2.2
  have hg : getTimeData store userId period tz now
      = buildTimeData period tz now
          (Transaction.find store userId (some (queryWindow period tz now))) := rfl
  rw [hg, hlen]
  refine ⟨hin, ?_⟩
  have hb : buildTimeData period tz now
      (Transaction.find store userId (some (queryWindow period tz now)))
      = (Transaction.find store userId (some (queryWindow period tz now))).foldl monthlyStep
          (monthlyBuckets now (timeDataInit period)) := by
    unfold buildTimeData
    rw [if_neg hp]
  have hlen0 : (monthlyBuckets now (timeDataInit period)).labels.length
      = calendarDaysInMonth (currentYearIST now) (currentMonthIST now) := by
    have := monthly_labels_length period hp tz now hnow []
    unfold buildTimeData at this
    rw [if_neg hp] at this
    exact this
  rw [hb, foldl_monthlyStep_total _ _ (by rw [hlen0]; exact hin),
    (monthlyBuckets_totals now period).1, (monthlyBuckets_totals now period).2]
  ring

/-- C28, at the clock 2024-03-15T12:00:00Z: an expense dated 2024-03-31T20:00:00Z, the
last hours of the window, has index 0 and is counted. -/
theorem monthly_no_drop_witness :
    ((some "monthly" : Option String) ≠ some "weekly" ∧ (0 : Int) ≤ 1710504000000)
      ∧ monthlyDayIndex ⟨"u", "tea", 30, "food", "expense", 1711915200000⟩ = 0
      ∧ (getTimeData [⟨"u", "tea", 30, "food", "expense", 1711915200000⟩] "u"
            (some "monthly") 0 1710504000000).summary.totalIncome
          + (getTimeData [⟨"u", "tea", 30, "food", "expense", 1711915200000⟩] "u"
            (some "monthly") 0 1710504000000).summary.totalExpense
        = amountSum (Transaction.find [⟨"u", "tea", 30, "food", "expense", 1711915200000⟩] "u"
            (some (queryWindow (some "monthly") 0 1710504000000))) :=
  ⟨⟨by decide, by decide⟩, by decide,
    (monthly_no_drop (some "monthly") (by decide)
      [⟨"u", "tea", 30, "food", "expense", 1711915200000⟩] "u" 0 1710504000000
      (by decide)).2⟩

/-! ## The exact definitions as an instance -/

theorem summaryStepA_exact : summaryStepA exactArith = summaryStep := rfl

theorem buildSummaryA_exact (ts : List Transaction) :
    buildSummaryA exactArith ts = buildSummary ts := rfl

theorem buildTimeDataA_exact (period : Option String) (tz now : Int) (ts : List Transaction) :
    buildTimeDataA exactArith period tz now ts = buildTimeData period tz now ts := rfl

theorem buildInsightsA_exact (host : Host) (all cur prev : List Transaction) :
    buildInsightsA exactArith host all cur prev = buildInsights host all cur prev := rfl

/-! ## Lemmas on the summary loop over a given arithmetic -/

theorem summaryStepA_totalExpense (A : Arith) (st : SummaryState) (t : Transaction) :
    (summaryStepA A st t).summary.totalExpense
      = if t.type = "income" then st.summary.totalExpense
        else A.add st.summary.totalExpense t.amount := by
  unfold summaryStepA
  split_ifs <;> rfl

theorem summaryStepA_map_income (A : Arith) (st : SummaryState) (t : Transaction)
    (h : t.type = "income") :
    (summaryStepA A st t).expenseCategoryMap = st.expenseCategoryMap := by
  unfold summaryStepA
  rw [if_pos h]

theorem summaryStepA_map_congr (A : Arith) (st st' : SummaryState) (t : Transaction)
    (h : st.expenseCategoryMap = st'.expenseCategoryMap) :
    (summaryStepA A st t).expenseCategoryMap = (summaryStepA A st' t).expenseCategoryMap := by
  unfold summaryStepA
  split_ifs
  · exact h
  · simp only [h]

theorem foldl_totalExpenseA (A : Arith) (ts : List Transaction) (st : SummaryState) :
    (ts.foldl (summaryStepA A) st).summary.totalExpense
      = (expenseOf ts).foldl (fun acc t => A.add acc t.amount) st.summary.totalExpense := by
  induction ts generalizing st with
  | nil => rfl
  | cons t tl ih =>
    rw [List.foldl_cons, ih, summaryStepA_totalExpense]
    by_cases h : t.type = "income"
    · simp [expenseOf, h]
    · simp [expenseOf, h]

/-- The dictionary built by the loop only depends on the expense transactions,
whatever the arithmetic. -/
theorem foldl_map_filterA (A : Arith) (ts : List Transaction) (st st' : SummaryState)
    (h : st.expenseCategoryMap = st'.expenseCategoryMap) :
    (ts.foldl (summaryStepA A) st).expenseCategoryMap
      = ((expenseOf ts).foldl (summaryStepA A) st').expenseCategoryMap := by
  induction ts generalizing st st' with
  | nil => simpa [expenseOf] using h
  | cons t tl ih =>
    by_cases ht : t.type = "income"
    · have e : expenseOf (t :: tl) = expenseOf tl := by simp [expenseOf, ht]
      rw [List.foldl_cons, e]
      apply ih
      rw [summaryStepA_map_income A st t ht, h]
    · have e : expenseOf (t :: tl) = t :: expenseOf tl := by simp [expenseOf, ht]
      rw [List.foldl_cons, e, List.foldl_cons]
      apply ih
      exact summaryStepA_map_congr A st st' t h

theorem buildSummaryA_categories (A : Arith) (ts : List Transaction) :
    (buildSummaryA A ts).expenseCategories
      = (ts.foldl (summaryStepA A) (summaryInit ts)).expenseCategoryMap.keys.map
          (fun c => { category := c
                      amount := ((ts.foldl (summaryStepA A)
                        (summaryInit ts)).expenseCategoryMap.get c).getD 0 }) := rfl

theorem buildSummaryA_totalExpense (A : Arith) (ts : List Transaction) :
    (buildSummaryA A ts).totalExpense = amountSumA A (expenseOf ts) := by
  have h := foldl_totalExpenseA A ts (summaryInit ts)
  simpa [buildSummaryA, summaryInit, amountSumA] using h

theorem expenseCategories_sum_exact_aux (ts : List Transaction) :
    ((buildSummary ts).expenseCategories.map (fun e => e.amount)).sum
      = (buildSummary ts).totalExpense := by
  rw [buildSummary_totalExpense, buildSummary_categories, List.map_map]
  have hn := foldl_map_nodup ts (summaryInit ts) (by simp [summaryInit, JsMap.keys])
  have hs := JsMap.sum_lookup_keys _ hn
  have hm := foldl_map_sum ts (summaryInit ts)
  rw [hm] at hs
  simpa [summaryInit, JsMap.sumValues, Function.comp_def] using hs

/-- C2 as stated fails: with expenses of 0.01 on food, 0.01 on transport and 0.04 on
food, double arithmetic gives the entries food 0.05 and transport 0.01 and a
totalExpense of 0.06, and 0.05 + 0.01 is not 0.06, neither exactly nor in doubles
(0.060000000000000005); with expenses of ten quadrillion on food and 1 and 1 on
transport the entries are ten quadrillion and 2 while totalExpense is ten quadrillion,
two whole units less than the entries. -/
theorem expenseCategories_sum_rounds :
    (buildSummaryA doubleArith sampleCentExpenses).expenseCategories
        = [⟨"food", roundDouble (5 / 100)⟩, ⟨"transport", roundDouble (1 / 100)⟩]
      ∧ (buildSummaryA doubleArith sampleCentExpenses).totalExpense = roundDouble (6 / 100)
      ∧ ((buildSummaryA doubleArith sampleCentExpenses).expenseCategories.map
            (fun e => e.amount)).sum
          ≠ (buildSummaryA doubleArith sampleCentExpenses).totalExpense
      ∧ ((buildSummaryA doubleArith sampleCentExpenses).expenseCategories.map
            (fun e => e.amount)).foldl doubleArith.add 0
          ≠ (buildSummaryA doubleArith sampleCentExpenses).totalExpense
      ∧ (buildSummaryA doubleArith sampleLargeExpenses).expenseCategories
          = [⟨"food", 10000000000000000⟩, ⟨"transport", 2⟩]
      ∧ (buildSummaryA doubleArith sampleLargeExpenses).totalExpense = 10000000000000000 := by
  decide!

/-- C2, amended: whatever the arithmetic, and so in doubles, no income transaction
contributes to expenseCategories (the list is the one obtained from the non-income
transactions alone) and totalExpense is the sum of the non-income amounts added in
list order; in exact arithmetic, of which the definitions without suffix are the
instance, the amounts of the entries add up to totalExpense. -/
theorem expenseCategories_exclude_income (A : Arith) (ts : List Transaction) :
    (buildSummaryA A ts).expenseCategories = (buildSummaryA A (expenseOf ts)).expenseCategories
      ∧ (buildSummaryA A ts).totalExpense = amountSumA A (expenseOf ts)
      ∧ buildSummaryA exactArith ts = buildSummary ts
      ∧ ((buildSummaryA exactArith ts).expenseCategories.map (fun e => e.amount)).sum
          = (buildSummaryA exactArith ts).totalExpense := by
  refine ⟨?_, buildSummaryA_totalExpense A ts, rfl, ?_⟩
  · have h := foldl_map_filterA A ts (summaryInit ts) (summaryInit (expenseOf ts)) rfl
    rw [buildSummaryA_categories, buildSummaryA_categories, h]
  · rw [buildSummaryA_exact]
    exact expenseCategories_sum_exact_aux ts

/-! ## Lemmas on the fill loops over a given arithmetic -/

theorem addAtA_length (A : Arith) (xs : List ℚ) (i : Nat) (a : ℚ) :
    (addAtA A xs i a).length = xs.length := by
  simp [addAtA]

theorem addAtA_getD (A : Arith) (xs : List ℚ) (i j : Nat) (a : ℚ) (h : i < xs.length) :
    (addAtA A xs i a).getD j 0 = if j = i then A.add (xs.getD i 0) a else xs.getD j 0 := by
  induction xs generalizing i j with
  | nil => simp at h
  | cons x tl ih =>
    cases i with
    | zero =>
      cases j with
      | zero => simp [addAtA]
      | succ m => simp [addAtA]
    | succ n =>
      have hn : n < tl.length := by simpa using h
      cases j with
      | zero => simp [addAtA]
      | succ m =>
        have := ih n m hn
        simp only [addAtA, List.set_cons_succ, List.getD_cons_succ, Nat.succ_eq_add_one,
          add_left_inj] at this ⊢
        exact this

theorem addToBucketA_shape (A : Arith) (td : TimeData) (k : Nat) (t : Transaction) :
    (addToBucketA A td k t).labels = td.labels
      ∧ (addToBucketA A td k t).income.length = td.income.length
      ∧ (addToBucketA A td k t).expenses.length = td.expenses.length := by
  unfold addToBucketA
  split_ifs <;> simp [addAtA_length]

theorem addToBucketA_totals (A : Arith) (td : TimeData) (k : Nat) (t : Transaction) :
    (addToBucketA A td k t).summary.totalIncome
        = (if t.type = "income" then A.add td.summary.totalIncome t.amount
            else td.summary.totalIncome)
      ∧ (addToBucketA A td k t).summary.totalExpense
        = (if t.type = "income" then td.summary.totalExpense
            else A.add td.summary.totalExpense t.amount) := by
  unfold addToBucketA
  split_ifs <;> exact ⟨rfl, rfl⟩

theorem addToBucketA_getD (A : Arith) (td : TimeData) (k i : Nat) (t : Transaction)
    (hi : k < td.income.length) (he : k < td.expenses.length) :
    (addToBucketA A td k t).income.getD i 0
        = (if t.type = "income" ∧ i = k then A.add (td.income.getD i 0) t.amount
            else td.income.getD i 0)
      ∧ (addToBucketA A td k t).expenses.getD i 0
        = (if ¬ t.type = "income" ∧ i = k then A.add (td.expenses.getD i 0) t.amount
            else td.expenses.getD i 0) := by
  unfold addToBucketA
  by_cases ht : t.type = "income"
  · rw [if_pos ht]
    simp only [ht, true_and, not_true_eq_false, false_and, if_false]
    rw [addAtA_getD A _ _ _ _ hi]
    by_cases hik : i = k
    · subst hik
      simp
    · simp [hik]
  · rw [if_neg ht]
    simp only [ht, false_and, if_false, not_false_eq_true, true_and]
    rw [addAtA_getD A _ _ _ _ he]
    by_cases hik : i = k
    · subst hik
      simp
    · simp [hik]

/-- A fill loop over `n` buckets with day index `idx`: the labels and the lengths stay,
each running total is its start value followed by the counted amounts of its type in
list order, and bucket `i` is its start value followed by the amounts of its type
whose index is `i`. -/
theorem foldl_fillA (A : Arith) (n : Nat) (idx : Transaction → Int)
    (f : TimeData → Transaction → TimeData)
    (hf : ∀ td t, td.labels.length = n →
      f td t = if 0 ≤ idx t ∧ idx t < (n : Int) then addToBucketA A td (idx t).toNat t else td)
    (ts : List Transaction) (td : TimeData) (hl : td.labels.length = n)
    (hi : td.income.length = n) (he : td.expenses.length = n) :
    (ts.foldl f td).labels = td.labels
      ∧ (ts.foldl f td).income.length = n
      ∧ (ts.foldl f td).expenses.length = n
      ∧ (ts.foldl f td).summary.totalIncome
          = ((incomeOf ts).filter (fun t => decide (0 ≤ idx t ∧ idx t < (n : Int)))).foldl
              (fun acc t => A.add acc t.amount) td.summary.totalIncome
      ∧ (ts.foldl f td).summary.totalExpense
          = ((expenseOf ts).filter (fun t => decide (0 ≤ idx t ∧ idx t < (n : Int)))).foldl
              (fun acc t => A.add acc t.amount) td.summary.totalExpense
      ∧ (∀ i : Nat, i < n →
          (ts.foldl f td).income.getD i 0
            = ((incomeOf ts).filter (fun t => decide (idx t = (i : Int)))).foldl
                (fun acc t => A.add acc t.amount) (td.income.getD i 0))
      ∧ (∀ i : Nat, i < n →
          (ts.foldl f td).expenses.getD i 0
            = ((expenseOf ts).filter (fun t => decide (idx t = (i : Int)))).foldl
                (fun acc t => A.add acc t.amount) (td.expenses.getD i 0)) := by
  induction ts generalizing td with
  | nil => exact ⟨rfl, hi, he, rfl, rfl, fun _ _ => rfl, fun _ _ => rfl⟩
  | cons t tl ih =>
    rw [List.foldl_cons]
    by_cases hg : 0 ≤ idx t ∧ idx t < (n : Int)
    · have hstep : f td t = addToBucketA A td (idx t).toNat t := by
        rw [hf td t hl, if_pos hg]
      have hk : (idx t).toNat < n := by omega
      obtain ⟨s1, s2, s3⟩ := addToBucketA_shape A td (idx t).toNat t
      obtain ⟨t1, t2⟩ := addToBucketA_totals A td (idx t).toNat t
      obtain ⟨r1, r2, r3, r4, r5, r6, r7⟩ := ih (f td t) (by rw [hstep, s1]; exact hl)
        (by rw [hstep, s2]; exact hi) (by rw [hstep, s3]; exact he)
      refine ⟨by rw [r1, hstep, s1], r2, r3, ?_, ?_, ?_, ?_⟩
      · rw [r4, hstep, t1]
        by_cases ht : t.type = "income"
        · simp [incomeOf, ht, hg]
        · simp [incomeOf, ht]
      · rw [r5, hstep, t2]
        by_cases ht : t.type = "income"
        · simp [expenseOf, ht]
        · simp [expenseOf, ht, hg]
      · intro i hin
        rw [r6 i hin, hstep,
          (addToBucketA_getD A td (idx t).toNat i t (by rw [hi]; exact hk)
            (by rw [he]; exact hk)).1]
        have e : (i = (idx t).toNat) ↔ (idx t = (i : Int)) := by omega
        by_cases ht : t.type = "income"
        · by_cases hx : idx t = (i : Int)
          · simp [incomeOf, ht, hx, e]
          · simp [incomeOf, ht, hx, e]
        · simp [incomeOf, ht]
      · intro i hin
        rw [r7 i hin, hstep,
          (addToBucketA_getD A td (idx t).toNat i t (by rw [hi]; exact hk)
            (by rw [he]; exact hk)).2]
        have e : (i = (idx t).toNat) ↔ (idx t = (i : Int)) := by omega
        by_cases ht : t.type = "income"
        · simp [expenseOf, ht]
        · by_cases hx : idx t = (i : Int)
          · simp [expenseOf, ht, hx, e]
          · simp [expenseOf, ht, hx, e]
    · have hstep : f td t = td := by
        rw [hf td t hl, if_neg hg]
      obtain ⟨r1, r2, r3, r4, r5, r6, r7⟩ := ih (f td t) (by rw [hstep]; exact hl)
        (by rw [hstep]; exact hi) (by rw [hstep]; exact he)
      refine ⟨by rw [r1, hstep], r2, r3, ?_, ?_, ?_, ?_⟩
      · rw [r4, hstep]
        by_cases ht : t.type = "income"
        · simp [incomeOf, ht, hg]
        · simp [incomeOf, ht]
      · rw [r5, hstep]
        by_cases ht : t.type = "income"
        · simp [expenseOf, ht]
        · simp [expenseOf, ht, hg]
      · intro i hin
        have hx : ¬ idx t = (i : Int) := by omega
        rw [r6 i hin, hstep]
        by_cases ht : t.type = "income"
        · simp [incomeOf, ht, hx]
        · simp [incomeOf, ht]
      · intro i hin
        have hx : ¬ idx t = (i : Int) := by omega
        rw [r7 i hin, hstep]
        by_cases ht : t.type = "income"
        · simp [expenseOf, ht]
        · simp [expenseOf, ht, hx]

/-- The buckets before the fill loop: as many zeros as labels, and totals of 0. -/
theorem initialBuckets_fields (period : Option String) (tz now : Int) :
    (initialBuckets period tz now).income
        = List.replicate (initialBuckets period tz now).labels.length 0
      ∧ (initialBuckets period tz now).expenses
        = List.replicate (initialBuckets period tz now).labels.length 0
      ∧ (initialBuckets period tz now).summary.totalIncome = 0
      ∧ (initialBuckets period tz now).summary.totalExpense = 0 := by
  unfold initialBuckets
  split_ifs with hp
  · obtain ⟨h1, h2, h3, h4⟩ :=
      foldl_pushBucket [6, 5, 4, 3, 2, 1, 0] (weeklyLabel tz now) (timeDataInit period)
    unfold weeklyBuckets
    rw [h1, h2, h3, h4]
    simp [timeDataInit]
  · obtain ⟨h1, h2, h3, h4⟩ :=
      foldl_pushBucket (List.range' 1 (daysInMonth now).toNat) (fun i => toString i)
        (timeDataInit period)
    unfold monthlyBuckets
    rw [h1, h2, h3, h4]
    simp [timeDataInit]

theorem buildTimeDataA_eq (A : Arith) (period : Option String) (tz now : Int)
    (ts : List Transaction) :
    buildTimeDataA A period tz now ts
      = ts.foldl (if period = some "weekly" then weeklyStepA A now else monthlyStepA A)
          (initialBuckets period tz now) := by
  unfold buildTimeDataA initialBuckets
  split_ifs <;> rfl

theorem fillStepA_eq (A : Arith) (period : Option String) (tz now : Int) (td : TimeData)
    (t : Transaction) (hl : td.labels.length = (initialBuckets period tz now).labels.length) :
    (if period = some "weekly" then weeklyStepA A now else monthlyStepA A) td t
      = if 0 ≤ dayIndexOf period now t
            ∧ dayIndexOf period now t < ((initialBuckets period tz now).labels.length : Int)
        then addToBucketA A td (dayIndexOf period now t).toNat t else td := by
  by_cases hp : period = some "weekly"
  · subst hp
    have h7 : (initialBuckets (some "weekly") tz now).labels.length = 7 := by
      unfold initialBuckets
      rw [if_pos rfl]
      exact weeklyBuckets_labels_length tz now (some "weekly")
    rw [if_pos rfl, h7]
    unfold weeklyStepA dayIndexOf
    rw [if_pos rfl]
    rfl
  · rw [if_neg hp, ← hl]
    unfold monthlyStepA dayIndexOf
    rw [if_neg hp]

/-- The time-series result in any arithmetic: shape, totals and buckets. -/
theorem buildTimeDataA_fields (A : Arith) (period : Option String) (tz now : Int)
    (ts : List Transaction) :
    (buildTimeDataA A period tz now ts).labels = (initialBuckets period tz now).labels
      ∧ (buildTimeDataA A period tz now ts).income.length
          = (initialBuckets period tz now).labels.length
      ∧ (buildTimeDataA A period tz now ts).expenses.length
          = (initialBuckets period tz now).labels.length
      ∧ (buildTimeDataA A period tz now ts).summary.totalIncome
          = amountSumA A ((incomeOf ts).filter (fun t =>
              decide (0 ≤ dayIndexOf period now t
                ∧ dayIndexOf period now t
                  < ((initialBuckets period tz now).labels.length : Int))))
      ∧ (buildTimeDataA A period tz now ts).summary.totalExpense
          = amountSumA A ((expenseOf ts).filter (fun t =>
              decide (0 ≤ dayIndexOf period now t
                ∧ dayIndexOf period now t
                  < ((initialBuckets period tz now).labels.length : Int))))
      ∧ (∀ i : Nat, i < (initialBuckets period tz now).labels.length →
          (buildTimeDataA A period tz now ts).income.getD i 0
            = amountSumA A ((incomeOf ts).filter
                (fun t => decide (dayIndexOf period now t = (i : Int)))))
      ∧ (∀ i : Nat, i < (initialBuckets period tz now).labels.length →
          (buildTimeDataA A period tz now ts).expenses.getD i 0
            = amountSumA A ((expenseOf ts).filter
                (fun t => decide (dayIndexOf period now t = (i : Int))))) := by
  obtain ⟨i1, i2, i3, i4⟩ := initialBuckets_fields period tz now
  have h := foldl_fillA A (initialBuckets period tz now).labels.length (dayIndexOf period now)
    (if period = some "weekly" then weeklyStepA A now else monthlyStepA A)
    (fun td t hl => fillStepA_eq A period tz now td t hl) ts (initialBuckets period tz now) rfl
    (by rw [i1]; simp) (by rw [i2]; simp)
  rw [← buildTimeDataA_eq] at h
  obtain ⟨r1, r2, r3, r4, r5, r6, r7⟩ := h
  have hz : ∀ i : Nat, i < (initialBuckets period tz now).labels.length →
      (List.replicate (initialBuckets period tz now).labels.length (0 : ℚ)).getD i 0 = 0 := by
    intro i hi
    simp [List.getD_eq_getElem?_getD, List.getElem?_replicate, hi]
  refine ⟨r1, r2, r3, ?_, ?_, ?_, ?_⟩
  · rw [r4, i3]
    rfl
  · rw [r5, i4]
    rfl
  · intro i hi
    rw [r6 i hi, i1, hz i hi]
    rfl
  · intro i hi
    rw [r7 i hi, i2, hz i hi]
    rfl

/-! ## `GET /time-data` in Number arithmetic: results -/

/-- C9 as stated fails: in weekly mode at the clock reading 2024-03-15T12:00:00Z, with
incomes of 0.01 and 0.04 in the last bucket and 0.01 in the one before, double
arithmetic gives the buckets 0.01 and 0.05 and the total 0.06, and 0.01 + 0.05 is not
0.06, neither exactly nor in doubles (0.060000000000000005); with expenses of ten
quadrillion, 1 and 1 the buckets hold 2 and ten quadrillion while the total is ten
quadrillion, two whole units less than the buckets. -/
theorem buckets_sum_rounds :
    (buildTimeDataA doubleArith (some "weekly") 0 1710504000000 sampleCentIncomes).income
        = [0, 0, 0, 0, 0, roundDouble (1 / 100), roundDouble (5 / 100)]
      ∧ (buildTimeDataA doubleArith (some "weekly") 0 1710504000000
          sampleCentIncomes).summary.totalIncome = roundDouble (6 / 100)
      ∧ (buildTimeDataA doubleArith (some "weekly") 0 1710504000000 sampleCentIncomes).income.sum
          ≠ (buildTimeDataA doubleArith (some "weekly") 0 1710504000000
              sampleCentIncomes).summary.totalIncome
      ∧ (buildTimeDataA doubleArith (some "weekly") 0 1710504000000
            sampleCentIncomes).income.foldl doubleArith.add 0
          ≠ (buildTimeDataA doubleArith (some "weekly") 0 1710504000000
              sampleCentIncomes).summary.totalIncome
      ∧ (buildTimeDataA doubleArith (some "weekly") 0 1710504000000
            sampleLargeBucketExpenses).expenses = [0, 0, 0, 0, 0, 2, 10000000000000000]
      ∧ (buildTimeDataA doubleArith (some "weekly") 0 1710504000000
            sampleLargeBucketExpenses).summary.totalExpense = 10000000000000000 := by
  decide!

/-- C9, amended: for both periods, every clock reading and every fetched list, and in
every arithmetic, so in doubles: the result has one income and one expenses bucket per
label; each counted transaction (day index within the buckets) adds its amount to the
bucket of its day index and to the running total of its type, so that each total is
the sum in list order of the counted amounts of its type and each bucket the sum in
list order of the amounts of its type and day index. In exact arithmetic, of which
the definitions without suffix are the instance, the income buckets add up to
summary.totalIncome and the expenses buckets to summary.totalExpense. -/
theorem buckets_sum_to_totals (A : Arith) (period : Option String) (tz now : Int)
    (ts : List Transaction) :
    ((buildTimeDataA A period tz now ts).income.length
          = (buildTimeDataA A period tz now ts).labels.length
        ∧ (buildTimeDataA A period tz now ts).expenses.length
          = (buildTimeDataA A period tz now ts).labels.length)
      ∧ (buildTimeDataA A period tz now ts).summary.totalIncome
          = amountSumA A ((incomeOf ts).filter (fun t =>
              decide (0 ≤ dayIndexOf period now t
                ∧ dayIndexOf period now t
                  < ((buildTimeDataA A period tz now ts).labels.length : Int))))
      ∧ (buildTimeDataA A period tz now ts).summary.totalExpense
          = amountSumA A ((expenseOf ts).filter (fun t =>
              decide (0 ≤ dayIndexOf period now t
                ∧ dayIndexOf period now t
                  < ((buildTimeDataA A period tz now ts).labels.length : Int))))
      ∧ (∀ i : Nat, i < (buildTimeDataA A period tz now ts).labels.length →
          (buildTimeDataA A period tz now ts).income.getD i 0
              = amountSumA A ((incomeOf ts).filter
                  (fun t => decide (dayIndexOf period now t = (i : Int))))
            ∧ (buildTimeDataA A period tz now ts).expenses.getD i 0
              = amountSumA A ((expenseOf ts).filter
                  (fun t => decide (dayIndexOf period now t = (i : Int)))))
      ∧ buildTimeDataA exactArith period tz now ts = buildTimeData period tz now ts
      ∧ (buildTimeDataA exactArith period tz now ts).income.sum
          = (buildTimeDataA exactArith period tz now ts).summary.totalIncome
      ∧ (buildTimeDataA exactArith period tz now ts).expenses.sum
          = (buildTimeDataA exactArith period tz now ts).summary.totalExpense := by
  obtain ⟨r1, r2, r3, r4, r5, r6, r7⟩ := buildTimeDataA_fields A period tz now ts
  rw [r1]
  refine ⟨⟨r2, r3⟩, r4, r5, fun i hi => ⟨r6 i hi, r7 i hi⟩, rfl, ?_, ?_⟩
  · rw [buildTimeDataA_exact]
    exact (buildTimeData_balanced period tz now ts).2.2.1
  · rw [buildTimeDataA_exact]
    exact (buildTimeData_balanced period tz now ts).2.2.2

/-! ## Lemmas on the spending dictionaries over a given arithmetic -/

theorem JsMap.keys_put (m : JsMap) (k : String) (v : ℚ) :
    (m.put k v).keys = if k ∈ m.keys then m.keys else m.keys ++ [k] := by
  induction m with
  | nil => simp [JsMap.put, JsMap.keys]
  | cons hd tl ih =>
    obtain ⟨k', v'⟩ := hd
    by_cases h : k' = k
    · subst h
      simp [JsMap.put, JsMap.keys]
    · have ih2 : List.map Prod.fst (JsMap.put tl k v)
          = if k ∈ List.map Prod.fst tl then List.map Prod.fst tl
            else List.map Prod.fst tl ++ [k] := ih
      have h2 : ¬ k = k' := fun e => h e.symm
      simp only [JsMap.put, JsMap.keys, h, if_false, List.map_cons, List.mem_cons, h2,
        false_or, ih2]
      split_ifs <;> simp

theorem JsMap.values_eq_lookup (m : JsMap) (h : m.keys.Nodup) :
    m.map Prod.snd = m.keys.map (fun c => (m.get c).getD 0) := by
  induction m with
  | nil => simp [JsMap.keys]
  | cons hd tl ih =>
    obtain ⟨k', v'⟩ := hd
    have hk : k' ∉ JsMap.keys tl ∧ (JsMap.keys tl).Nodup := by
      simpa [JsMap.keys] using h
    have e : (JsMap.keys tl).map (fun c => (JsMap.get ((k', v') :: tl) c).getD 0)
        = (JsMap.keys tl).map (fun c => (JsMap.get tl c).getD 0) := by
      apply List.map_congr_left
      intro c hc
      have : ¬ k' = c := fun e => hk.1 (e ▸ hc)
      simp [JsMap.get, this]
    have hkeys : JsMap.keys ((k', v') :: tl) = k' :: JsMap.keys tl := rfl
    rw [hkeys, List.map_cons, List.map_cons, e, ← ih hk.2]
    simp [JsMap.get]

theorem spendingStepA_eq (A : Arith) (m : JsMap) (t : Transaction) :
    spendingStepA A m t
      = if t.type = "expense" then
          m.put t.category (A.add ((m.get t.category).getD 0) t.amount)
        else m := rfl

theorem foldl_spendingA_mem_keys (A : Arith) (ts : List Transaction) (m : JsMap) (c : String) :
    c ∈ (ts.foldl (spendingStepA A) m).keys
      ↔ c ∈ m.keys ∨ ∃ t ∈ ts, t.type = "expense" ∧ t.category = c := by
  induction ts generalizing m with
  | nil => simp
  | cons t tl ih =>
    rw [List.foldl_cons, ih, spendingStepA_eq]
    by_cases h : t.type = "expense"
    · simp only [h, if_true, JsMap.mem_keys_put, List.mem_cons, exists_eq_or_imp, true_and]
      constructor
      · rintro ((h1 | h1) | h1)
        · exact Or.inr (Or.inl h1.symm)
        · exact Or.inl h1
        · exact Or.inr (Or.inr h1)
      · rintro (h1 | h1 | h1)
        · exact Or.inl (Or.inr h1)
        · exact Or.inl (Or.inl h1.symm)
        · exact Or.inr h1
    · simp [h]

/-- The value stored for a category is its previous value followed by the amounts of
the expenses of the category, added one after the other in list order. -/
theorem foldl_spendingA_get (A : Arith) (ts : List Transaction) (m : JsMap) (c : String) :
    ((ts.foldl (spendingStepA A) m).get c).getD 0
      = (typedExpensesOfCategory ts c).foldl (fun acc t => A.add acc t.amount)
          ((m.get c).getD 0) := by
  induction ts generalizing m with
  | nil => simp [typedExpensesOfCategory, typedExpenses]
  | cons t tl ih =>
    rw [List.foldl_cons, ih, spendingStepA_eq]
    by_cases h : t.type = "expense"
    · by_cases hc : t.category = c
      · simp [typedExpensesOfCategory, typedExpenses, h, hc, JsMap.get_put]
      · simp [typedExpensesOfCategory, typedExpenses, h, hc, JsMap.get_put]
    · simp [typedExpensesOfCategory, typedExpenses, h]

theorem foldl_spendingA_nodup (A : Arith) (ts : List Transaction) (m : JsMap)
    (h : m.keys.Nodup) : (ts.foldl (spendingStepA A) m).keys.Nodup := by
  induction ts generalizing m with
  | nil => exact h
  | cons t tl ih =>
    rw [List.foldl_cons]
    apply ih
    rw [spendingStepA_eq]
    split_ifs
    · exact JsMap.nodup_keys_put _ _ _ h
    · exact h

/-- The keys are the categories of the expenses, each at the place of its first
expense, after the keys that were there before. -/
theorem foldl_spendingA_keys (A : Arith) (ts : List Transaction) (m : JsMap) :
    (ts.foldl (spendingStepA A) m).keys
      = m.keys ++ (expenseCategoriesInOrder ts).filter (fun k => !decide (k ∈ m.keys)) := by
  induction ts generalizing m with
  | nil => simp [expenseCategoriesInOrder, typedExpenses, firstOccurrences]
  | cons t tl ih =>
    rw [List.foldl_cons, ih, spendingStepA_eq]
    by_cases h : t.type = "expense"
    · have e : expenseCategoriesInOrder (t :: tl)
          = t.category
            :: (expenseCategoriesInOrder tl).filter (fun k => !decide (k = t.category)) := by
        simp [expenseCategoriesInOrder, typedExpenses, firstOccurrences, h]
      rw [if_pos h, e, JsMap.keys_put]
      by_cases hk : t.category ∈ m.keys
      · rw [if_pos hk, List.filter_cons]
        simp only [hk, decide_True, Bool.not_true, Bool.false_eq_true, if_false]
        rw [List.filter_filter]
        congr 1
        apply List.filter_congr
        intro k _
        by_cases hkm : k ∈ m.keys
        · simp [hkm]
        · have : ¬ k = t.category := fun e2 => hkm (e2 ▸ hk)
          simp [hkm, this]
      · rw [if_neg hk, List.filter_cons]
        simp only [hk, decide_False, Bool.not_false, if_true]
        rw [List.filter_filter, List.append_assoc, List.singleton_append]
        congr 2
        apply List.filter_congr
        intro k _
        by_cases hkm : k ∈ m.keys
        · simp [hkm]
        · by_cases hkc : k = t.category
          · simp [hkc]
          · simp [hkm, hkc]
    · have e : expenseCategoriesInOrder (t :: tl) = expenseCategoriesInOrder tl := by
        simp [expenseCategoriesInOrder, typedExpenses, h]
      rw [if_neg h, e]

theorem spendingA_mem_keys (A : Arith) (ts : List Transaction) (c : String) :
    c ∈ (spendingByCategoryA A ts).keys ↔ ∃ t ∈ ts, t.type = "expense" ∧ t.category = c := by
  unfold spendingByCategoryA
  rw [foldl_spendingA_mem_keys]
  simp [JsMap.keys]

theorem spendingA_get (A : Arith) (ts : List Transaction) (c : String) :
    ((spendingByCategoryA A ts).get c).getD 0 = amountSumA A (typedExpensesOfCategory ts c) := by
  unfold spendingByCategoryA amountSumA
  rw [foldl_spendingA_get]
  simp [JsMap.get]

theorem spendingA_nodup (A : Arith) (ts : List Transaction) :
    (spendingByCategoryA A ts).keys.Nodup :=
  foldl_spendingA_nodup A ts [] (by simp [JsMap.keys])

theorem spendingA_keys (A : Arith) (ts : List Transaction) :
    (spendingByCategoryA A ts).keys = expenseCategoriesInOrder ts := by
  unfold spendingByCategoryA
  rw [foldl_spendingA_keys]
  simp [JsMap.keys]

/-- The total that `reduce` computes over the values of the dictionary is the sum of
the category totals, in the order of the first expense of each category. -/
theorem spendingA_total (A : Arith) (ts : List Transaction) :
    (spendingByCategoryA A ts).totalA A = expenseTotalA A ts := by
  unfold JsMap.totalA expenseTotalA
  rw [JsMap.values_eq_lookup _ (spendingA_nodup A ts), List.foldl_map, spendingA_keys]
  simp only [spendingA_get]

/-! ## Lemmas on the insight lists over a given arithmetic -/

theorem categoryInsightA_eq (A : Arith) (host : Host) (cur prev : List Transaction)
    (c : String) :
    categoryInsightA A host (spendingByCategoryA A cur) (spendingByCategoryA A prev) c
      = if |categoryChangeA A cur prev c| ≥ 1 then
          some
            { type := if categoryChangeA A cur prev c > 0 then "increase" else "decrease"
              message :=
                generateNLPMessageA A host "category_change" c (categoryChangeA A cur prev c)
                  (amountSumA A (typedExpensesOfCategory cur c))
                  (amountSumA A (typedExpensesOfCategory prev c)) 0
              details :=
                "Current: "
                  ++ host.formatCurrency (amountSumA A (typedExpensesOfCategory cur c))
                  ++ " | Previous: "
                  ++ host.formatCurrency (amountSumA A (typedExpensesOfCategory prev c))
              category := some c
              percentageChange := some (mathRound (categoryChangeA A cur prev c)) }
        else none := by
  unfold categoryInsightA categoryChangeA
  simp only [spendingA_get]

theorem categoryInsightA_category (A : Arith) (host : Host) (cm pm : JsMap) (c : String)
    (i : Insight) (h : categoryInsightA A host cm pm c = some i) :
    i.category = some c ∧ (i.type = "increase" ∨ i.type = "decrease") := by
  unfold categoryInsightA at h
  simp only at h
  split_ifs at h with h1 h2
  · cases h
    exact ⟨rfl, Or.inl rfl⟩
  · cases h
    exact ⟨rfl, Or.inr rfl⟩

theorem mem_categoryInsightsA (A : Arith) (host : Host) (cm pm : JsMap) (i : Insight) :
    i ∈ categoryInsightsA A host cm pm
      ↔ ∃ c ∈ cm.keys, categoryInsightA A host cm pm c = some i := by
  unfold categoryInsightsA
  rw [List.mem_filterMap]

theorem categoryInsightsA_fields (A : Arith) (host : Host) (cm pm : JsMap) (i : Insight)
    (h : i ∈ categoryInsightsA A host cm pm) :
    i.category ≠ none ∧ (i.type = "increase" ∨ i.type = "decrease") := by
  rw [mem_categoryInsightsA] at h
  obtain ⟨c, -, hc⟩ := h
  obtain ⟨h1, h2⟩ := categoryInsightA_category A host cm pm c i hc
  exact ⟨by rw [h1]; simp, h2⟩

theorem overallInsightsA_fields (A : Arith) (host : Host) (cm pm : JsMap) (i : Insight)
    (h : i ∈ overallInsightsA A host cm pm) : i.category = none ∧ i.type = "trend" := by
  unfold overallInsightsA at h
  simp only at h
  split_ifs at h
  · simp only [List.mem_singleton] at h
    subst h
    exact ⟨rfl, rfl⟩
  · simp at h

theorem overallInsightsA_eq (A : Arith) (host : Host) (cur prev : List Transaction) :
    overallInsightsA A host (spendingByCategoryA A cur) (spendingByCategoryA A prev)
      = if |overallChangeA A cur prev| ≥ 1 then
          [{ type := "trend"
             message :=
               generateNLPMessageA A host "overall_trend" "" (overallChangeA A cur prev)
                 (expenseTotalA A cur) (expenseTotalA A prev) (expenseTotalA A cur)
             details :=
               "Total spending: " ++ host.formatCurrency (expenseTotalA A cur)
                 ++ " | Previous: " ++ host.formatCurrency (expenseTotalA A prev)
             category := none
             percentageChange := some (mathRound (overallChangeA A cur prev)) }]
        else [] := by
  unfold overallInsightsA overallChangeA
  simp only [spendingA_total]

/-- The number of insights that carry category `c` in the list of a duplicate-free
list of keys: one when the key is present and its insight exists, none otherwise. -/
theorem filterMap_category_countA (A : Arith) (host : Host) (cm pm : JsMap) (c : String)
    (l : List String) (hn : l.Nodup) :
    ((l.filterMap (categoryInsightA A host cm pm)).filter
        (fun i => decide (i.category = some c))).length
      = if c ∈ l ∧ (categoryInsightA A host cm pm c).isSome then 1 else 0 := by
  induction l with
  | nil => simp
  | cons k tl ih =>
    have hk : k ∉ tl ∧ tl.Nodup := List.nodup_cons.mp hn
    have iht := ih hk.2
    cases hf : categoryInsightA A host cm pm k with
    | none =>
      rw [List.filterMap_cons_none hf, iht]
      by_cases hc : c = k
      · subst hc
        simp [hf, hk.1]
      · simp [hc]
    | some i =>
      rw [List.filterMap_cons_some hf]
      have hcat := (categoryInsightA_category A host cm pm k i hf).1
      by_cases hc : c = k
      · subst hc
        have h0 : ¬ (c ∈ tl ∧ (categoryInsightA A host cm pm c).isSome = true) :=
          fun h => hk.1 h.1
        rw [if_neg h0] at iht
        simp [List.filter_cons, hcat, iht, hf]
      · have hne : ¬ (k = c) := fun e => hc e.symm
        simp [List.filter_cons, hcat, hne, iht, hc]

theorem buildInsightsA_empty (A : Arith) (host : Host) (all prev : List Transaction) :
    buildInsightsA A host all [] prev = [emptyMonthInsight all] := by
  simp [buildInsightsA]

theorem buildInsightsA_nonempty (A : Arith) (host : Host) (all cur prev : List Transaction)
    (hne : cur ≠ []) :
    buildInsightsA A host all cur prev
      = if categoryInsightsA A host (spendingByCategoryA A cur) (spendingByCategoryA A prev)
            ++ overallInsightsA A host (spendingByCategoryA A cur) (spendingByCategoryA A prev)
            = []
        then [fallbackInsight host cur ((spendingByCategoryA A cur).totalA A)]
        else categoryInsightsA A host (spendingByCategoryA A cur) (spendingByCategoryA A prev)
            ++ overallInsightsA A host (spendingByCategoryA A cur)
              (spendingByCategoryA A prev) := by
  have hlen : ¬ cur.length = 0 := by
    intro h
    exact hne (List.length_eq_zero.mp h)
  have hpos : cur.length > 0 := Nat.pos_of_ne_zero hlen
  unfold buildInsightsA
  rw [if_neg hlen]
  simp only
  by_cases he : categoryInsightsA A host (spendingByCategoryA A cur) (spendingByCategoryA A prev)
      ++ overallInsightsA A host (spendingByCategoryA A cur) (spendingByCategoryA A prev) = []
  · rw [if_pos he, if_pos ⟨by rw [he]; rfl, hpos⟩, he]
    rfl
  · rw [if_neg he, if_neg]
    intro h
    exact he (List.length_eq_zero.mp h.1)

theorem mem_buildInsightsA_cases (A : Arith) (host : Host) (all cur prev : List Transaction)
    (i : Insight) (hi : i ∈ buildInsightsA A host all cur prev) :
    i ∈ categoryInsightsA A host (spendingByCategoryA A cur) (spendingByCategoryA A prev)
      ∨ i ∈ overallInsightsA A host (spendingByCategoryA A cur) (spendingByCategoryA A prev)
      ∨ (i.type = "info" ∧ i.category = none) := by
  by_cases hne : cur = []
  · subst hne
    rw [buildInsightsA_empty, List.mem_singleton] at hi
    rw [hi]
    exact Or.inr (Or.inr (emptyMonthInsight_info all))
  · rw [buildInsightsA_nonempty A host all cur prev hne] at hi
    split_ifs at hi with he
    · rw [List.mem_singleton.mp hi]
      exact Or.inr (Or.inr ⟨rfl, rfl⟩)
    · rcases List.mem_append.mp hi with h | h
      · exact Or.inl h
      · exact Or.inr (Or.inl h)

theorem categoryInsightA_isSome (A : Arith) (host : Host) (cur prev : List Transaction)
    (c : String) :
    (categoryInsightA A host (spendingByCategoryA A cur) (spendingByCategoryA A prev) c).isSome
        = true
      ↔ |categoryChangeA A cur prev c| ≥ 1 := by
  rw [categoryInsightA_eq]
  split_ifs with h <;> simp [h]

/-- The number of elements of the result that carry category `c`. -/
theorem buildInsightsA_category_count (A : Arith) (host : Host)
    (all cur prev : List Transaction) (hne : cur ≠ []) (c : String) :
    ((buildInsightsA A host all cur prev).filter
        (fun i => decide (i.category = some c))).length
      = if (∃ t ∈ cur, t.type = "expense" ∧ t.category = c) ∧ |categoryChangeA A cur prev c| ≥ 1
        then 1 else 0 := by
  have hov := overallInsightsA_fields A host (spendingByCategoryA A cur)
    (spendingByCategoryA A prev)
  have hcount := (filterMap_category_countA A host (spendingByCategoryA A cur)
    (spendingByCategoryA A prev) c (spendingByCategoryA A cur).keys (spendingA_nodup A cur)).trans
    (if_congr (and_congr (spendingA_mem_keys A cur c) (categoryInsightA_isSome A host cur prev c))
      rfl rfl)
  have hfo : (overallInsightsA A host (spendingByCategoryA A cur)
      (spendingByCategoryA A prev)).filter (fun i => decide (i.category = some c)) = [] := by
    rw [List.filter_eq_nil_iff]
    intro i hi
    rw [(hov i hi).1]
    simp
  rw [buildInsightsA_nonempty A host all cur prev hne]
  by_cases he : categoryInsightsA A host (spendingByCategoryA A cur) (spendingByCategoryA A prev)
      ++ overallInsightsA A host (spendingByCategoryA A cur) (spendingByCategoryA A prev) = []
  · rw [if_pos he]
    have hc0 : categoryInsightsA A host (spendingByCategoryA A cur)
        (spendingByCategoryA A prev) = [] := (List.append_eq_nil.mp he).1
    unfold categoryInsightsA at hc0
    rw [hc0] at hcount
    rw [← hcount]
    simp [fallbackInsight]
  · rw [if_neg he, List.filter_append, hfo, List.append_nil]
    exact hcount

theorem category_insights_present_iff (A : Arith) (host : Host)
    (all cur prev : List Transaction) (hne : cur ≠ []) (c : String) :
    (∃ i ∈ buildInsightsA A host all cur prev, i.category = some c)
      ↔ (∃ t ∈ cur, t.type = "expense" ∧ t.category = c)
        ∧ |categoryChangeA A cur prev c| ≥ 1 := by
  have hcount := buildInsightsA_category_count A host all cur prev hne c
  constructor
  · rintro ⟨i, hi, hc⟩
    by_contra hcon
    rw [if_neg hcon] at hcount
    have hnil := List.length_eq_zero.mp hcount
    rw [List.filter_eq_nil_iff] at hnil
    exact hnil i hi (by simpa using hc)
  · intro h
    rw [if_pos h] at hcount
    have hne2 : (buildInsightsA A host all cur prev).filter
        (fun i => decide (i.category = some c)) ≠ [] := by
      intro e
      rw [e] at hcount
      simp at hcount
    obtain ⟨i, hi⟩ := List.exists_mem_of_ne_nil _ hne2
    rw [List.mem_filter] at hi
    exact ⟨i, hi.1, by simpa using hi.2⟩

theorem generateNLPMessageA_category (A : Arith) (host : Host) (c : String) (p a b tot : ℚ) :
    generateNLPMessageA A host "category_change" c p a b tot
      = if p > 50 then spikedMessage host c (mathRound p).natAbs a b
        else if p > 20 then moreMessage host c (mathRound p).natAbs a b
        else if p < -50 then cutMessageA A host c (mathRound p).natAbs a b
        else lessMessage host c (mathRound p).natAbs a b := by
  unfold generateNLPMessageA
  simp only [if_true]

/-! ## Insights in Number arithmetic: results -/

/-- C16 as stated fails: with two food expenses of 3.02 and 1.93 this month against one
of 5 last month, food has expenses in the current month and the percentage change of
its total is at least 1 in absolute value (the stored amounts add up to a little less
than 4.95, a change of a little more than 1 percent), yet in double arithmetic the
computed change is -0.9999999999999963 and the result carries no insight for food: it
is the single fallback insight. -/
theorem category_insight_lost_to_rounding :
    sampleRoundedCurrentMonth ≠ []
      ∧ (∃ t ∈ sampleRoundedCurrentMonth, t.type = "expense" ∧ t.category = "food")
      ∧ |categoryChange sampleRoundedCurrentMonth sampleRoundedPreviousMonth "food"| ≥ 1
      ∧ categoryChangeA doubleArith sampleRoundedCurrentMonth sampleRoundedPreviousMonth "food"
          = -(9007199254740959 / 9007199254740992)
      ∧ ¬ (∃ i ∈ buildInsightsA doubleArith sampleHost [] sampleRoundedCurrentMonth
              sampleRoundedPreviousMonth, i.category = some "food")
      ∧ (buildInsightsA doubleArith sampleHost [] sampleRoundedCurrentMonth
            sampleRoundedPreviousMonth).map (fun i => i.type) = ["info"] := by
  decide!

/-- C16, amended: for a non-empty current month and in every arithmetic, so in doubles,
the categories that carry an insight are exactly those with at least one expense
transaction in the current month for which the percentage change that the handler
computes (from the category totals, each added up in list order with the operators of
the arithmetic; the previous total is 0 when absent) is at least 1 in absolute value;
such a category carries exactly one insight, of type increase or decrease and with the
rounded computed change, and a category without an expense in the current month
carries none. -/
theorem category_insights_exact (A : Arith) (host : Host) (all cur prev : List Transaction)
    (hne : cur ≠ []) (c : String) :
    ((∃ i ∈ buildInsightsA A host all cur prev, i.category = some c)
        ↔ (∃ t ∈ cur, t.type = "expense" ∧ t.category = c)
          ∧ |categoryChangeA A cur prev c| ≥ 1)
      ∧ (((∃ t ∈ cur, t.type = "expense" ∧ t.category = c)
            ∧ |categoryChangeA A cur prev c| ≥ 1) →
          ((buildInsightsA A host all cur prev).filter
            (fun i => decide (i.category = some c))).length = 1)
      ∧ ((¬ ∃ t ∈ cur, t.type = "expense" ∧ t.category = c) →
          ∀ i ∈ buildInsightsA A host all cur prev, i.category ≠ some c)
      ∧ (∀ i ∈ buildInsightsA A host all cur prev, i.category = some c →
          (i.type = "increase" ∨ i.type = "decrease")
            ∧ i.percentageChange = some (mathRound (categoryChangeA A cur prev c))) := by
  have hcount := buildInsightsA_category_count A host all cur prev hne c
  have hex := category_insights_present_iff A host all cur prev hne c
  refine ⟨hex, ?_, ?_, ?_⟩
  · intro h
    rw [hcount, if_pos h]
  · intro hno i hi hc
    exact hno (hex.mp ⟨i, hi, hc⟩).1
  · intro i hi hc
    rcases mem_buildInsightsA_cases A host all cur prev i hi with hmem | hmem | hmem
    · rw [mem_categoryInsightsA] at hmem
      obtain ⟨k, -, hk⟩ := hmem
      have hkc := (categoryInsightA_category A host _ _ k i hk).1
      rw [hc] at hkc
      have hkeq : c = k := Option.some.inj hkc
      subst hkeq
      refine ⟨(categoryInsightA_category A host _ _ c i hk).2, ?_⟩
      rw [categoryInsightA_eq] at hk
      have h1 : |categoryChangeA A cur prev c| ≥ 1 := by
        by_contra hcon
        rw [if_neg hcon] at hk
        cases hk
      rw [if_pos h1] at hk
      rw [← Option.some.inj hk]
    · rw [(overallInsightsA_fields A host _ _ i hmem).1] at hc
      cases hc
    · rw [hmem.2] at hc
      cases hc

/-- C16, amended, in double arithmetic at the sample months and at the rounded ones:
food rose from 100 to 120, a computed change of exactly 20, and carries an insight;
with 3.02 and 1.93 against 5 the computed change is -0.9999999999999963 and food
carries none. -/
theorem category_insights_exact_witness :
    sampleCurrentMonth ≠ []
      ∧ categoryChangeA doubleArith sampleCurrentMonth samplePreviousMonth "food" = 20
      ∧ ((∃ i ∈ buildInsightsA doubleArith sampleHost [] sampleCurrentMonth samplePreviousMonth,
            i.category = some "food")
          ↔ (∃ t ∈ sampleCurrentMonth, t.type = "expense" ∧ t.category = "food")
            ∧ |categoryChangeA doubleArith sampleCurrentMonth samplePreviousMonth "food"| ≥ 1)
      ∧ ((∃ i ∈ buildInsightsA doubleArith sampleHost [] sampleRoundedCurrentMonth
              sampleRoundedPreviousMonth, i.category = some "food")
          ↔ (∃ t ∈ sampleRoundedCurrentMonth, t.type = "expense" ∧ t.category = "food")
            ∧ |categoryChangeA doubleArith sampleRoundedCurrentMonth
                sampleRoundedPreviousMonth "food"| ≥ 1) :=
  ⟨by decide, by decide!,
    (category_insights_exact doubleArith sampleHost [] sampleCurrentMonth samplePreviousMonth
      (by decide) "food").1,
    (category_insights_exact doubleArith sampleHost [] sampleRoundedCurrentMonth
      sampleRoundedPreviousMonth (by decide) "food").1⟩

/-- C17 as stated fails: with two food expenses of 3.02 and 1.93 this month against one
of 5 last month the current month is not empty and the percentage change of the
expense total is at least 1 in absolute value, yet in double arithmetic the computed
change is -0.9999999999999963 and the result holds no insight of type trend. -/
theorem overall_trend_lost_to_rounding :
    sampleRoundedCurrentMonth ≠ []
      ∧ |overallChange sampleRoundedCurrentMonth sampleRoundedPreviousMonth| ≥ 1
      ∧ overallChangeA doubleArith sampleRoundedCurrentMonth sampleRoundedPreviousMonth
          = -(9007199254740959 / 9007199254740992)
      ∧ ¬ (∃ i ∈ buildInsightsA doubleArith sampleHost [] sampleRoundedCurrentMonth
              sampleRoundedPreviousMonth, i.type = "trend") := by
  decide!

/-- C17, amended: in every arithmetic, so in doubles, the result contains an insight of
type trend exactly when the current month is not empty and the percentage change that
the handler computes for the expense total (the category totals added one after the
other, against the same sum for the previous month) is at least 1 in absolute value;
there is at most one, and when there is one it is the last element, it carries the
rounded computed change, and every element before it is a category insight. -/
theorem overall_trend_iff (A : Arith) (host : Host) (all cur prev : List Transaction) :
    ((∃ i ∈ buildInsightsA A host all cur prev, i.type = "trend")
        ↔ cur ≠ [] ∧ |overallChangeA A cur prev| ≥ 1)
      ∧ ((buildInsightsA A host all cur prev).filter
          (fun i => decide (i.type = "trend"))).length ≤ 1
      ∧ ((∃ i ∈ buildInsightsA A host all cur prev, i.type = "trend") →
          ∃ cats tr, buildInsightsA A host all cur prev = cats ++ [tr] ∧ tr.type = "trend"
            ∧ tr.percentageChange = some (mathRound (overallChangeA A cur prev))
            ∧ ∀ j ∈ cats, j.category ≠ none ∧ j.type ≠ "trend") := by
  have hinfo : ("info" : String) ≠ "trend" := by decide
  have hinc : ("increase" : String) ≠ "trend" := by decide
  have hdec : ("decrease" : String) ≠ "trend" := by decide
  by_cases hne : cur = []
  · subst hne
    have hb : buildInsightsA A host all [] prev = [emptyMonthInsight all] :=
      buildInsightsA_empty A host all prev
    have ht : (emptyMonthInsight all).type = "info" := (emptyMonthInsight_info all).1
    have hno : ¬ ∃ i ∈ buildInsightsA A host all [] prev, i.type = "trend" := by
      rintro ⟨i, hi, h⟩
      rw [hb, List.mem_singleton] at hi
      rw [hi, ht] at h
      exact hinfo h
    refine ⟨?_, ?_, fun h => absurd h hno⟩
    · constructor
      · intro h
        exact absurd h hno
      · intro h
        exact absurd rfl h.1
    · rw [hb]
      simp [ht]
  · have hcat := categoryInsightsA_fields A host (spendingByCategoryA A cur)
      (spendingByCategoryA A prev)
    have hcatnt : ∀ j ∈ categoryInsightsA A host (spendingByCategoryA A cur)
        (spendingByCategoryA A prev), j.category ≠ none ∧ j.type ≠ "trend" := by
      intro j hj
      refine ⟨(hcat j hj).1, ?_⟩
      rcases (hcat j hj).2 with e | e <;> rw [e]
      · exact hinc
      · exact hdec
    have hb := buildInsightsA_nonempty A host all cur prev hne
    have hov := overallInsightsA_eq A host cur prev
    by_cases hch : |overallChangeA A cur prev| ≥ 1
    · rw [if_pos hch] at hov
      rw [hov] at hb
      rw [if_neg (by simp)] at hb
      rw [hb]
      refine ⟨?_, ?_, ?_⟩
      · constructor
        · intro _
          exact ⟨hne, hch⟩
        · intro _
          exact ⟨_, List.mem_append_right _ (List.mem_singleton.mpr rfl), rfl⟩
      · rw [List.filter_append]
        have hnil : (categoryInsightsA A host (spendingByCategoryA A cur)
            (spendingByCategoryA A prev)).filter (fun i => decide (i.type = "trend")) = [] := by
          rw [List.filter_eq_nil_iff]
          intro j hj
          simpa using (hcatnt j hj).2
        rw [hnil]
        simp
      · intro _
        exact ⟨_, _, rfl, rfl, rfl, hcatnt⟩
    · rw [if_neg hch] at hov
      rw [hov, List.append_nil] at hb
      have hno : ¬ ∃ i ∈ buildInsightsA A host all cur prev, i.type = "trend" := by
        rintro ⟨i, hi, h⟩
        rw [hb] at hi
        split_ifs at hi with he
        · rw [List.mem_singleton.mp hi] at h
          exact hinfo h
        · exact (hcatnt i hi).2 h
      refine ⟨?_, ?_, fun h => absurd h hno⟩
      · constructor
        · intro h
          exact absurd h hno
        · intro h
          exact absurd h.2 hch
      · have hnil : (buildInsightsA A host all cur prev).filter
            (fun i => decide (i.type = "trend")) = [] := by
          rw [List.filter_eq_nil_iff]
          intro j hj hjt
          exact hno ⟨j, hj, by simpa using hjt⟩
        rw [hnil]
        simp

/-- C20 as stated fails: with two food expenses of 0.01 and 0.05 this month against one
of 0.05 last month the spending on food rose by a percentage between 1 and 20 (by 20
percent on the decimal amounts, by a little less on the stored ones), yet in double
arithmetic the computed change is 20.000000000000004, above 20, and the message uses
the more phrasing. -/
theorem small_rise_reads_more :
    (1 ≤ categoryChange sampleFifthCurrentMonth sampleFifthPreviousMonth "food"
        ∧ categoryChange sampleFifthCurrentMonth sampleFifthPreviousMonth "food" ≤ 20)
      ∧ categoryChangeA doubleArith sampleFifthCurrentMonth sampleFifthPreviousMonth "food"
          = 5629499534213121 / 281474976710656
      ∧ (buildInsightsA doubleArith sampleHost [] sampleFifthCurrentMonth
            sampleFifthPreviousMonth).head?
          = some
              { type := "increase"
                message :=
                  "You spent 20% more on food this month compared to last month ($0.06 vs $0.05)."
                details := "Current: $0.06 | Previous: $0.05"
                category := some "food"
                percentageChange := some 20 } := by
  decide!

/-- C20, amended: in every arithmetic, so in doubles, a category with an expense in
the current month for which the percentage change `p` that the handler computes
satisfies `1 ≤ p ≤ 20` carries an insight of type increase whose message is the less
template ("You spent ...% less on ..."), which is not the more template. -/
theorem small_rise_reads_less (A : Arith) (host : Host) (all cur prev : List Transaction)
    (c : String) (hex : ∃ t ∈ cur, t.type = "expense" ∧ t.category = c)
    (h1 : 1 ≤ categoryChangeA A cur prev c) (h20 : categoryChangeA A cur prev c ≤ 20) :
    ∃ i ∈ buildInsightsA A host all cur prev,
      i.category = some c ∧ i.type = "increase"
        ∧ i.percentageChange = some (mathRound (categoryChangeA A cur prev c))
        ∧ i.message
            = lessMessage host c (mathRound (categoryChangeA A cur prev c)).natAbs
                (amountSumA A (typedExpensesOfCategory cur c))
                (amountSumA A (typedExpensesOfCategory prev c))
        ∧ i.message
            ≠ moreMessage host c (mathRound (categoryChangeA A cur prev c)).natAbs
                (amountSumA A (typedExpensesOfCategory cur c))
                (amountSumA A (typedExpensesOfCategory prev c)) := by
  have hpos : categoryChangeA A cur prev c > 0 := lt_of_lt_of_le (by norm_num) h1
  have habs : |categoryChangeA A cur prev c| ≥ 1 := le_trans h1 (le_abs_self _)
  have hne : cur ≠ [] := by
    intro e
    obtain ⟨t, ht, -⟩ := hex
    rw [e] at ht
    simp at ht
  obtain ⟨i, hi, hc⟩ :=
    (category_insights_present_iff A host all cur prev hne c).mpr ⟨hex, habs⟩
  refine ⟨i, hi, hc, ?_⟩
  rcases mem_buildInsightsA_cases A host all cur prev i hi with h | h | h
  · rw [mem_categoryInsightsA] at h
    obtain ⟨k, -, hk⟩ := h
    have hkc := (categoryInsightA_category A host _ _ k i hk).1
    rw [hc] at hkc
    have hkeq : c = k := Option.some.inj hkc
    subst hkeq
    rw [categoryInsightA_eq, if_pos habs] at hk
    rw [← Option.some.inj hk]
    have hmsg : generateNLPMessageA A host "category_change" c (categoryChangeA A cur prev c)
        (amountSumA A (typedExpensesOfCategory cur c))
        (amountSumA A (typedExpensesOfCategory prev c)) 0
        = lessMessage host c (mathRound (categoryChangeA A cur prev c)).natAbs
            (amountSumA A (typedExpensesOfCategory cur c))
            (amountSumA A (typedExpensesOfCategory prev c)) := by
      rw [generateNLPMessageA_category, if_neg (not_lt.mpr (le_trans h20 (by norm_num))),
        if_neg (not_lt.mpr h20),
        if_neg (not_lt.mpr (le_trans (by norm_num) (le_of_lt hpos)))]
    refine ⟨by simp only [hpos, if_true], rfl, hmsg, ?_⟩
    simp only [hmsg]
    exact lessMessage_ne_moreMessage _ _ _ _ _
  · rw [(overallInsightsA_fields A host _ _ i h).1] at hc
    cases hc
  · rw [h.2] at hc
    cases hc

/-- C20, amended, in double arithmetic at the sample months: food rose from 100 to 120,
a computed change of exactly 20, and its insight reads "You spent 20% less on food". -/
theorem small_rise_reads_less_witness :
    (∃ t ∈ sampleCurrentMonth, t.type = "expense" ∧ t.category = "food")
      ∧ categoryChangeA doubleArith sampleCurrentMonth samplePreviousMonth "food" = 20
      ∧ (buildInsightsA doubleArith sampleHost [] sampleCurrentMonth samplePreviousMonth).head?
          = some
              { type := "increase"
                message :=
                  "You spent 20% less on food this month compared to last month ($120.00 vs $100.00)."
                details := "Current: $120.00 | Previous: $100.00"
                category := some "food"
                percentageChange := some 20 }
      ∧ (∃ i ∈ buildInsightsA doubleArith sampleHost [] sampleCurrentMonth samplePreviousMonth,
          i.category = some "food" ∧ i.type = "increase"
            ∧ i.percentageChange
                = some (mathRound
                    (categoryChangeA doubleArith sampleCurrentMonth samplePreviousMonth "food"))
            ∧ i.message
                = lessMessage sampleHost "food"
                    (mathRound
                      (categoryChangeA doubleArith sampleCurrentMonth samplePreviousMonth
                        "food")).natAbs
                    (amountSumA doubleArith (typedExpensesOfCategory sampleCurrentMonth "food"))
                    (amountSumA doubleArith (typedExpensesOfCategory samplePreviousMonth "food"))
            ∧ i.message
                ≠ moreMessage sampleHost "food"
                    (mathRound
                      (categoryChangeA doubleArith sampleCurrentMonth samplePreviousMonth
                        "food")).natAbs
                    (amountSumA doubleArith (typedExpensesOfCategory sampleCurrentMonth "food"))
                    (amountSumA doubleArith
                      (typedExpensesOfCategory samplePreviousMonth "food"))) :=
  ⟨by decide, by decide!, by decide!,
    small_rise_reads_less doubleArith sampleHost [] sampleCurrentMonth samplePreviousMonth "food"
      (by decide) (by decide!) (by decide!)⟩

end FinanceTracker
